import Mathlib

/-! Streams, messages, the object registry and the middleware of the XRCE agent.

A shallow embedding of `uxr/agent/client/session/stream/InputStream.hpp`:
the `ReliableInputStream` class with its sequence-number bookkeeping
(`next_message`, `pop_message`, `update_from_heartbeat`, `get_first_unacked`,
`get_nack_bitmap`, `reset`) and its fragment reassembly (`push_fragment`,
`pop_fragment_message`, over `uxr/agent/message/InputMessage.hpp`), and the
`BestEffortInputStream` class; of the creation-mode matrix and the deletion of
`src/cpp/client/ProxyClient.cpp`; of the error handling of
`src/cpp/transport/serial/MultiTermiosAgentLinux.cpp`; and of the registries of
`src/cpp/middleware/fastdds/FastDDSMiddleware.cpp`, followed by the properties
proved about them.

The mutex of a class is not modelled: every member function takes the lock
for its whole body, so each call is one atomic state transition.
-/

namespace uxr

/-! ## Sequence numbers -/

/-- Modelled from the spec: `uxr/agent/utils/SeqNum.hpp` is not part of the
sources. A `SeqNum` wraps one `uint16_t`, here a natural number below `2^16`. -/
@[ext]
structure SeqNum where
  seq_num_ : Nat
  isLt : seq_num_ < 65536
deriving DecidableEq

namespace SeqNum

/-- Modelled from the spec: the conversions `SeqNum(uint16_t)` and `SeqNum(int)`
of the missing `SeqNum.hpp`, which keep the low 16 bits. -/
def ofNat (n : Nat) : SeqNum := ⟨n % 65536, Nat.mod_lt _ (by decide)⟩

/-- Modelled from the spec: addition of the missing `SeqNum.hpp`, "16-bit value
with modular add": the sum is taken modulo `2^16`. -/
def add (a b : SeqNum) : SeqNum := ofNat (a.seq_num_ + b.seq_num_)

instance : Add SeqNum := ⟨add⟩

instance (n : Nat) : OfNat SeqNum n := ⟨ofNat n⟩

/-- Modelled from the spec: the ordering of the missing `SeqNum.hpp`. The spec
gives `a < b` as `(b − a) mod 2^16 < 2^15` and requires that of `a < b`,
`a == b`, `a > b` no two hold together, so equal numbers are not ordered. -/
def lt (a b : SeqNum) : Bool :=
  decide (a ≠ b) && decide ((b.seq_num_ + 65536 - a.seq_num_) % 65536 < 32768)

/-- Modelled from the spec: `a <= b` of the missing `SeqNum.hpp`, read as
`a == b` or `a < b`. -/
def le (a b : SeqNum) : Bool := decide (a = b) || lt a b

instance : LT SeqNum := ⟨fun a b => lt a b = true⟩

instance : LE SeqNum := ⟨fun a b => le a b = true⟩

instance (a b : SeqNum) : Decidable (a < b) := inferInstanceAs (Decidable (lt a b = true))

instance (a b : SeqNum) : Decidable (a ≤ b) := inferInstanceAs (Decidable (le a b = true))

/-- The larger of two sequence numbers in the wrap-aware order, as `std::max`
computes it from `<`: the second argument when the first is smaller. -/
def max (a b : SeqNum) : SeqNum := if a < b then b else a

end SeqNum

/-- The constant `UINT16_MAX`. -/
def UINT16_MAX : SeqNum := SeqNum.ofNat 65535

/-- Modelled from the spec: `uxr/agent/config.hpp` is not part of the sources;
the spec gives the window size `RELIABLE_STREAM_DEPTH` its default, 16. -/
def RELIABLE_STREAM_DEPTH : Nat := 16

/-! ## The message buffer `std::map<uint16_t, InputMessagePtr>` -/

/-- An `InputMessagePtr` is a `std::unique_ptr<InputMessage>`: either null or the
owner of a message. The stream never looks inside the message, so the message
type `M` is left open. -/
abbrev InputMessagePtr (M : Type) := Option M

/-- The entries of `messages_`. The key is the `uint16_t` a `SeqNum` converts
to. None of the member functions iterates over the map, so the order of the
entries in the list is not observable; `std::map` holds at most one entry per
key, which `insert` below maintains. -/
abbrev MessageMap (M : Type) := List (SeqNum × InputMessagePtr M)

namespace MessageMap

variable {M : Type}

/-- The call `messages_.find(k)`: the value stored under `k`, or `none` for `end()`. -/
def find (m : MessageMap M) (k : SeqNum) : Option (InputMessagePtr M) :=
  (List.find? (fun e => decide (e.1 = k)) m).map Prod.snd

/-- The call `messages_.insert(std::make_pair(k, v))`: `std::map::insert` adds the
pair only when no entry with key `k` exists and never replaces a stored value. -/
def insert (m : MessageMap M) (k : SeqNum) (v : InputMessagePtr M) : MessageMap M :=
  match find m k with
  | some _ => m
  | none => m ++ [(k, v)]

/-- The call `messages_.erase(k)`: drops the entry stored under `k`. -/
def erase (m : MessageMap M) (k : SeqNum) : MessageMap M :=
  List.filter (fun e => decide (e.1 ≠ k)) m

end MessageMap

/-! ## `ReliableInputStream` -/

/-- The data members of `ReliableInputStream` (the mutex apart). Bytes of
`fragment_msg_` are natural numbers below 256. -/
structure ReliableInputStream (M : Type) where
  last_handled_ : SeqNum
  last_announced_ : SeqNum
  messages_ : MessageMap M
  fragment_msg_ : List Nat
  fragment_message_available_ : Bool

namespace ReliableInputStream

variable {M : Type}

/-- The default constructor `ReliableInputStream()`. -/
def fresh : ReliableInputStream M :=
  { last_handled_ := UINT16_MAX
    last_announced_ := UINT16_MAX
    messages_ := []
    fragment_msg_ := []
    fragment_message_available_ := false }

/-- The member `next_message(seq_num, message)`. The result is the returned `rv`,
the caller's `message` after the call (null once it has been moved into the
pair handed to `insert`) and the stream after the call. -/
def next_message (s : ReliableInputStream M) (seq_num : SeqNum) (message : InputMessagePtr M) :
    Bool × InputMessagePtr M × ReliableInputStream M :=
  if seq_num = s.last_handled_ + 1 then
    (true, message, { s with last_handled_ := s.last_handled_ + 1 })
  else if seq_num > s.last_handled_ + 1 ∧
      seq_num ≤ s.last_handled_ + SeqNum.ofNat RELIABLE_STREAM_DEPTH then
    if seq_num > s.last_announced_ then
      (false, none,
        { s with last_announced_ := seq_num
                 messages_ := s.messages_.insert seq_num message })
    else
      match s.messages_.find seq_num with
      | none => (false, none, { s with messages_ := s.messages_.insert seq_num message })
      | some _ => (false, message, s)
  else
    (false, message, s)

/-- The member `pop_message(message)`. The result is the returned `rv`, the
caller's `message` after the call and the stream after the call. After a
successful `find`, `messages_.at(last_handled_)` is the value found. -/
def pop_message (s : ReliableInputStream M) (message : InputMessagePtr M) :
    Bool × InputMessagePtr M × ReliableInputStream M :=
  match s.messages_.find (s.last_handled_ + 1) with
  | some v =>
    (true, v,
      { s with last_handled_ := s.last_handled_ + 1
               messages_ := s.messages_.erase (s.last_handled_ + 1) })
  | none => (false, message, s)

/-- The member `update_from_heartbeat(first_available, last_available)`. -/
def update_from_heartbeat (s : ReliableInputStream M) (first_available last_available : SeqNum) :
    ReliableInputStream M :=
  let s1 := if s.last_handled_ + 1 < first_available then
      { s with last_handled_ := first_available } else s
  if s1.last_announced_ < last_available then
    { s1 with last_announced_ := last_available } else s1

/-- The member `get_first_unacked()`. -/
def get_first_unacked (s : ReliableInputStream M) : SeqNum := s.last_handled_ + 1

/-- One iteration of the loop of `get_nack_bitmap`, for loop index `i`, on the
pair `(bitmap.at(0), bitmap.at(1))`. The bytes are `uint8_t`: the result of the
`int` expression `bitmap.at(k) | (0x01 << i)` is stored modulo 256. -/
def nack_step (s : ReliableInputStream M) (bitmap : Nat × Nat) (i : Nat) : Nat × Nat :=
  let at1 :=
    if s.last_handled_ + SeqNum.ofNat i < s.last_announced_ then
      match s.messages_.find (s.last_handled_ + SeqNum.ofNat (i + 1)) with
      | none => (bitmap.2 ||| (1 <<< i)) % 256
      | some _ => bitmap.2
    else bitmap.2
  let at0 :=
    if s.last_handled_ + SeqNum.ofNat (i + 8) < s.last_announced_ then
      match s.messages_.find (s.last_handled_ + SeqNum.ofNat (i + 9)) with
      | none => (bitmap.1 ||| (1 <<< i)) % 256
      | some _ => bitmap.1
    else bitmap.1
  (at0, at1)

/-- The member `get_nack_bitmap()`: the loop runs `i` over `0 .. 7` from the
bitmap `{0, 0}`. The first component is `bitmap.at(0)`, the second `bitmap.at(1)`. -/
def get_nack_bitmap (s : ReliableInputStream M) : Nat × Nat :=
  List.foldl (nack_step s) (0, 0) (List.range 8)

/-- The member `reset()`. -/
def reset (s : ReliableInputStream M) : ReliableInputStream M :=
  { s with last_handled_ := UINT16_MAX
           last_announced_ := UINT16_MAX
           messages_ := [] }

/-! ## Runs of calls and the properties stated about them -/

/-- The guard of the buffering branch of `next_message`:
`(seq_num > last_handled_ + 1) && (seq_num <= last_handled_ + SeqNum(RELIABLE_STREAM_DEPTH))`. -/
def in_window (s : ReliableInputStream M) (seq : SeqNum) : Prop :=
  seq > s.last_handled_ + 1 ∧ seq ≤ s.last_handled_ + SeqNum.ofNat RELIABLE_STREAM_DEPTH

instance (s : ReliableInputStream M) (seq : SeqNum) : Decidable (in_window s seq) :=
  inferInstanceAs (Decidable (_ ∧ _))

/-- The states a stream can be in: those the member functions `next_message`,
`pop_message`, `update_from_heartbeat` and `reset` lead to from the freshly
constructed stream, whatever their arguments. -/
inductive Reachable : ReliableInputStream M → Prop
  | fresh : Reachable fresh
  | next_message (s : ReliableInputStream M) (seq_num : SeqNum) (message : InputMessagePtr M) :
      Reachable s → Reachable (s.next_message seq_num message).2.2
  | pop_message (s : ReliableInputStream M) (message : InputMessagePtr M) :
      Reachable s → Reachable (s.pop_message message).2.2
  | update_from_heartbeat (s : ReliableInputStream M) (first_available last_available : SeqNum) :
      Reachable s → Reachable (s.update_from_heartbeat first_available last_available)
  | reset (s : ReliableInputStream M) : Reachable s → Reachable s.reset

/-- The bound `last_handled <= last_announced <= last_handled + RELIABLE_STREAM_DEPTH`
in the wrap-aware order. -/
def window_invariant (s : ReliableInputStream M) : Prop :=
  s.last_handled_ ≤ s.last_announced_ ∧
  s.last_announced_ ≤ s.last_handled_ + SeqNum.ofNat RELIABLE_STREAM_DEPTH

instance (s : ReliableInputStream M) : Decidable (window_invariant s) :=
  inferInstanceAs (Decidable (_ ∧ _))

/-- Every key of `messages_` lies in the window
`(last_handled, last_handled + RELIABLE_STREAM_DEPTH]`. -/
def buffered_in_window (s : ReliableInputStream M) : Prop :=
  ∀ e ∈ s.messages_, s.last_handled_ < e.1 ∧
    e.1 ≤ s.last_handled_ + SeqNum.ofNat RELIABLE_STREAM_DEPTH

instance (s : ReliableInputStream M) : Decidable (buffered_in_window s) :=
  inferInstanceAs (Decidable (∀ e ∈ s.messages_, _))

/-- The states reached from the freshly constructed stream by calls that never step
`last_handled` over pending work: `next_message` is not called with the number
`last_handled + 1` while a message is buffered under it (the buffer is drained with
`pop_message` first), and `update_from_heartbeat` is called only with
`first_available` that does not move `last_handled`. -/
inductive ReachableDrained : ReliableInputStream M → Prop
  | fresh : ReachableDrained fresh
  | next_message (s : ReliableInputStream M) (seq_num : SeqNum) (message : InputMessagePtr M) :
      ReachableDrained s →
      (seq_num = s.last_handled_ + 1 → s.messages_.find seq_num = none) →
      ReachableDrained (s.next_message seq_num message).2.2
  | pop_message (s : ReliableInputStream M) (message : InputMessagePtr M) :
      ReachableDrained s → ReachableDrained (s.pop_message message).2.2
  | update_from_heartbeat (s : ReliableInputStream M) (first_available last_available : SeqNum) :
      ReachableDrained s → ¬ s.last_handled_ + 1 < first_available →
      ReachableDrained (s.update_from_heartbeat first_available last_available)
  | reset (s : ReliableInputStream M) : ReachableDrained s → ReachableDrained s.reset

/-- A call of `next_message` or of `pop_message`, with its arguments. -/
inductive StreamCall (M : Type) where
  | next_message (seq_num : SeqNum) (message : InputMessagePtr M)
  | pop_message (message : InputMessagePtr M)

/-- The sequence numbers of the messages that the `pop_message` calls of a run of
calls return, in order: a `pop_message` that returns true hands out the message
stored under the key `last_handled + 1`. -/
def popped_seqs (s : ReliableInputStream M) : List (StreamCall M) → List SeqNum
  | [] => []
  | StreamCall.next_message seq_num message :: calls =>
    popped_seqs (s.next_message seq_num message).2.2 calls
  | StreamCall.pop_message message :: calls =>
    if (s.pop_message message).1 then
      (s.last_handled_ + 1) :: popped_seqs (s.pop_message message).2.2 calls
    else popped_seqs (s.pop_message message).2.2 calls

/-- The numbers `lh + 1`, `lh + 2`, ..., `lh + n` arriving in order: `n` calls of
`next_message`, each with the number after the one before. -/
def in_order_calls (lh : SeqNum) : Nat → List (StreamCall M)
  | 0 => []
  | n + 1 => StreamCall.next_message (lh + 1) none :: in_order_calls (lh + 1) n

/-- The test that `get_nack_bitmap` makes for bit `j` of the bitmap before setting
it: `last_handled_ + SeqNum(j) < last_announced_`, and `find` of
`last_handled_ + SeqNum(j + 1)` gives `end()`. -/
def nack_guard (s : ReliableInputStream M) (j : Nat) : Bool :=
  decide (s.last_handled_ + SeqNum.ofNat j < s.last_announced_) &&
    (s.messages_.find (s.last_handled_ + SeqNum.ofNat (j + 1))).isNone

/-- Bit `i` of the 16-bit NACK bitmap: bits 0 to 7 are the bits of the low byte,
`bitmap.at(1)`, bits 8 to 15 those of the high byte, `bitmap.at(0)`. -/
def nack_bit (bitmap : Nat × Nat) (i : Nat) : Bool :=
  if i < 8 then bitmap.2.testBit i else bitmap.1.testBit (i - 8)

/-- The `n` consecutive sequence numbers `x`, `x + 1`, ..., `x + (n − 1)`, with
wrap-around addition. -/
def consecutive_from (x : SeqNum) (n : Nat) : List SeqNum :=
  (List.range n).map (fun i => x + SeqNum.ofNat i)

/-- At most `fuel` rounds of the caller's loop `while (pop_message(message))`,
collecting each popped message with its sequence number. -/
def pop_loop : Nat → ReliableInputStream M →
    List (SeqNum × InputMessagePtr M) × ReliableInputStream M
  | 0, s => ([], s)
  | fuel + 1, s =>
    if (s.pop_message none).1 then
      ((s.last_handled_ + 1, (s.pop_message none).2.1) ::
        (pop_loop fuel (s.pop_message none).2.2).1,
       (pop_loop fuel (s.pop_message none).2.2).2)
    else ([], s)

/-- The loop `while (pop_message(message))` run until `pop_message` returns false. Every
successful `pop_message` erases an entry, so as many rounds as there are entries are
enough (`pop_until_false_done` below). -/
def pop_until_false (s : ReliableInputStream M) :
    List (SeqNum × InputMessagePtr M) × ReliableInputStream M :=
  pop_loop s.messages_.length s

/-- One received pair: `next_message`, the message delivered at once when it returns
true, then `pop_message` until it returns false. The result is the list of
delivered messages with their sequence numbers and the stream afterwards. -/
def receive (s : ReliableInputStream M) (seq_num : SeqNum) (message : InputMessagePtr M) :
    List (SeqNum × InputMessagePtr M) × ReliableInputStream M :=
  ((if (s.next_message seq_num message).1 then
      [(seq_num, (s.next_message seq_num message).2.1)] else []) ++
    (pop_until_false (s.next_message seq_num message).2.2).1,
   (pop_until_false (s.next_message seq_num message).2.2).2)

/-- A whole sequence of received pairs, handled one after the other by `receive`. -/
def receive_all (s : ReliableInputStream M) :
    List (SeqNum × InputMessagePtr M) → List (SeqNum × InputMessagePtr M) × ReliableInputStream M
  | [] => ([], s)
  | p :: rest =>
    ((receive s p.1 p.2).1 ++ (receive_all (receive s p.1 p.2).2 rest).1,
     (receive_all (receive s p.1 p.2).2 rest).2)

/-- The received pairs as they reach `next_message`: the message that the sender
numbered `n`, counting from 0 without wrap-around, carries the sequence number
`SeqNum(n)`. -/
def on_wire (inputs : List (Nat × InputMessagePtr M)) : List (SeqNum × InputMessagePtr M) :=
  inputs.map (fun p => (SeqNum.ofNat p.1, p.2))

/-- The arrivals `numbers`, which follow the earlier arrivals `seen`, are duplicated
and reordered within `RELIABLE_STREAM_DEPTH`: when the message numbered `n` arrives,
every number `k` with `k + RELIABLE_STREAM_DEPTH <= n` has arrived before, so the
message is less than `RELIABLE_STREAM_DEPTH` ahead of the first number still missing;
and some number `k <= n + RELIABLE_STREAM_DEPTH` has not arrived, so a duplicate is at
most `RELIABLE_STREAM_DEPTH` behind the first missing number. -/
def bounded_after (seen : List Nat) : List Nat → Prop
  | [] => True
  | n :: rest =>
    (∀ k, k < n + 1 - RELIABLE_STREAM_DEPTH → k ∈ seen) ∧
    (∃ k, k < n + RELIABLE_STREAM_DEPTH + 1 ∧ k ∉ seen) ∧
    bounded_after (seen ++ [n]) rest

instance bounded_after_decidable :
    ∀ (seen numbers : List Nat), Decidable (bounded_after seen numbers)
  | _, [] => isTrue trivial
  | seen, n :: rest =>
    have := bounded_after_decidable (seen ++ [n]) rest
    inferInstanceAs (Decidable (_ ∧ _ ∧ _))

/-- The hypothesis "duplicates and reorderings bounded by `RELIABLE_STREAM_DEPTH`" on
the numbers of the received messages, in the order of their arrival at a fresh
stream. -/
def bounded_reordering (numbers : List Nat) : Prop := bounded_after [] numbers

instance (numbers : List Nat) : Decidable (bounded_reordering numbers) :=
  bounded_after_decidable [] numbers

/-- The delivered messages `delivered` carry the numbers `m`, `m + 1`, ... in this
order, each with a message that was received under that number. -/
def numbered (received : List (Nat × InputMessagePtr M)) :
    Nat → List (SeqNum × InputMessagePtr M) → Prop
  | _, [] => True
  | m, e :: delivered =>
    (e.1 = SeqNum.ofNat m ∧ (m, e.2) ∈ received) ∧ numbered received (m + 1) delivered

/-- The stream `s` has handled the messages `received` up to the number `m`: the next
number it hands out is `m`, every number below `m` has arrived, no arrival is
`RELIABLE_STREAM_DEPTH` or more ahead of `m`, and the buffer holds exactly the
arrivals numbered `m` or more, each under its sequence number. -/
def tracks (s : ReliableInputStream M) (received : List (Nat × InputMessagePtr M))
    (m : Nat) : Prop :=
  s.last_handled_ + 1 = SeqNum.ofNat m ∧
  (∀ k, k < m → k ∈ received.map Prod.fst) ∧
  (∀ n ∈ received.map Prod.fst, n < m + RELIABLE_STREAM_DEPTH) ∧
  (∀ e ∈ s.messages_, ∃ p ∈ received, m ≤ p.1 ∧ e = (SeqNum.ofNat p.1, p.2)) ∧
  (∀ n ∈ received.map Prod.fst, m ≤ n →
    (s.messages_.find (SeqNum.ofNat n)).isSome = true)

end ReliableInputStream

end uxr


namespace uxr

/-! ## Input messages (`uxr/agent/message/InputMessage.hpp`) -/

/-- Modelled from the spec: `dds::xrce::MessageHeader` of the missing `XRCETypes.hpp`.
The header of a message is the session id, the stream id, the 16-bit sequence number
and, when the session id is below 128, the four bytes of the client key. -/
structure MessageHeader where
  session_id : Nat
  stream_id : Nat
  sequence_nr : Nat
  client_key : List Nat
deriving DecidableEq

/-- Modelled from the spec: `dds::xrce::SubmessageHeader` of the missing
`XRCETypes.hpp`: submessage id, flags and 16-bit length. -/
structure SubmessageHeader where
  submessage_id : Nat
  flags : Nat
  submessage_length : Nat
deriving DecidableEq

/-- Modelled from the spec: the constant `dds::xrce::FLAG_LAST_FRAGMENT` of the
missing `XRCETypes.hpp`; the spec puts `LAST_FRAGMENT` in bit 7 of the flags. -/
def FLAG_LAST_FRAGMENT : Nat := 0x80

namespace MessageHeader

/-- The default-constructed header `MessageHeader()`. -/
def empty : MessageHeader :=
  { session_id := 0, stream_id := 0, sequence_nr := 0, client_key := [0, 0, 0, 0] }

/-- Modelled from the spec: `MessageHeader::deserialize` of the missing
`XRCETypes.cpp`, on a buffer read from its start. The header is 4 bytes (session id,
stream id, little-endian `sequence_nr`) and, when the session id is below 128, 4 more
bytes of client key. The deserializer throws before it reads a field for which bytes
are missing, so that field and the ones after it keep their default. The result is the
header and the position of the cursor afterwards. -/
def deserialize (buf : List Nat) : MessageHeader × Nat :=
  match buf with
  | [] => (empty, 0)
  | [a] => ({ empty with session_id := a }, 1)
  | [a, b] => ({ empty with session_id := a, stream_id := b }, 2)
  | [a, b, _] => ({ empty with session_id := a, stream_id := b }, 2)
  | a :: b :: c :: d :: rest =>
    if 128 > a then
      if 4 ≤ rest.length then
        ({ session_id := a, stream_id := b, sequence_nr := c + 256 * d,
           client_key := rest.take 4 }, 8)
      else
        ({ empty with session_id := a, stream_id := b, sequence_nr := c + 256 * d }, 4)
    else
      ({ empty with session_id := a, stream_id := b, sequence_nr := c + 256 * d }, 4)

end MessageHeader

/-- The data members of `InputMessage`: the bytes `buf_` (`len_` is their number), the
parsed `header_` and `subheader_`, and the state of `deserializer_`, which is the
offset of its current position from the start of the buffer. -/
structure InputMessage where
  buf_ : List Nat
  header_ : MessageHeader
  subheader_ : SubmessageHeader
  position : Nat
deriving DecidableEq

namespace InputMessage

/-- The constructor `InputMessage(buf, len)`: copies the bytes and deserializes the
header from them; the subheader is default-constructed. -/
def create (buf : List Nat) : InputMessage :=
  { buf_ := buf
    header_ := (MessageHeader.deserialize buf).1
    subheader_ := { submessage_id := 0, flags := 0, submessage_length := 0 }
    position := (MessageHeader.deserialize buf).2 }

/-- The member `get_raw_header(buf)`: the returned size, 8 when the session id is below
128 and 4 otherwise, and the bytes copied from the start of `buf_`. The `memcpy` reads
that many bytes from `buf_`, which therefore has to hold them: on a shorter buffer the
code reads past its end, which this definition does not describe (it gives the bytes
there are). The properties in which a header is copied assume that `buf_` holds the
returned number of bytes. -/
def get_raw_header (m : InputMessage) : Nat × List Nat :=
  if 128 > m.header_.session_id then (8, m.buf_.take 8) else (4, m.buf_.take 4)

/-- The member `get_raw_payload(buf, len)`, where `dest` is the content of the `len`
bytes at `buf`. When `submessage_length <= len`, `deserializeArray` copies
`submessage_length` bytes from the current position and advances the cursor, or throws
without copying when fewer bytes are left. The result is `rv`, the destination bytes
afterwards and the message afterwards. -/
def get_raw_payload (m : InputMessage) (dest : List Nat) : Bool × List Nat × InputMessage :=
  if m.subheader_.submessage_length ≤ dest.length then
    if m.position + m.subheader_.submessage_length ≤ m.buf_.length then
      (true,
       (m.buf_.drop m.position).take m.subheader_.submessage_length ++
         dest.drop m.subheader_.submessage_length,
       { m with position := m.position + m.subheader_.submessage_length })
    else (false, dest, m)
  else (false, dest, m)

/-- The payload of the current submessage: the `submessage_length` bytes from the
cursor on. -/
def payload (m : InputMessage) : List Nat :=
  (m.buf_.drop m.position).take m.subheader_.submessage_length

end InputMessage

namespace ReliableInputStream

/-- The member `push_fragment(message)` for a non-null `message`. The result is the
message afterwards (its cursor moves when the payload is read) and the stream
afterwards. `resize` appends `fragment_size` zero bytes, which `get_raw_payload`
overwrites. -/
def push_fragment (s : ReliableInputStream InputMessage) (message : InputMessage) :
    InputMessage × ReliableInputStream InputMessage :=
  let with_header :=
    if s.fragment_msg_.isEmpty then
      (message.get_raw_header.2.take message.get_raw_header.1) ++ s.fragment_msg_
    else s.fragment_msg_
  let position := with_header.length
  let fragment_size := message.subheader_.submessage_length
  let resized := with_header ++ List.replicate fragment_size 0
  let read := message.get_raw_payload (resized.drop position)
  (read.2.2,
   { s with
     fragment_msg_ := resized.take position ++ read.2.1
     fragment_message_available_ :=
       decide (0 ≠ (FLAG_LAST_FRAGMENT &&& message.subheader_.flags)) })

/-- The member `pop_fragment_message(message)`. The result is the returned value, the
caller's `message` afterwards and the stream afterwards. -/
def pop_fragment_message (s : ReliableInputStream InputMessage)
    (message : InputMessagePtr InputMessage) :
    Bool × InputMessagePtr InputMessage × ReliableInputStream InputMessage :=
  if s.fragment_message_available_ then
    (true, some (InputMessage.create s.fragment_msg_),
      { s with fragment_msg_ := [], fragment_message_available_ := false })
  else (false, message, s)

/-- The payloads of a list of fragments, one after the other. -/
def payloads : List InputMessage → List Nat
  | [] => []
  | m :: rest => m.payload ++ payloads rest

/-- The fragments of a list pushed one after the other with `push_fragment`. -/
def push_fragments (s : ReliableInputStream InputMessage) :
    List InputMessage → ReliableInputStream InputMessage
  | [] => s
  | m :: rest => push_fragments (s.push_fragment m).2 rest

/-- A FRAGMENT submessage as it reaches `push_fragment`: the message is built by the
constructor from the header bytes, the 4-byte subheader (submessage id 13, flags,
little-endian length) and the payload; the subheader has been parsed and the cursor
stands at the payload. -/
def fragment_message (header : List Nat) (flags : Nat) (payload : List Nat) : InputMessage :=
  { InputMessage.create
      (header ++ [13, flags, payload.length % 256, payload.length / 256] ++ payload) with
    subheader_ :=
      { submessage_id := 13, flags := flags, submessage_length := payload.length }
    position := header.length + 4 }

end ReliableInputStream

end uxr

namespace uxr

/-! ## The object registry of a client (`src/cpp/client/ProxyClient.cpp`) -/

/-- A `dds::xrce::ObjectId`: the two bytes `object_id[0]` and `object_id[1]`. -/
abbrev ObjectId := Nat × Nat

/-- A `dds::xrce::ObjectPrefix`: two bytes as well. -/
abbrev ObjectPrefix := Nat × Nat

/-- The two flags of `dds::xrce::CreationMode`. -/
structure CreationMode where
  reuse : Bool
  replace : Bool
deriving DecidableEq

/-- Modelled from the spec: the status values of the missing `XRCETypes.hpp`, as the
spec lists them. -/
inductive StatusValue where
  | STATUS_OK
  | STATUS_OK_MATCHED
  | STATUS_ERR_ALREADY_EXISTS
  | STATUS_ERR_MISMATCH
  | STATUS_ERR_INVALID_DATA
  | STATUS_ERR_UNKNOWN_REFERENCE
  | STATUS_ERR_DENIED
  | STATUS_ERR_RESOURCES
deriving DecidableEq

/-- A `dds::xrce::ResultStatus`. -/
structure ResultStatus where
  status : StatusValue
  implementation_status : Nat
deriving DecidableEq

/-- Modelled from the spec: the object kinds of the missing `XRCETypes.hpp`, as the
spec lists them. -/
inductive ObjectKind where
  | participant
  | topic
  | publisher
  | subscriber
  | datawriter
  | datareader
  | requester
  | replier
  | application
  | qosprofile
  | type
deriving DecidableEq

/-- The part of `OBJK_PARTICIPANT_Representation` that `ProxyClient` hands on: the
representation itself, by reference or as XML, of an open type `Rep`. -/
structure OBJK_PARTICIPANT_Representation (Rep : Type) where
  representation : Rep

/-- An `OBJK_TOPIC_Representation`: the id of the participant and the representation. -/
structure OBJK_TOPIC_Representation (Rep : Type) where
  participant_id : ObjectId
  representation : Rep

/-- An `OBJK_PUBLISHER_Representation`: the id of the participant and the
representation. -/
structure OBJK_PUBLISHER_Representation (Rep : Type) where
  participant_id : ObjectId
  representation : Rep

/-- An `OBJK_SUBSCRIBER_Representation`: the id of the participant and the
representation. -/
structure OBJK_SUBSCRIBER_Representation (Rep : Type) where
  participant_id : ObjectId
  representation : Rep

/-- A `DATAWRITER_Representation`: the id of the publisher and the representation. -/
structure DATAWRITER_Representation (Rep : Type) where
  publisher_id : ObjectId
  representation : Rep

/-- A `DATAREADER_Representation`: the id of the subscriber and the representation. -/
structure DATAREADER_Representation (Rep : Type) where
  subscriber_id : ObjectId
  representation : Rep

/-- A `dds::xrce::ObjectVariant`: a union whose active member goes with the kind that
`_d()` returns. -/
inductive ObjectVariant (Rep : Type) where
  | participant (r : OBJK_PARTICIPANT_Representation Rep)
  | topic (r : OBJK_TOPIC_Representation Rep)
  | publisher (r : OBJK_PUBLISHER_Representation Rep)
  | subscriber (r : OBJK_SUBSCRIBER_Representation Rep)
  | data_writer (r : DATAWRITER_Representation Rep)
  | data_reader (r : DATAREADER_Representation Rep)
  | requester (r : Rep)
  | replier (r : Rep)
  | application (r : Rep)
  | qosprofile (r : Rep)
  | type (r : Rep)

/-- The kind of the active member of an `ObjectVariant`. -/
def ObjectVariant.kind {Rep : Type} : ObjectVariant Rep → ObjectKind
  | ObjectVariant.participant _ => ObjectKind.participant
  | ObjectVariant.topic _ => ObjectKind.topic
  | ObjectVariant.publisher _ => ObjectKind.publisher
  | ObjectVariant.subscriber _ => ObjectKind.subscriber
  | ObjectVariant.data_writer _ => ObjectKind.datawriter
  | ObjectVariant.data_reader _ => ObjectKind.datareader
  | ObjectVariant.requester _ => ObjectKind.requester
  | ObjectVariant.replier _ => ObjectKind.replier
  | ObjectVariant.application _ => ObjectKind.application
  | ObjectVariant.qosprofile _ => ObjectKind.qosprofile
  | ObjectVariant.type _ => ObjectKind.type

/-- The `XRCEObject::ObjectContainer` of a client: the entries of the map from
`ObjectId` to the registered object, of an open type `Obj`. The map holds at most one
entry per key and is never iterated by the functions below. -/
abbrev ObjectContainer (Obj : Type) := List (ObjectId × Obj)

namespace ObjectContainer

variable {Obj : Type}

/-- The call `objects_.find(id)`: the object stored under `id`, or `none` for `end()`. -/
def find (m : ObjectContainer Obj) (id : ObjectId) : Option Obj :=
  (List.find? (fun e => decide (e.1 = id)) m).map Prod.snd

/-- The call `objects_.emplace(id, object)`: the pair is added only when no entry with
key `id` exists; the second component is the `.second` of the result, whether the pair
was added. -/
def emplace (m : ObjectContainer Obj) (id : ObjectId) (object : Obj) :
    ObjectContainer Obj × Bool :=
  match find m id with
  | some _ => (m, false)
  | none => (m ++ [(id, object)], true)

/-- The call `objects_.erase(id)`: drops the entry stored under `id`. -/
def erase (m : ObjectContainer Obj) (id : ObjectId) : ObjectContainer Obj :=
  List.filter (fun e => decide (e.1 ≠ id)) m

end ObjectContainer

/-- The classes and constants that `ProxyClient.cpp` uses and that are not part of the
sources, taken as parameters: the numeric object kinds `OBJK_*` (each fits the low
nibble of an id, and different kinds have different values), the factories
`Participant::create`, `Topic::create`, ..., which return a null pointer when the
entity cannot be created, and the virtual `XRCEObject::matched`. A factory that is
given the parent receives the registered object that `find` returned, before the
`dynamic_pointer_cast`. -/
structure Entities (Obj Rep : Type) where
  code : ObjectKind → Nat
  code_lt : ∀ k, code k < 16
  code_inj : ∀ a b, code a = code b → a = b
  participant_create : ObjectId → OBJK_PARTICIPANT_Representation Rep → Option Obj
  topic_create : ObjectId → Obj → OBJK_TOPIC_Representation Rep → Option Obj
  publisher_create : ObjectId → Obj → OBJK_PUBLISHER_Representation Rep → Option Obj
  subscriber_create : ObjectId → Obj → OBJK_SUBSCRIBER_Representation Rep → Option Obj
  datawriter_create :
    ObjectId → Obj → DATAWRITER_Representation Rep → ObjectContainer Obj → Option Obj
  datareader_create :
    ObjectId → Obj → DATAREADER_Representation Rep → ObjectContainer Obj → Option Obj
  matched : Obj → ObjectVariant Rep → Bool

/-- The data member `objects_` of `ProxyClient`. The session, the client
representation and the middleware handle are not touched by the functions below other
than through the factories. -/
structure ProxyClient (Obj : Type) where
  objects_ : ObjectContainer Obj

namespace ProxyClient

variable {Obj Rep : Type}

/-- The tail of every `create_*` function: `objects_.emplace(object_id, std::move(x))`
and `rv = true` when the pair was added. -/
def emplace_object (c : ProxyClient Obj) (object_id : ObjectId) (object : Obj) :
    Bool × ProxyClient Obj :=
  if (c.objects_.emplace object_id object).2 then
    (true, { objects_ := (c.objects_.emplace object_id object).1 })
  else (false, { objects_ := (c.objects_.emplace object_id object).1 })

/-- The member `create_participant(object_id, representation)`. -/
def create_participant (E : Entities Obj Rep) (c : ProxyClient Obj) (object_id : ObjectId)
    (representation : OBJK_PARTICIPANT_Representation Rep) : Bool × ProxyClient Obj :=
  if E.code ObjectKind.participant = object_id.2 &&& 0x0F then
    match E.participant_create object_id representation with
    | some participant => c.emplace_object object_id participant
    | none => (false, c)
  else (false, c)

/-- The member `create_topic(object_id, representation)`. -/
def create_topic (E : Entities Obj Rep) (c : ProxyClient Obj) (object_id : ObjectId)
    (representation : OBJK_TOPIC_Representation Rep) : Bool × ProxyClient Obj :=
  if E.code ObjectKind.participant = representation.participant_id.2 &&& 0x0F ∧
      E.code ObjectKind.topic = object_id.2 &&& 0x0F then
    match c.objects_.find representation.participant_id with
    | some participant =>
      match E.topic_create object_id participant representation with
      | some topic => c.emplace_object object_id topic
      | none => (false, c)
    | none => (false, c)
  else (false, c)

/-- The member `create_publisher(object_id, representation)`. -/
def create_publisher (E : Entities Obj Rep) (c : ProxyClient Obj) (object_id : ObjectId)
    (representation : OBJK_PUBLISHER_Representation Rep) : Bool × ProxyClient Obj :=
  if E.code ObjectKind.participant = representation.participant_id.2 &&& 0x0F ∧
      E.code ObjectKind.publisher = object_id.2 &&& 0x0F then
    match c.objects_.find representation.participant_id with
    | some participant =>
      match E.publisher_create object_id participant representation with
      | some publisher => c.emplace_object object_id publisher
      | none => (false, c)
    | none => (false, c)
  else (false, c)

/-- The member `create_subscriber(object_id, representation)`. -/
def create_subscriber (E : Entities Obj Rep) (c : ProxyClient Obj) (object_id : ObjectId)
    (representation : OBJK_SUBSCRIBER_Representation Rep) : Bool × ProxyClient Obj :=
  if E.code ObjectKind.participant = representation.participant_id.2 &&& 0x0F ∧
      E.code ObjectKind.subscriber = object_id.2 &&& 0x0F then
    match c.objects_.find representation.participant_id with
    | some participant =>
      match E.subscriber_create object_id participant representation with
      | some subscriber => c.emplace_object object_id subscriber
      | none => (false, c)
    | none => (false, c)
  else (false, c)

/-- The member `create_datawriter(object_id, representation)`. -/
def create_datawriter (E : Entities Obj Rep) (c : ProxyClient Obj) (object_id : ObjectId)
    (representation : DATAWRITER_Representation Rep) : Bool × ProxyClient Obj :=
  if E.code ObjectKind.publisher = representation.publisher_id.2 &&& 0x0F ∧
      E.code ObjectKind.datawriter = object_id.2 &&& 0x0F then
    match c.objects_.find representation.publisher_id with
    | some publisher =>
      match E.datawriter_create object_id publisher representation c.objects_ with
      | some datawriter => c.emplace_object object_id datawriter
      | none => (false, c)
    | none => (false, c)
  else (false, c)

/-- The member `create_datareader(object_id, representation)`. -/
def create_datareader (E : Entities Obj Rep) (c : ProxyClient Obj) (object_id : ObjectId)
    (representation : DATAREADER_Representation Rep) : Bool × ProxyClient Obj :=
  if E.code ObjectKind.subscriber = representation.subscriber_id.2 &&& 0x0F ∧
      E.code ObjectKind.datareader = object_id.2 &&& 0x0F then
    match c.objects_.find representation.subscriber_id with
    | some subscriber =>
      match E.datareader_create object_id subscriber representation c.objects_ with
      | some datareader => c.emplace_object object_id datareader
      | none => (false, c)
    | none => (false, c)
  else (false, c)

/-- The private overload `create_object(object_id, representation)`: the `switch` over
`representation._d()`. Application, QoS profile and type are not implemented and the
remaining kinds fall to `default`; `rv` stays false for them. -/
def create_object_by_id (E : Entities Obj Rep) (c : ProxyClient Obj) (object_id : ObjectId)
    (representation : ObjectVariant Rep) : Bool × ProxyClient Obj :=
  match representation with
  | ObjectVariant.participant r => create_participant E c object_id r
  | ObjectVariant.topic r => create_topic E c object_id r
  | ObjectVariant.publisher r => create_publisher E c object_id r
  | ObjectVariant.subscriber r => create_subscriber E c object_id r
  | ObjectVariant.data_writer r => create_datawriter E c object_id r
  | ObjectVariant.data_reader r => create_datareader E c object_id r
  | ObjectVariant.application _ => (false, c)
  | ObjectVariant.qosprofile _ => (false, c)
  | ObjectVariant.type _ => (false, c)
  | ObjectVariant.requester _ => (false, c)
  | ObjectVariant.replier _ => (false, c)

/-- The `ObjectId` that `create_object` computes: the first byte of the prefix, and
the high nibble of its second byte with `object_representation._d()`; the byte is a
`uint8_t`. -/
def compute_object_id (E : Entities Obj Rep) (objectid_prefix_ : ObjectPrefix)
    (object_representation : ObjectVariant Rep) : ObjectId :=
  (objectid_prefix_.1,
   ((objectid_prefix_.2 &&& 0xF0) ||| E.code object_representation.kind) % 256)

/-- The `ResultStatus` with the given status and `implementation_status` 0. -/
def result_of (status : StatusValue) : ResultStatus :=
  { status := status, implementation_status := 0 }

/-- The step "erase, then create" of the replace branches of `create_object`. -/
def replace_object (E : Entities Obj Rep) (c : ProxyClient Obj) (object_id : ObjectId)
    (object_representation : ObjectVariant Rep) : ResultStatus × ProxyClient Obj :=
  if !(create_object_by_id E { objects_ := c.objects_.erase object_id } object_id
      object_representation).1 then
    (result_of StatusValue.STATUS_ERR_UNKNOWN_REFERENCE,
      (create_object_by_id E { objects_ := c.objects_.erase object_id } object_id
        object_representation).2)
  else
    (result_of StatusValue.STATUS_OK,
      (create_object_by_id E { objects_ := c.objects_.erase object_id } object_id
        object_representation).2)

/-- The public member `create_object(creation_mode, objectid_prefix,
object_representation)`. The result is the returned status and the client
afterwards. -/
def create_object (E : Entities Obj Rep) (c : ProxyClient Obj) (creation_mode : CreationMode)
    (objectid_prefix_ : ObjectPrefix) (object_representation : ObjectVariant Rep) :
    ResultStatus × ProxyClient Obj :=
  match c.objects_.find (compute_object_id E objectid_prefix_ object_representation) with
  | none =>
    if !(create_object_by_id E c (compute_object_id E objectid_prefix_ object_representation)
        object_representation).1 then
      (result_of StatusValue.STATUS_ERR_UNKNOWN_REFERENCE,
        (create_object_by_id E c (compute_object_id E objectid_prefix_ object_representation)
          object_representation).2)
    else
      (result_of StatusValue.STATUS_OK,
        (create_object_by_id E c (compute_object_id E objectid_prefix_ object_representation)
          object_representation).2)
  | some existing =>
    if !creation_mode.reuse then
      if !creation_mode.replace then
        (result_of StatusValue.STATUS_ERR_ALREADY_EXISTS, c)
      else
        replace_object E c (compute_object_id E objectid_prefix_ object_representation)
          object_representation
    else
      if !creation_mode.replace then
        if E.matched existing object_representation then
          (result_of StatusValue.STATUS_OK_MATCHED, c)
        else (result_of StatusValue.STATUS_ERR_MISMATCH, c)
      else
        if E.matched existing object_representation then
          (result_of StatusValue.STATUS_OK_MATCHED, c)
        else
          replace_object E c (compute_object_id E objectid_prefix_ object_representation)
            object_representation

/-- The member `get_object(object_id)`: the registered object, or a null pointer. -/
def get_object (c : ProxyClient Obj) (object_id : ObjectId) : Option Obj :=
  c.objects_.find object_id

/-- The entity that a representation yields for `object_id` in a registry: what the
factory of its kind returns, given the parent that the representation names when the
kind has one (an id of the parent's kind, registered). `none` stands for "cannot be
created": the factory returns null, the parent is missing, or the kind is one that
`create_object` does not implement. -/
def requested_entity (E : Entities Obj Rep) (objects : ObjectContainer Obj)
    (object_id : ObjectId) : ObjectVariant Rep → Option Obj
  | ObjectVariant.participant r => E.participant_create object_id r
  | ObjectVariant.topic r =>
    if E.code ObjectKind.participant = r.participant_id.2 &&& 0x0F then
      (objects.find r.participant_id).bind (fun p => E.topic_create object_id p r)
    else none
  | ObjectVariant.publisher r =>
    if E.code ObjectKind.participant = r.participant_id.2 &&& 0x0F then
      (objects.find r.participant_id).bind (fun p => E.publisher_create object_id p r)
    else none
  | ObjectVariant.subscriber r =>
    if E.code ObjectKind.participant = r.participant_id.2 &&& 0x0F then
      (objects.find r.participant_id).bind (fun p => E.subscriber_create object_id p r)
    else none
  | ObjectVariant.data_writer r =>
    if E.code ObjectKind.publisher = r.publisher_id.2 &&& 0x0F then
      (objects.find r.publisher_id).bind (fun p => E.datawriter_create object_id p r objects)
    else none
  | ObjectVariant.data_reader r =>
    if E.code ObjectKind.subscriber = r.subscriber_id.2 &&& 0x0F then
      (objects.find r.subscriber_id).bind (fun p => E.datareader_create object_id p r objects)
    else none
  | ObjectVariant.requester _ => none
  | ObjectVariant.replier _ => none
  | ObjectVariant.application _ => none
  | ObjectVariant.qosprofile _ => none
  | ObjectVariant.type _ => none

end ProxyClient

/-! ## The entry point of a create request -/

namespace Agent

variable {Obj Rep : Type}

/-- Modelled from the spec: the entry points of a create request that carries a full
object id (`Agent::create_participant_by_ref` and its siblings of the missing
`Agent.cpp`, which the unit tests call). The spec asks that the low nibble of
`object_id` equal the kind discriminator of the representation, otherwise the
request is answered with `INVALID_DATA`; a request that passes is handed to
`ProxyClient::create_object`. -/
def create_object (E : Entities Obj Rep) (c : ProxyClient Obj) (creation_mode : CreationMode)
    (object_id : ObjectId) (object_representation : ObjectVariant Rep) :
    ResultStatus × ProxyClient Obj :=
  if object_id.2 &&& 0x0F = E.code object_representation.kind then
    c.create_object E creation_mode object_id object_representation
  else (ProxyClient.result_of StatusValue.STATUS_ERR_INVALID_DATA, c)

end Agent

/-- The object kinds with the values that the DDS-XRCE standard gives them, and
factories for a registry whose objects are their representations (a natural number):
an entity can be created from every representation but 0, and an object matches the
representation it was created from. Used to run the functions on examples. -/
def example_entities : Entities Nat Nat where
  code := fun k =>
    match k with
    | ObjectKind.participant => 0x01
    | ObjectKind.topic => 0x02
    | ObjectKind.publisher => 0x03
    | ObjectKind.subscriber => 0x04
    | ObjectKind.datawriter => 0x05
    | ObjectKind.datareader => 0x06
    | ObjectKind.requester => 0x07
    | ObjectKind.replier => 0x08
    | ObjectKind.type => 0x0A
    | ObjectKind.qosprofile => 0x0B
    | ObjectKind.application => 0x0C
  code_lt := fun k => by cases k <;> decide
  code_inj := fun a b => by cases a <;> cases b <;> decide
  participant_create := fun _ r => if r.representation = 0 then none else some r.representation
  topic_create := fun _ _ r => if r.representation = 0 then none else some r.representation
  publisher_create := fun _ _ r => if r.representation = 0 then none else some r.representation
  subscriber_create := fun _ _ r => if r.representation = 0 then none else some r.representation
  datawriter_create := fun _ _ r _ =>
    if r.representation = 0 then none else some r.representation
  datareader_create := fun _ _ r _ =>
    if r.representation = 0 then none else some r.representation
  matched := fun obj rep =>
    match rep with
    | ObjectVariant.participant r => decide (obj = r.representation)
    | ObjectVariant.topic r => decide (obj = r.representation)
    | ObjectVariant.publisher r => decide (obj = r.representation)
    | ObjectVariant.subscriber r => decide (obj = r.representation)
    | ObjectVariant.data_writer r => decide (obj = r.representation)
    | ObjectVariant.data_reader r => decide (obj = r.representation)
    | ObjectVariant.requester r => decide (obj = r)
    | ObjectVariant.replier r => decide (obj = r)
    | ObjectVariant.application r => decide (obj = r)
    | ObjectVariant.qosprofile r => decide (obj = r)
    | ObjectVariant.type r => decide (obj = r)

end uxr

namespace uxr

/-! ## Best-effort input streams and the alignment of submessages -/

namespace SeqNum

/-- Modelled from the spec: the comparison read word for word from the sentence
"`a < b` iff `(b − a) mod 2^16 < 2^15`", without the exclusion of equal numbers that
`lt` makes. It is used only to compare the two readings. -/
def lt_as_written (a b : SeqNum) : Bool :=
  decide ((b.seq_num_ + 65536 - a.seq_num_) % 65536 < 32768)

end SeqNum

/-- The data member of `BestEffortInputStream`. -/
structure BestEffortInputStream where
  last_received_ : SeqNum
deriving DecidableEq

namespace BestEffortInputStream

/-- The constructor `BestEffortInputStream()`: `last_received_(UINT16_MAX)`. -/
def fresh : BestEffortInputStream := { last_received_ := UINT16_MAX }

/-- The member `reset()`: `last_received_ = UINT16_MAX`. -/
def reset (_s : BestEffortInputStream) : BestEffortInputStream :=
  { last_received_ := UINT16_MAX }

/-- The member `next_message(seq_num)`: the returned flag and the stream afterwards. -/
def next_message (s : BestEffortInputStream) (seq_num : SeqNum) :
    Bool × BestEffortInputStream :=
  if seq_num > s.last_received_ then
    (true, { s with last_received_ := seq_num })
  else (false, s)

end BestEffortInputStream

namespace SubmessageHeader

/-- Modelled from the spec: `SubmessageHeader::deserialize` of the missing
`XRCETypes.cpp`, reading from offset `pos` of `buf` into the header `h`. The subheader
is 4 bytes: submessage id, flags and the little-endian 16-bit length, which CDR aligns
to an even offset. The deserializer throws before it reads a field for which bytes are
missing, so that field and the ones after it keep their value. The result is whether
nothing was thrown, the header afterwards and the offset of the cursor afterwards. -/
def deserialize (h : SubmessageHeader) (buf : List Nat) (pos : Nat) :
    Bool × SubmessageHeader × Nat :=
  if pos + 1 ≤ buf.length then
    if pos + 2 ≤ buf.length then
      if pos + 2 + (pos + 2) % 2 + 2 ≤ buf.length then
        (true,
         { submessage_id := buf.getD pos 0
           flags := buf.getD (pos + 1) 0
           submessage_length :=
             buf.getD (pos + 2 + (pos + 2) % 2) 0 +
               256 * buf.getD (pos + 2 + (pos + 2) % 2 + 1) 0 },
         pos + 2 + (pos + 2) % 2 + 2)
      else
        (false, { h with submessage_id := buf.getD pos 0, flags := buf.getD (pos + 1) 0 },
         pos + 2)
    else (false, { h with submessage_id := buf.getD pos 0 }, pos + 1)
  else (false, h, pos)

end SubmessageHeader

namespace InputMessage

/-- The call `deserializer_.jump(numBytes)` of the Fast-CDR library, whose body is
`if ((m_lastPosition - m_currentPosition) >= numBytes || resize(numBytes))
{ m_currentPosition += numBytes; returnedValue = true; }`: the current position moves
only when `numBytes` bytes are left between it and the end of the buffer, or the
buffer can be resized, which a `FastBuffer` that wraps caller memory, as `fastbuffer_`
does, cannot; otherwise `jump` returns false and leaves the position where it is.
`prepare_next_submessage` does not look at the returned flag. -/
def jump (m : InputMessage) (numBytes : Nat) : InputMessage :=
  if numBytes ≤ m.buf_.length - m.position then
    { m with position := m.position + numBytes }
  else m

end InputMessage

namespace ObjectVariant

variable {Rep : Type}

/-- The reference that a representation makes to its parent, with the kind that
`create_object` asks of the parent: a topic, publisher or subscriber names its
participant, a data writer its publisher and a data reader its subscriber; for the
other representations `create_object` looks up no parent. Used to state the
referential rule. -/
def parent_reference : ObjectVariant Rep → Option (ObjectKind × ObjectId)
  | ObjectVariant.topic r => some (ObjectKind.participant, r.participant_id)
  | ObjectVariant.publisher r => some (ObjectKind.participant, r.participant_id)
  | ObjectVariant.subscriber r => some (ObjectKind.participant, r.participant_id)
  | ObjectVariant.data_writer r => some (ObjectKind.publisher, r.publisher_id)
  | ObjectVariant.data_reader r => some (ObjectKind.subscriber, r.subscriber_id)
  | _ => none

end ObjectVariant

namespace ProxyClient

variable {Obj : Type}

/-- The member `delete_object(object_id)`: the status and the client afterwards.
`release` stands for the virtual `XRCEObject::release(objects_)` of the registered
object, whose classes are not part of the sources; it is handed the registry and may
change it, and the object is erased from what it leaves. -/
def delete_object (release : Obj → ObjectContainer Obj → ObjectContainer Obj)
    (c : ProxyClient Obj) (object_id : ObjectId) : ResultStatus × ProxyClient Obj :=
  match c.objects_.find object_id with
  | some object =>
    (result_of StatusValue.STATUS_OK,
     { objects_ := (release object c.objects_).erase object_id })
  | none => (result_of StatusValue.STATUS_ERR_UNKNOWN_REFERENCE, c)

end ProxyClient

end uxr

namespace uxr

/-! ## The multi-port serial agent (`src/cpp/transport/serial/MultiTermiosAgentLinux.cpp`) -/

/-- The data members of `MultiTermiosAgent` that `handle_error` works on: the devices
that wait to be opened, `devs_`; the map `initialized_devs_` from the file descriptor
of an open device to its name, as the list of its entries; and the vector `error_fd`
of the file descriptors reported as failed. The threads, locks and the condition
variable are not modelled. -/
structure MultiTermiosAgent where
  devs_ : List String
  initialized_devs_ : List (Int × String)
  error_fd : List Int
deriving DecidableEq

namespace MultiTermiosAgent

/-- The call `std::unique(first, last)` with the `erase` that follows it: of every run
of equal neighbours one element is kept. -/
def unique : List Int → List Int
  | [] => []
  | [a] => [a]
  | a :: b :: rest => if a = b then unique (b :: rest) else a :: unique (b :: rest)

/-- The call `initialized_devs_.find(fd)`: the entry with key `fd`, or `none` for
`end()`. -/
def find (devs : List (Int × String)) (fd : Int) : Option (Int × String) :=
  List.find? (fun e => decide (e.1 = fd)) devs

/-- The call `initialized_devs_.erase(it)` for the iterator of the entry with key
`fd`. -/
def erase (devs : List (Int × String)) (fd : Int) : List (Int × String) :=
  List.filter (fun e => decide (e.1 ≠ fd)) devs

/-- The member `restart_serial(it)` for the entry `it` points to: the returned flag
and the agent afterwards. `remove_serial` is a member of the base class
`MultiSerialAgent`, which is not part of the sources; it is taken as the flag it
returns for a file descriptor. -/
def restart_serial (remove_serial : Int → Bool) (a : MultiTermiosAgent)
    (entry : Int × String) : Bool × MultiTermiosAgent :=
  if remove_serial entry.1 then (true, { a with devs_ := a.devs_ ++ [entry.2] })
  else (false, a)

/-- The loop of `fini()` over the entries of `initialized_devs_` that are still to be
visited: an entry whose device can be restarted is erased, another one makes `rv`
false. The result is `rv` and the agent afterwards. -/
def fini_loop (remove_serial : Int → Bool) :
    List (Int × String) → Bool × MultiTermiosAgent → Bool × MultiTermiosAgent
  | [], st => st
  | entry :: rest, st =>
    if (restart_serial remove_serial st.2 entry).1 then
      fini_loop remove_serial rest
        (st.1,
         { (restart_serial remove_serial st.2 entry).2 with
           initialized_devs_ :=
             erase (restart_serial remove_serial st.2 entry).2.initialized_devs_ entry.1 })
    else fini_loop remove_serial rest (false, st.2)

/-- The member `fini()`, the joining of the thread apart. -/
def fini (remove_serial : Int → Bool) (a : MultiTermiosAgent) : Bool × MultiTermiosAgent :=
  fini_loop remove_serial a.initialized_devs_ (true, a)

/-- The variables of the loop of `handle_error` over `error_fd`: the agent, the
iterator `serial_fd` as an index into `error_fd`, and `rv`. -/
structure ErrorLoop where
  agent : MultiTermiosAgent
  serial_fd : Nat
  rv : Bool
deriving DecidableEq

/-- One pass through the body of the loop of `handle_error`, entered with
`serial_fd != error_fd.end()`. When `*serial_fd` is a key of `initialized_devs_` the
device is restarted: on success the entry and the descriptor are erased and
`serial_fd` points to the next descriptor, which has moved to the same index; on
failure `serial_fd` is incremented and `rv` is false. When `*serial_fd` is not a key
the body does nothing. -/
def handle_error_body (remove_serial : Int → Bool) (st : ErrorLoop) : ErrorLoop :=
  match st.agent.error_fd.get? st.serial_fd with
  | none => st
  | some fd =>
    match find st.agent.initialized_devs_ fd with
    | some it =>
      if (restart_serial remove_serial st.agent it).1 then
        { st with
          agent :=
            { (restart_serial remove_serial st.agent it).2 with
              initialized_devs_ :=
                erase (restart_serial remove_serial st.agent it).2.initialized_devs_ it.1
              error_fd := st.agent.error_fd.eraseIdx st.serial_fd } }
      else { st with serial_fd := st.serial_fd + 1, rv := false }
    | none => st

/-- The loop `for (serial_fd = error_fd.begin(); serial_fd != error_fd.end(); )` of
`handle_error`, run for at most `fuel` passes: the variables when the loop is left,
or `none` when it is not left within `fuel` passes. -/
def handle_error_loop (remove_serial : Int → Bool) : Nat → ErrorLoop → Option ErrorLoop
  | 0, st => if st.serial_fd ≠ st.agent.error_fd.length then none else some st
  | fuel + 1, st =>
    if st.serial_fd ≠ st.agent.error_fd.length then
      handle_error_loop remove_serial fuel (handle_error_body remove_serial st)
    else some st

/-- The member `handle_error(TransportRc)`: what it returns and the agent afterwards,
or `none` when its loop is not left within `fuel` passes. `std::sort` is the sort of
the descriptors in increasing order. `init` stands for the member `init()`, which
starts the thread that opens the devices and waits for it; it is called only when
`fini()` returns true. -/
def handle_error (remove_serial : Int → Bool)
    (init : MultiTermiosAgent → Bool × MultiTermiosAgent) (fuel : Nat)
    (a : MultiTermiosAgent) : Option (Bool × MultiTermiosAgent) :=
  let sorted : MultiTermiosAgent :=
    { a with error_fd := unique (List.insertionSort (fun x y => x ≤ y) a.error_fd) }
  if sorted.error_fd.length = sorted.initialized_devs_.length then
    if (fini remove_serial sorted).1 then
      some ((init (fini remove_serial sorted).2).1,
            { (init (fini remove_serial sorted).2).2 with error_fd := [] })
    else some (false, { (fini remove_serial sorted).2 with error_fd := [] })
  else if sorted.error_fd.length > 0 then
    (handle_error_loop remove_serial fuel { agent := sorted, serial_fd := 0, rv := true }).map
      (fun st => (st.rv, st.agent))
  else some (true, sorted)

end MultiTermiosAgent

end uxr

namespace uxr

/-! ## The Fast DDS middleware (`src/cpp/middleware/fastdds/FastDDSMiddleware.cpp`) -/

/-- The entries of one of the registries of `FastDDSMiddleware`, a map from the 16-bit
id to the shared pointer of the entity. None of the functions modelled here iterates
over a registry, so the order of the entries is not observable. -/
abbrev EntityMap (Ent : Type) := List (Nat × Ent)

namespace EntityMap

variable {Ent : Type}

/-- The call `find(id)`: the entity stored under `id`, or `none` for `end()`. -/
def find (m : EntityMap Ent) (id : Nat) : Option Ent :=
  (List.find? (fun e => decide (e.1 = id)) m).map Prod.snd

/-- The call `emplace(id, entity)`: the pair is added only when no entry with key `id`
exists; a stored entity is never replaced. -/
def emplace (m : EntityMap Ent) (id : Nat) (entity : Ent) : EntityMap Ent :=
  match find m id with
  | some _ => m
  | none => m ++ [(id, entity)]

end EntityMap

/-- The member functions of the entity classes `FastDDSParticipant`, `FastDDSTopic`,
`FastDDSPublisher`, `FastDDSSubscriber`, `FastDDSDataWriter`, `FastDDSDataReader`,
`FastDDSRequester` and `FastDDSReplier` that the middleware calls. The classes are not
part of the sources, so their behaviour is a parameter; `Ent` is the type of the
entity objects. A field `x_by_ref` or `x_by_xml` stands for the construction of an
entity (from the domain id for a participant, from the parent entity otherwise)
followed by `create_by_ref` or `create_by_xml`: it is the entity when that call
returns true and `none` when it returns false. -/
structure FastDDSEntities (Ent : Type) where
  participant_by_ref : Int → String → Option Ent
  participant_by_xml : Int → String → Option Ent
  topic_by_ref : Ent → String → Nat → Option Ent
  topic_by_xml : Ent → String → Nat → Option Ent
  publisher_by_xml : Ent → String → Option Ent
  subscriber_by_xml : Ent → String → Option Ent
  datawriter_by_ref : Ent → String → Option Ent
  datawriter_by_xml : Ent → String → Option Ent
  datareader_by_ref : Ent → String → Option Ent
  datareader_by_xml : Ent → String → Option Ent
  requester_by_ref : Ent → String → Option Ent
  requester_by_xml : Ent → String → Option Ent
  replier_by_ref : Ent → String → Option Ent
  replier_by_xml : Ent → String → Option Ent
  get_domain_id : Ent → Int
  match_from_ref : Ent → String → Bool
  match_from_xml : Ent → String → Bool

/-- The registries of `FastDDSMiddleware`. -/
structure FastDDSMiddleware (Ent : Type) where
  participants_ : EntityMap Ent
  topics_ : EntityMap Ent
  publishers_ : EntityMap Ent
  subscribers_ : EntityMap Ent
  datawriters_ : EntityMap Ent
  datareaders_ : EntityMap Ent
  requesters_ : EntityMap Ent
  repliers_ : EntityMap Ent

namespace FastDDSMiddleware

variable {Ent : Type}

/-- The member `create_participant_by_ref(participant_id, domain_id, ref)`: the returned
flag and the middleware afterwards. -/
def create_participant_by_ref (E : FastDDSEntities Ent) (mw : FastDDSMiddleware Ent)
    (participant_id : Nat) (domain_id : Int) (ref : String) : Bool × FastDDSMiddleware Ent :=
  match E.participant_by_ref domain_id ref with
  | some participant =>
    (true, { mw with participants_ := mw.participants_.emplace participant_id participant })
  | none => (false, mw)

/-- The member `create_participant_by_xml(participant_id, domain_id, xml)`: the returned
flag and the middleware afterwards. -/
def create_participant_by_xml (E : FastDDSEntities Ent) (mw : FastDDSMiddleware Ent)
    (participant_id : Nat) (domain_id : Int) (xml : String) : Bool × FastDDSMiddleware Ent :=
  match E.participant_by_xml domain_id xml with
  | some participant =>
    (true, { mw with participants_ := mw.participants_.emplace participant_id participant })
  | none => (false, mw)

/-- The member `create_topic_by_ref(topic_id, participant_id, ref)`. -/
def create_topic_by_ref (E : FastDDSEntities Ent) (mw : FastDDSMiddleware Ent)
    (topic_id participant_id : Nat) (ref : String) : Bool × FastDDSMiddleware Ent :=
  match mw.participants_.find participant_id with
  | some participant =>
    match E.topic_by_ref participant ref topic_id with
    | some topic => (true, { mw with topics_ := mw.topics_.emplace topic_id topic })
    | none => (false, mw)
  | none => (false, mw)

/-- The member `create_topic_by_xml(topic_id, participant_id, xml)`. -/
def create_topic_by_xml (E : FastDDSEntities Ent) (mw : FastDDSMiddleware Ent)
    (topic_id participant_id : Nat) (xml : String) : Bool × FastDDSMiddleware Ent :=
  match mw.participants_.find participant_id with
  | some participant =>
    match E.topic_by_xml participant xml topic_id with
    | some topic => (true, { mw with topics_ := mw.topics_.emplace topic_id topic })
    | none => (false, mw)
  | none => (false, mw)

/-- The member `create_publisher_by_xml(publisher_id, participant_id, xml)`. -/
def create_publisher_by_xml (E : FastDDSEntities Ent) (mw : FastDDSMiddleware Ent)
    (publisher_id participant_id : Nat) (xml : String) : Bool × FastDDSMiddleware Ent :=
  match mw.participants_.find participant_id with
  | some participant =>
    match E.publisher_by_xml participant xml with
    | some publisher => (true, { mw with publishers_ := mw.publishers_.emplace publisher_id publisher })
    | none => (false, mw)
  | none => (false, mw)

/-- The member `create_subscriber_by_xml(subscriber_id, participant_id, xml)`. -/
def create_subscriber_by_xml (E : FastDDSEntities Ent) (mw : FastDDSMiddleware Ent)
    (subscriber_id participant_id : Nat) (xml : String) : Bool × FastDDSMiddleware Ent :=
  match mw.participants_.find participant_id with
  | some participant =>
    match E.subscriber_by_xml participant xml with
    | some subscriber => (true, { mw with subscribers_ := mw.subscribers_.emplace subscriber_id subscriber })
    | none => (false, mw)
  | none => (false, mw)

/-- The member `create_datawriter_by_ref(datawriter_id, publisher_id, ref)`. -/
def create_datawriter_by_ref (E : FastDDSEntities Ent) (mw : FastDDSMiddleware Ent)
    (datawriter_id publisher_id : Nat) (ref : String) : Bool × FastDDSMiddleware Ent :=
  match mw.publishers_.find publisher_id with
  | some publisher =>
    match E.datawriter_by_ref publisher ref with
    | some datawriter => (true, { mw with datawriters_ := mw.datawriters_.emplace datawriter_id datawriter })
    | none => (false, mw)
  | none => (false, mw)

/-- The member `create_datawriter_by_xml(datawriter_id, publisher_id, xml)`. -/
def create_datawriter_by_xml (E : FastDDSEntities Ent) (mw : FastDDSMiddleware Ent)
    (datawriter_id publisher_id : Nat) (xml : String) : Bool × FastDDSMiddleware Ent :=
  match mw.publishers_.find publisher_id with
  | some publisher =>
    match E.datawriter_by_xml publisher xml with
    | some datawriter => (true, { mw with datawriters_ := mw.datawriters_.emplace datawriter_id datawriter })
    | none => (false, mw)
  | none => (false, mw)

/-- The member `create_datareader_by_ref(datareader_id, subscriber_id, ref)`. -/
def create_datareader_by_ref (E : FastDDSEntities Ent) (mw : FastDDSMiddleware Ent)
    (datareader_id subscriber_id : Nat) (ref : String) : Bool × FastDDSMiddleware Ent :=
  match mw.subscribers_.find subscriber_id with
  | some subscriber =>
    match E.datareader_by_ref subscriber ref with
    | some datareader => (true, { mw with datareaders_ := mw.datareaders_.emplace datareader_id datareader })
    | none => (false, mw)
  | none => (false, mw)

/-- The member `create_datareader_by_xml(datareader_id, subscriber_id, xml)`. -/
def create_datareader_by_xml (E : FastDDSEntities Ent) (mw : FastDDSMiddleware Ent)
    (datareader_id subscriber_id : Nat) (xml : String) : Bool × FastDDSMiddleware Ent :=
  match mw.subscribers_.find subscriber_id with
  | some subscriber =>
    match E.datareader_by_xml subscriber xml with
    | some datareader => (true, { mw with datareaders_ := mw.datareaders_.emplace datareader_id datareader })
    | none => (false, mw)
  | none => (false, mw)

/-- The member `create_requester_by_ref(requester_id, participant_id, ref)`. -/
def create_requester_by_ref (E : FastDDSEntities Ent) (mw : FastDDSMiddleware Ent)
    (requester_id participant_id : Nat) (ref : String) : Bool × FastDDSMiddleware Ent :=
  match mw.participants_.find participant_id with
  | some participant =>
    match E.requester_by_ref participant ref with
    | some requester => (true, { mw with requesters_ := mw.requesters_.emplace requester_id requester })
    | none => (false, mw)
  | none => (false, mw)

/-- The member `create_requester_by_xml(requester_id, participant_id, xml)`. -/
def create_requester_by_xml (E : FastDDSEntities Ent) (mw : FastDDSMiddleware Ent)
    (requester_id participant_id : Nat) (xml : String) : Bool × FastDDSMiddleware Ent :=
  match mw.participants_.find participant_id with
  | some participant =>
    match E.requester_by_xml participant xml with
    | some requester => (true, { mw with requesters_ := mw.requesters_.emplace requester_id requester })
    | none => (false, mw)
  | none => (false, mw)

/-- The member `create_replier_by_ref(replier_id, participant_id, ref)`. -/
def create_replier_by_ref (E : FastDDSEntities Ent) (mw : FastDDSMiddleware Ent)
    (replier_id participant_id : Nat) (ref : String) : Bool × FastDDSMiddleware Ent :=
  match mw.participants_.find participant_id with
  | some participant =>
    match E.replier_by_ref participant ref with
    | some replier => (true, { mw with repliers_ := mw.repliers_.emplace replier_id replier })
    | none => (false, mw)
  | none => (false, mw)

/-- The member `create_replier_by_xml(replier_id, participant_id, xml)`. -/
def create_replier_by_xml (E : FastDDSEntities Ent) (mw : FastDDSMiddleware Ent)
    (replier_id participant_id : Nat) (xml : String) : Bool × FastDDSMiddleware Ent :=
  match mw.participants_.find participant_id with
  | some participant =>
    match E.replier_by_xml participant xml with
    | some replier => (true, { mw with repliers_ := mw.repliers_.emplace replier_id replier })
    | none => (false, mw)
  | none => (false, mw)

/-- The member `matched_participant_from_ref(participant_id, domain_id, ref)`. -/
def matched_participant_from_ref (E : FastDDSEntities Ent) (mw : FastDDSMiddleware Ent)
    (participant_id : Nat) (domain_id : Int) (ref : String) : Bool :=
  match mw.participants_.find participant_id with
  | some participant =>
    decide (domain_id = E.get_domain_id participant) && E.match_from_ref participant ref
  | none => false

/-- The member `matched_participant_from_xml(participant_id, domain_id, xml)`. -/
def matched_participant_from_xml (E : FastDDSEntities Ent) (mw : FastDDSMiddleware Ent)
    (participant_id : Nat) (domain_id : Int) (xml : String) : Bool :=
  match mw.participants_.find participant_id with
  | some participant =>
    decide (domain_id = E.get_domain_id participant) && E.match_from_xml participant xml
  | none => false

/-- The member `matched_topic_from_ref(topic_id, ref)`. -/
def matched_topic_from_ref (E : FastDDSEntities Ent) (mw : FastDDSMiddleware Ent)
    (topic_id : Nat) (ref : String) : Bool :=
  match mw.topics_.find topic_id with
  | some topic => E.match_from_ref topic ref
  | none => false

/-- The member `matched_topic_from_xml(topic_id, xml)`. -/
def matched_topic_from_xml (E : FastDDSEntities Ent) (mw : FastDDSMiddleware Ent)
    (topic_id : Nat) (xml : String) : Bool :=
  match mw.topics_.find topic_id with
  | some topic => E.match_from_xml topic xml
  | none => false

/-- The member `matched_datawriter_from_ref(datawriter_id, ref)`. -/
def matched_datawriter_from_ref (E : FastDDSEntities Ent) (mw : FastDDSMiddleware Ent)
    (datawriter_id : Nat) (ref : String) : Bool :=
  match mw.datawriters_.find datawriter_id with
  | some datawriter => E.match_from_ref datawriter ref
  | none => false

/-- The member `matched_datawriter_from_xml(datawriter_id, xml)`. -/
def matched_datawriter_from_xml (E : FastDDSEntities Ent) (mw : FastDDSMiddleware Ent)
    (datawriter_id : Nat) (xml : String) : Bool :=
  match mw.datawriters_.find datawriter_id with
  | some datawriter => E.match_from_xml datawriter xml
  | none => false

/-- The member `matched_datareader_from_ref(datareader_id, ref)`. -/
def matched_datareader_from_ref (E : FastDDSEntities Ent) (mw : FastDDSMiddleware Ent)
    (datareader_id : Nat) (ref : String) : Bool :=
  match mw.datareaders_.find datareader_id with
  | some datareader => E.match_from_ref datareader ref
  | none => false

/-- The member `matched_datareader_from_xml(datareader_id, xml)`. -/
def matched_datareader_from_xml (E : FastDDSEntities Ent) (mw : FastDDSMiddleware Ent)
    (datareader_id : Nat) (xml : String) : Bool :=
  match mw.datareaders_.find datareader_id with
  | some datareader => E.match_from_xml datareader xml
  | none => false

/-- The member `matched_requester_from_ref(requester_id, ref)`. -/
def matched_requester_from_ref (E : FastDDSEntities Ent) (mw : FastDDSMiddleware Ent)
    (requester_id : Nat) (ref : String) : Bool :=
  match mw.requesters_.find requester_id with
  | some requester => E.match_from_ref requester ref
  | none => false

/-- The member `matched_requester_from_xml(requester_id, xml)`, whose body calls
`match_from_ref(xml)`. -/
def matched_requester_from_xml (E : FastDDSEntities Ent) (mw : FastDDSMiddleware Ent)
    (requester_id : Nat) (xml : String) : Bool :=
  match mw.requesters_.find requester_id with
  | some requester => E.match_from_ref requester xml
  | none => false

/-- The member `matched_replier_from_ref(requester_id, ref)`. -/
def matched_replier_from_ref (E : FastDDSEntities Ent) (mw : FastDDSMiddleware Ent)
    (requester_id : Nat) (ref : String) : Bool :=
  match mw.repliers_.find requester_id with
  | some replier => E.match_from_ref replier ref
  | none => false

/-- The member `matched_replier_from_xml(requester_id, xml)`, whose body calls
`match_from_ref(xml)`. -/
def matched_replier_from_xml (E : FastDDSEntities Ent) (mw : FastDDSMiddleware Ent)
    (requester_id : Nat) (xml : String) : Bool :=
  match mw.repliers_.find requester_id with
  | some replier => E.match_from_ref replier xml
  | none => false

/-- The constructor: all registries are empty. -/
def empty : FastDDSMiddleware Ent :=
  { participants_ := [], topics_ := [], publishers_ := [], subscribers_ := [],
    datawriters_ := [], datareaders_ := [], requesters_ := [], repliers_ := [] }

end FastDDSMiddleware

/-- Entity classes used to run the middleware on examples. An entity is the pair of a
flag, true when it was created from XML and false when it was created from a
reference, and the text it was created from; participants hold their domain id in
front of the text. An entity can be created from every text but the empty one, and it
matches a reference or an XML text when it was created from that same reference or
XML text. -/
def example_fastdds : FastDDSEntities (Int × Bool × String) where
  participant_by_ref := fun d ref => if ref = "" then none else some (d, false, ref)
  participant_by_xml := fun d xml => if xml = "" then none else some (d, true, xml)
  topic_by_ref := fun _ ref _ => if ref = "" then none else some (0, false, ref)
  topic_by_xml := fun _ xml _ => if xml = "" then none else some (0, true, xml)
  publisher_by_xml := fun _ xml => if xml = "" then none else some (0, true, xml)
  subscriber_by_xml := fun _ xml => if xml = "" then none else some (0, true, xml)
  datawriter_by_ref := fun _ ref => if ref = "" then none else some (0, false, ref)
  datawriter_by_xml := fun _ xml => if xml = "" then none else some (0, true, xml)
  datareader_by_ref := fun _ ref => if ref = "" then none else some (0, false, ref)
  datareader_by_xml := fun _ xml => if xml = "" then none else some (0, true, xml)
  requester_by_ref := fun _ ref => if ref = "" then none else some (0, false, ref)
  requester_by_xml := fun _ xml => if xml = "" then none else some (0, true, xml)
  replier_by_ref := fun _ ref => if ref = "" then none else some (0, false, ref)
  replier_by_xml := fun _ xml => if xml = "" then none else some (0, true, xml)
  get_domain_id := fun e => e.1
  match_from_ref := fun e ref => !e.2.1 && decide (e.2.2 = ref)
  match_from_xml := fun e xml => e.2.1 && decide (e.2.2 = xml)

end uxr
namespace uxr

/-! ## Arithmetic of sequence numbers -/

namespace SeqNum

theorem ofNat_val (n : Nat) : (ofNat n).seq_num_ = n % 65536 := rfl

theorem one_val : (1 : SeqNum).seq_num_ = 1 := rfl

theorem add_val (a b : SeqNum) : (a + b).seq_num_ = (a.seq_num_ + b.seq_num_) % 65536 := rfl

theorem eq_iff (a b : SeqNum) : a = b ↔ a.seq_num_ = b.seq_num_ := SeqNum.ext_iff

theorem lt_iff (a b : SeqNum) :
    a < b ↔ a.seq_num_ ≠ b.seq_num_ ∧ (b.seq_num_ + 65536 - a.seq_num_) % 65536 < 32768 := by
  show lt a b = true ↔ _
  simp [lt, eq_iff]

theorem le_iff (a b : SeqNum) :
    a ≤ b ↔ a.seq_num_ = b.seq_num_ ∨
      (a.seq_num_ ≠ b.seq_num_ ∧ (b.seq_num_ + 65536 - a.seq_num_) % 65536 < 32768) := by
  show le a b = true ↔ _
  simp [le, lt, eq_iff]

theorem gt_iff (a b : SeqNum) :
    a > b ↔ b.seq_num_ ≠ a.seq_num_ ∧ (a.seq_num_ + 65536 - b.seq_num_) % 65536 < 32768 :=
  lt_iff b a

end SeqNum


/-! ## Lookup in the message buffer -/

namespace MessageMap

variable {M : Type}

theorem find_nil (k : SeqNum) : find ([] : MessageMap M) k = none := rfl

theorem find_cons (e : SeqNum × InputMessagePtr M) (m : MessageMap M) (k : SeqNum) :
    find (e :: m) k = if e.1 = k then some e.2 else find m k := by
  by_cases h : e.1 = k <;> simp [find, List.find?, h]

theorem find_append_single (m : MessageMap M) (k k' : SeqNum) (v : InputMessagePtr M) :
    find (m ++ [(k, v)]) k' =
      match find m k' with
      | some w => some w
      | none => if k = k' then some v else none := by
  induction m with
  | nil => simp [find_cons, find_nil]
  | cons e m ih =>
    rw [List.cons_append, find_cons, find_cons]
    by_cases h : e.1 = k'
    · simp [h]
    · simp [h, ih]

theorem find_eq_none_iff (m : MessageMap M) (k : SeqNum) :
    find m k = none ↔ ∀ e ∈ m, e.1 ≠ k := by
  induction m with
  | nil => simp [find_nil]
  | cons e m ih =>
    rw [find_cons]
    by_cases h : e.1 = k
    · simp [h]
    · simp [h, ih]

theorem mem_of_find_eq_some (m : MessageMap M) (k : SeqNum) (v : InputMessagePtr M)
    (h : find m k = some v) : (k, v) ∈ m := by
  induction m with
  | nil => simp [find_nil] at h
  | cons e m ih =>
    rw [find_cons] at h
    by_cases hk : e.1 = k
    · simp only [hk, if_true, Option.some.injEq] at h
      have : e = (k, v) := Prod.ext hk h
      simp [this]
    · simp only [hk, if_false] at h
      exact List.mem_cons_of_mem _ (ih h)

theorem insert_of_find_some (m : MessageMap M) (k : SeqNum) (v w : InputMessagePtr M)
    (h : find m k = some w) : insert m k v = m := by
  simp [insert, h]

theorem insert_of_find_none (m : MessageMap M) (k : SeqNum) (v : InputMessagePtr M)
    (h : find m k = none) : insert m k v = m ++ [(k, v)] := by
  simp [insert, h]

theorem find_insert_self (m : MessageMap M) (k : SeqNum) (v : InputMessagePtr M)
    (h : find m k = none) : find (insert m k v) k = some v := by
  rw [insert_of_find_none m k v h, find_append_single, h]
  simp

theorem find_insert_of_ne (m : MessageMap M) (k k' : SeqNum) (v : InputMessagePtr M)
    (h : k' ≠ k) : find (insert m k v) k' = find m k' := by
  unfold insert
  cases hk : find m k with
  | some w => rfl
  | none =>
    simp only
    rw [find_append_single]
    cases find m k' with
    | some w => rfl
    | none => simp [Ne.symm h]

theorem find_erase_self (m : MessageMap M) (k : SeqNum) : find (erase m k) k = none := by
  rw [find_eq_none_iff]
  intro e he
  simpa [erase] using (List.mem_filter.mp he).2

theorem find_erase_of_ne (m : MessageMap M) (k k' : SeqNum) (h : k' ≠ k) :
    find (erase m k) k' = find m k' := by
  induction m with
  | nil => rfl
  | cons e m ih =>
    by_cases hk : e.1 = k
    · have hk' : e.1 ≠ k' := fun h' => h (h'.symm.trans hk)
      have : erase (e :: m) k = erase m k := by simp [erase, hk]
      rw [this, ih, find_cons, if_neg hk']
    · have : erase (e :: m) k = e :: erase m k := by simp [erase, hk]
      rw [this, find_cons, find_cons, ih]

theorem length_erase_lt (m : MessageMap M) (k : SeqNum) (v : InputMessagePtr M)
    (h : find m k = some v) : (erase m k).length < m.length := by
  induction m with
  | nil => simp [find_nil] at h
  | cons e m ih =>
    by_cases hk : e.1 = k
    · have : erase (e :: m) k = erase m k := by simp [erase, hk]
      rw [this]
      exact Nat.lt_succ_of_le (List.length_filter_le _ _)
    · have : erase (e :: m) k = e :: erase m k := by simp [erase, hk]
      rw [find_cons, if_neg hk] at h
      rw [this]
      simpa using ih h

end MessageMap

end uxr

namespace uxr
namespace ReliableInputStream
variable {M : Type}

/-! ## The member functions case by case -/

theorem next_message_of_eq (s : ReliableInputStream M) (seq : SeqNum) (msg : InputMessagePtr M)
    (h : seq = s.last_handled_ + 1) :
    s.next_message seq msg = (true, msg, { s with last_handled_ := s.last_handled_ + 1 }) := by
  unfold next_message
  rw [if_pos h]

theorem next_message_fst_of_ne (s : ReliableInputStream M) (seq : SeqNum)
    (msg : InputMessagePtr M) (h : seq ≠ s.last_handled_ + 1) :
    (s.next_message seq msg).1 = false := by
  unfold next_message
  rw [if_neg h]
  split
  · split
    · rfl
    · split <;> rfl
  · rfl

theorem next_message_handled_of_ne (s : ReliableInputStream M) (seq : SeqNum)
    (msg : InputMessagePtr M) (h : seq ≠ s.last_handled_ + 1) :
    (s.next_message seq msg).2.2.last_handled_ = s.last_handled_ := by
  unfold next_message
  rw [if_neg h]
  split
  · split
    · rfl
    · split <;> rfl
  · rfl

theorem next_message_messages_of_window (s : ReliableInputStream M) (seq : SeqNum)
    (msg : InputMessagePtr M) (h : seq ≠ s.last_handled_ + 1) (hw : in_window s seq) :
    (s.next_message seq msg).2.2.messages_ = s.messages_.insert seq msg := by
  have hw' : seq > s.last_handled_ + 1 ∧
      seq ≤ s.last_handled_ + SeqNum.ofNat RELIABLE_STREAM_DEPTH := hw
  unfold next_message
  rw [if_neg h, if_pos hw']
  split
  · rfl
  · split
    · rfl
    · rename_i old hold
      exact (MessageMap.insert_of_find_some _ _ _ _ hold).symm

theorem next_message_announced_of_window (s : ReliableInputStream M) (seq : SeqNum)
    (msg : InputMessagePtr M) (h : seq ≠ s.last_handled_ + 1) (hw : in_window s seq) :
    (s.next_message seq msg).2.2.last_announced_ =
      if seq > s.last_announced_ then seq else s.last_announced_ := by
  have hw' : seq > s.last_handled_ + 1 ∧
      seq ≤ s.last_handled_ + SeqNum.ofNat RELIABLE_STREAM_DEPTH := hw
  unfold next_message
  rw [if_neg h, if_pos hw']
  split
  · rfl
  · split <;> rfl

theorem next_message_of_not_window (s : ReliableInputStream M) (seq : SeqNum)
    (msg : InputMessagePtr M) (h : seq ≠ s.last_handled_ + 1) (hw : ¬ in_window s seq) :
    s.next_message seq msg = (false, msg, s) := by
  have hw' : ¬ (seq > s.last_handled_ + 1 ∧
      seq ≤ s.last_handled_ + SeqNum.ofNat RELIABLE_STREAM_DEPTH) := hw
  unfold next_message
  rw [if_neg h, if_neg hw']

theorem pop_message_of_some (s : ReliableInputStream M) (message v : InputMessagePtr M)
    (h : s.messages_.find (s.last_handled_ + 1) = some v) :
    s.pop_message message =
      (true, v, { s with last_handled_ := s.last_handled_ + 1
                         messages_ := s.messages_.erase (s.last_handled_ + 1) }) := by
  simp [pop_message, h]

theorem pop_message_of_none (s : ReliableInputStream M) (message : InputMessagePtr M)
    (h : s.messages_.find (s.last_handled_ + 1) = none) :
    s.pop_message message = (false, message, s) := by
  simp [pop_message, h]

theorem update_from_heartbeat_handled (s : ReliableInputStream M) (a b : SeqNum) :
    (s.update_from_heartbeat a b).last_handled_ =
      if s.last_handled_ + 1 < a then a else s.last_handled_ := by
  unfold update_from_heartbeat
  by_cases h : s.last_handled_ + 1 < a
  · simp only [if_pos h]
    split <;> rfl
  · simp only [if_neg h]
    split <;> rfl

theorem update_from_heartbeat_messages (s : ReliableInputStream M) (a b : SeqNum) :
    (s.update_from_heartbeat a b).messages_ = s.messages_ := by
  unfold update_from_heartbeat
  by_cases h : s.last_handled_ + 1 < a
  · simp only [if_pos h]
    split <;> rfl
  · simp only [if_neg h]
    split <;> rfl

end ReliableInputStream
end uxr

namespace uxr

namespace SeqNum

theorem add_ofNat_zero (x : SeqNum) : x + ofNat 0 = x := by
  have := x.isLt
  simp only [eq_iff, add_val, ofNat_val]
  omega

theorem add_one_add_ofNat (x : SeqNum) (n : Nat) : x + 1 + ofNat n = x + ofNat (n + 1) := by
  simp only [eq_iff, add_val, ofNat_val, one_val]
  omega

theorem add_ofNat_one (x : SeqNum) : x + ofNat 1 = x + 1 := rfl

theorem add_ofNat_add_ofNat (x : SeqNum) (a b : Nat) :
    x + ofNat a + ofNat b = x + ofNat (a + b) := by
  simp only [eq_iff, add_val, ofNat_val]
  omega

end SeqNum

namespace ReliableInputStream
variable {M : Type}

/-! ## In-order delivery -/

theorem consecutive_from_zero (x : SeqNum) : consecutive_from x 0 = [] := rfl

theorem consecutive_from_succ (x : SeqNum) (n : Nat) :
    consecutive_from x (n + 1) = x :: consecutive_from (x + 1) n := by
  unfold consecutive_from
  rw [List.range_succ_eq_map, List.map_cons, List.map_map, SeqNum.add_ofNat_zero]
  congr 1
  apply List.map_congr_left
  intro i _
  exact (SeqNum.add_one_add_ofNat x i).symm

theorem consecutive_from_append (a b : Nat) :
    ∀ x : SeqNum, consecutive_from x a ++ consecutive_from (x + SeqNum.ofNat a) b =
      consecutive_from x (a + b) := by
  induction a with
  | zero => intro x; simp [consecutive_from_zero, SeqNum.add_ofNat_zero]
  | succ a ih =>
    intro x
    have : a + 1 + b = (a + b) + 1 := by omega
    rw [this, consecutive_from_succ, consecutive_from_succ, List.cons_append,
      ← ih (x + 1), SeqNum.add_one_add_ofNat]

theorem consecutive_from_nodup (x : SeqNum) (n : Nat) (hn : n ≤ 65536) :
    (consecutive_from x n).Nodup := by
  unfold consecutive_from
  refine List.Nodup.map_on ?_ (List.nodup_range n)
  intro i hi j hj h
  rw [List.mem_range] at hi hj
  have := x.isLt
  simp only [SeqNum.eq_iff, SeqNum.add_val, SeqNum.ofNat_val] at h
  omega

/-- What a run of the loop `while (pop_message(message))` hands out. -/
theorem pop_loop_spec (fuel : Nat) :
    ∀ s : ReliableInputStream M,
      (pop_loop fuel s).1.map Prod.fst =
        consecutive_from (s.last_handled_ + 1) (pop_loop fuel s).1.length ∧
      (pop_loop fuel s).2.last_handled_ =
        s.last_handled_ + SeqNum.ofNat (pop_loop fuel s).1.length ∧
      (∀ p ∈ (pop_loop fuel s).1, p ∈ s.messages_) ∧
      (∀ e ∈ (pop_loop fuel s).2.messages_, e ∈ s.messages_) ∧
      (pop_loop fuel s).1.length + (pop_loop fuel s).2.messages_.length ≤ s.messages_.length := by
  induction fuel with
  | zero =>
    intro s
    simp [pop_loop, consecutive_from_zero, SeqNum.add_ofNat_zero]
  | succ fuel ih =>
    intro s
    cases hf : s.messages_.find (s.last_handled_ + 1) with
    | none =>
      simp [pop_loop, pop_message_of_none s none hf, consecutive_from_zero,
        SeqNum.add_ofNat_zero]
    | some v =>
      have hp := pop_message_of_some s none v hf
      obtain ⟨h1, h2, h3, h4, h5⟩ := ih { s with
        last_handled_ := s.last_handled_ + 1
        messages_ := s.messages_.erase (s.last_handled_ + 1) }
      have hlt := MessageMap.length_erase_lt _ _ _ hf
      simp only [pop_loop, hp, if_true, List.map_cons, List.length_cons, List.mem_cons,
        forall_eq_or_imp] at h1 h2 h3 h4 h5 ⊢
      refine ⟨?_, ?_, ⟨MessageMap.mem_of_find_eq_some _ _ _ hf, ?_⟩, ?_, ?_⟩
      · rw [consecutive_from_succ, h1]
      · rw [h2, SeqNum.add_one_add_ofNat]
      · intro p hp'
        exact (List.mem_filter.mp (h3 p hp')).1
      · intro e he
        exact (List.mem_filter.mp (h4 e he)).1
      · omega

/-- The fuel of `pop_until_false` is enough: when the loop stops, `pop_message` returns
false. -/
theorem pop_loop_done (fuel : Nat) :
    ∀ s : ReliableInputStream M, s.messages_.length ≤ fuel →
      ((pop_loop fuel s).2.pop_message none).1 = false := by
  induction fuel with
  | zero =>
    intro s hs
    have hnil : s.messages_ = [] := List.length_eq_zero.mp (Nat.le_zero.mp hs)
    have : s.messages_.find (s.last_handled_ + 1) = none := by rw [hnil]; rfl
    simp [pop_loop, pop_message_of_none s none this]
  | succ fuel ih =>
    intro s hs
    cases hf : s.messages_.find (s.last_handled_ + 1) with
    | none => simp [pop_loop, pop_message_of_none s none hf]
    | some v =>
      have hp := pop_message_of_some s none v hf
      have hlt := MessageMap.length_erase_lt _ _ _ hf
      simp only [pop_loop, hp, if_true]
      exact ih _ (by simp only; omega)

theorem pop_until_false_done (s : ReliableInputStream M) :
    ((pop_until_false s).2.pop_message none).1 = false :=
  pop_loop_done _ s (Nat.le_refl _)

/-- What `receive` delivers for one received pair. -/
theorem receive_spec (s : ReliableInputStream M) (seq : SeqNum) (msg : InputMessagePtr M) :
    (receive s seq msg).1.map Prod.fst =
      consecutive_from (s.last_handled_ + 1) (receive s seq msg).1.length ∧
    (receive s seq msg).2.last_handled_ =
      s.last_handled_ + SeqNum.ofNat (receive s seq msg).1.length ∧
    (∀ p ∈ (receive s seq msg).1, p ∈ s.messages_ ∨ p = (seq, msg)) ∧
    (∀ e ∈ (receive s seq msg).2.messages_, e ∈ s.messages_ ∨ e = (seq, msg)) ∧
    (receive s seq msg).1.length + (receive s seq msg).2.messages_.length ≤
      s.messages_.length + 1 := by
  by_cases hseq : seq = s.last_handled_ + 1
  · obtain ⟨h1, h2, h3, h4, h5⟩ := pop_loop_spec
      ({ s with last_handled_ := s.last_handled_ + 1 } : ReliableInputStream M).messages_.length
      { s with last_handled_ := s.last_handled_ + 1 }
    simp only [receive, pop_until_false, next_message_of_eq s seq msg hseq, if_true,
      List.singleton_append, List.map_cons, List.length_cons, List.mem_cons,
      forall_eq_or_imp] at h1 h2 h3 h4 h5 ⊢
    refine ⟨?_, ?_, ⟨Or.inr trivial, fun p hp => Or.inl (h3 p hp)⟩,
      fun e he => Or.inl (h4 e he), by omega⟩
    · rw [consecutive_from_succ, h1, hseq]
    · rw [h2, SeqNum.add_one_add_ofNat]
  · have hfst := next_message_fst_of_ne s seq msg hseq
    have hlh := next_message_handled_of_ne s seq msg hseq
    obtain ⟨h1, h2, h3, h4, h5⟩ := pop_loop_spec
      (s.next_message seq msg).2.2.messages_.length (s.next_message seq msg).2.2
    have hmem : ∀ e ∈ (s.next_message seq msg).2.2.messages_, e ∈ s.messages_ ∨ e = (seq, msg) := by
      intro e he
      by_cases hwin : in_window s seq
      · rw [next_message_messages_of_window s seq msg hseq hwin] at he
        cases hfind : s.messages_.find seq with
        | some w =>
          rw [MessageMap.insert_of_find_some _ _ _ _ hfind] at he
          exact Or.inl he
        | none =>
          rw [MessageMap.insert_of_find_none _ _ _ hfind] at he
          simpa using he
      · rw [next_message_of_not_window s seq msg hseq hwin] at he
        exact Or.inl he
    have hlen : (s.next_message seq msg).2.2.messages_.length ≤ s.messages_.length + 1 := by
      by_cases hwin : in_window s seq
      · rw [next_message_messages_of_window s seq msg hseq hwin]
        cases hfind : s.messages_.find seq with
        | some w => rw [MessageMap.insert_of_find_some _ _ _ _ hfind]; omega
        | none => rw [MessageMap.insert_of_find_none _ _ _ hfind]; simp
      · rw [next_message_of_not_window s seq msg hseq hwin]
        exact Nat.le_succ _
    rw [hlh] at h1 h2
    simp only [receive, pop_until_false, hfst, Bool.false_eq_true, if_false, List.nil_append]
    exact ⟨h1, h2, fun p hp => hmem p (h3 p hp), fun e he => hmem e (h4 e he), by omega⟩

/-- What `receive_all` delivers for a sequence of received pairs, from any stream. -/
theorem receive_all_spec (inputs : List (SeqNum × InputMessagePtr M)) :
    ∀ s : ReliableInputStream M,
      (receive_all s inputs).1.map Prod.fst =
        consecutive_from (s.last_handled_ + 1) (receive_all s inputs).1.length ∧
      (receive_all s inputs).2.last_handled_ =
        s.last_handled_ + SeqNum.ofNat (receive_all s inputs).1.length ∧
      (∀ p ∈ (receive_all s inputs).1, p ∈ s.messages_ ∨ p ∈ inputs) ∧
      (∀ e ∈ (receive_all s inputs).2.messages_, e ∈ s.messages_ ∨ e ∈ inputs) ∧
      (receive_all s inputs).1.length + (receive_all s inputs).2.messages_.length ≤
        s.messages_.length + inputs.length := by
  induction inputs with
  | nil =>
    intro s
    simp [receive_all, consecutive_from_zero, SeqNum.add_ofNat_zero]
  | cons p rest ih =>
    intro s
    obtain ⟨r1, r2, r3, r4, r5⟩ := receive_spec s p.1 p.2
    obtain ⟨h1, h2, h3, h4, h5⟩ := ih (receive s p.1 p.2).2
    simp only [receive_all, List.map_append, List.length_append, List.mem_append,
      List.mem_cons, List.length_cons]
    refine ⟨?_, ?_, ?_, ?_, by omega⟩
    · rw [r1, h1, r2, ← consecutive_from_append, SeqNum.add_one_add_ofNat,
        ← SeqNum.add_ofNat_add_ofNat, SeqNum.add_ofNat_one]
    · rw [h2, r2, SeqNum.add_ofNat_add_ofNat]
    · intro q hq
      rcases hq with hq | hq
      · rcases r3 q hq with h | h
        · exact Or.inl h
        · exact Or.inr (Or.inl h)
      · rcases h3 q hq with h | h
        · rcases r4 q h with h' | h'
          · exact Or.inl h'
          · exact Or.inr (Or.inl h')
        · exact Or.inr (Or.inr h)
    · intro e he
      rcases h4 e he with h | h
      · rcases r4 e h with h' | h'
        · exact Or.inl h'
        · exact Or.inr (Or.inl h')
      · exact Or.inr (Or.inr h)

/-! ## Delivery of every received message -/

theorem numbered_append (received : List (Nat × InputMessagePtr M))
    (l1 l2 : List (SeqNum × InputMessagePtr M)) :
    ∀ m, numbered received m (l1 ++ l2) ↔
      numbered received m l1 ∧ numbered received (m + l1.length) l2 := by
  induction l1 with
  | nil => intro m; simp [numbered]
  | cons e l1 ih =>
    intro m
    have h : m + 1 + l1.length = m + (l1.length + 1) := by omega
    have ih1 := ih (m + 1)
    rw [h] at ih1
    constructor
    · intro hn
      exact ⟨⟨hn.1, (ih1.mp hn.2).1⟩, (ih1.mp hn.2).2⟩
    · intro hn
      exact ⟨hn.1.1, ih1.mpr ⟨hn.1.2, hn.2⟩⟩

theorem numbered_mono (received received2 : List (Nat × InputMessagePtr M))
    (hsub : ∀ p ∈ received, p ∈ received2) (l : List (SeqNum × InputMessagePtr M)) :
    ∀ m, numbered received m l → numbered received2 m l := by
  induction l with
  | nil => intro m _; trivial
  | cons e l ih =>
    intro m h
    exact ⟨⟨h.1.1, hsub _ h.1.2⟩, ih (m + 1) h.2⟩

theorem numbered_get (received : List (Nat × InputMessagePtr M))
    (l : List (SeqNum × InputMessagePtr M)) :
    ∀ m, numbered received m l → ∀ (k : Nat) (hk : k < l.length),
      (l.get ⟨k, hk⟩).1 = SeqNum.ofNat (m + k) ∧ (m + k, (l.get ⟨k, hk⟩).2) ∈ received := by
  induction l with
  | nil => intro m _ k hk; exact absurd hk (Nat.not_lt_zero _)
  | cons e l ih =>
    intro m h k hk
    cases k with
    | zero => exact h.1
    | succ k =>
      have hk2 : k < l.length := Nat.lt_of_succ_lt_succ hk
      have := ih (m + 1) h.2 k hk2
      have heq : m + 1 + k = m + (k + 1) := by omega
      rw [heq] at this
      exact this

theorem ofNat_eq_of_near (a b : Nat) (h : SeqNum.ofNat a = SeqNum.ofNat b)
    (hab : a < b + 65536) (hba : b < a + 65536) : a = b := by
  simp only [SeqNum.eq_iff, SeqNum.ofNat_val] at h
  omega

theorem ofNat_succ (x : SeqNum) (m : Nat) (h : x + 1 = SeqNum.ofNat m) :
    x + 1 + 1 = SeqNum.ofNat (m + 1) := by
  simp only [SeqNum.eq_iff, SeqNum.add_val, SeqNum.ofNat_val, SeqNum.one_val] at h ⊢
  omega

theorem in_window_of_ahead (s : ReliableInputStream M) (m n : Nat)
    (h : s.last_handled_ + 1 = SeqNum.ofNat m) (h1 : m < n)
    (h2 : n < m + RELIABLE_STREAM_DEPTH) :
    SeqNum.ofNat n ≠ s.last_handled_ + 1 ∧ in_window s (SeqNum.ofNat n) := by
  have hx := s.last_handled_.isLt
  unfold in_window
  simp only [SeqNum.gt_iff, SeqNum.le_iff, SeqNum.eq_iff, SeqNum.add_val, SeqNum.ofNat_val,
    SeqNum.one_val, RELIABLE_STREAM_DEPTH, ne_eq] at h h2 ⊢
  omega

theorem not_in_window_of_behind (s : ReliableInputStream M) (m n : Nat)
    (h : s.last_handled_ + 1 = SeqNum.ofNat m) (h1 : n < m)
    (h2 : m ≤ n + RELIABLE_STREAM_DEPTH) :
    SeqNum.ofNat n ≠ s.last_handled_ + 1 ∧ ¬ in_window s (SeqNum.ofNat n) := by
  have hx := s.last_handled_.isLt
  unfold in_window
  simp only [SeqNum.gt_iff, SeqNum.le_iff, SeqNum.eq_iff, SeqNum.add_val, SeqNum.ofNat_val,
    SeqNum.one_val, RELIABLE_STREAM_DEPTH, ne_eq] at h h2 ⊢
  omega

theorem tracks_pop (s : ReliableInputStream M) (received : List (Nat × InputMessagePtr M))
    (m : Nat) (v : InputMessagePtr M) (ht : tracks s received m)
    (hf : s.messages_.find (s.last_handled_ + 1) = some v) :
    tracks { s with last_handled_ := s.last_handled_ + 1
                    messages_ := s.messages_.erase (s.last_handled_ + 1) } received (m + 1) ∧
    (m, v) ∈ received := by
  obtain ⟨h1, h2, h3, h4, h5⟩ := ht
  have hmem : (m, v) ∈ received := by
    obtain ⟨p, hp, hmp, he⟩ := h4 _ (MessageMap.mem_of_find_eq_some _ _ _ hf)
    have hp3 := h3 p.1 (List.mem_map_of_mem Prod.fst hp)
    simp only [RELIABLE_STREAM_DEPTH] at hp3
    have hkey : SeqNum.ofNat p.1 = SeqNum.ofNat m := by
      rw [← h1]
      exact (congrArg Prod.fst he).symm
    have hpm : p.1 = m := ofNat_eq_of_near _ _ hkey (by omega) (by omega)
    have hv : v = p.2 := congrArg Prod.snd he
    have : p = (m, v) := Prod.ext hpm hv.symm
    rw [← this]
    exact hp
  refine ⟨⟨ofNat_succ _ _ h1, ?_, ?_, ?_, ?_⟩, hmem⟩
  · intro k hk
    by_cases hkm : k < m
    · exact h2 k hkm
    · have : k = m := by omega
      rw [this]
      exact List.mem_map_of_mem Prod.fst hmem
  · intro n hn
    have := h3 n hn
    omega
  · intro e he
    have he' := List.mem_filter.mp he
    obtain ⟨p, hp, hmp, hep⟩ := h4 e he'.1
    refine ⟨p, hp, ?_, hep⟩
    by_contra hlt
    have hpm : p.1 = m := by omega
    have hne : e.1 ≠ s.last_handled_ + 1 := by simpa using he'.2
    apply hne
    rw [hep, h1, hpm]
  · intro n hn hmn
    have hn3 := h3 n hn
    simp only [RELIABLE_STREAM_DEPTH] at hn3
    have hne : SeqNum.ofNat n ≠ s.last_handled_ + 1 := by
      rw [h1]
      intro heq
      have := ofNat_eq_of_near _ _ heq (by omega) (by omega)
      omega
    show (MessageMap.find (MessageMap.erase s.messages_ (s.last_handled_ + 1))
      (SeqNum.ofNat n)).isSome = true
    rw [MessageMap.find_erase_of_ne _ _ _ hne]
    exact h5 n hn (by omega)

theorem pop_loop_tracks (received : List (Nat × InputMessagePtr M)) (fuel : Nat) :
    ∀ (s : ReliableInputStream M) (m : Nat), tracks s received m →
      tracks (pop_loop fuel s).2 received (m + (pop_loop fuel s).1.length) ∧
      numbered received m (pop_loop fuel s).1 := by
  induction fuel with
  | zero =>
    intro s m ht
    exact ⟨ht, trivial⟩
  | succ fuel ih =>
    intro s m ht
    cases hf : s.messages_.find (s.last_handled_ + 1) with
    | none =>
      simp only [pop_loop, pop_message_of_none s none hf, Bool.false_eq_true, if_false,
        List.length_nil, Nat.add_zero]
      exact ⟨ht, trivial⟩
    | some v =>
      have hp := pop_message_of_some s none v hf
      obtain ⟨ht2, hmem⟩ := tracks_pop s received m v ht hf
      obtain ⟨i1, i2⟩ := ih _ (m + 1) ht2
      have hlen : m + 1 + (pop_loop fuel { s with
          last_handled_ := s.last_handled_ + 1
          messages_ := s.messages_.erase (s.last_handled_ + 1) }).1.length =
          m + ((pop_loop fuel { s with
            last_handled_ := s.last_handled_ + 1
            messages_ := s.messages_.erase (s.last_handled_ + 1) }).1.length + 1) := by
        omega
      rw [hlen] at i1
      simp only [pop_loop, hp, if_true, List.length_cons]
      exact ⟨i1, ⟨⟨ht.1, hmem⟩, i2⟩⟩

theorem not_mem_of_pop_false (s : ReliableInputStream M)
    (received : List (Nat × InputMessagePtr M)) (m : Nat) (ht : tracks s received m)
    (hpop : (s.pop_message none).1 = false) : m ∉ received.map Prod.fst := by
  intro hm
  obtain ⟨h1, _, _, _, h5⟩ := ht
  have hsome := h5 m hm (Nat.le_refl _)
  rw [← h1] at hsome
  cases hf : s.messages_.find (s.last_handled_ + 1) with
  | none => rw [hf] at hsome; exact Bool.noConfusion hsome
  | some v =>
    rw [pop_message_of_some s none v hf] at hpop
    exact Bool.noConfusion hpop

theorem pop_until_false_tracks (s : ReliableInputStream M)
    (received : List (Nat × InputMessagePtr M)) (m : Nat) (ht : tracks s received m) :
    tracks (pop_until_false s).2 received (m + (pop_until_false s).1.length) ∧
    numbered received m (pop_until_false s).1 ∧
    m + (pop_until_false s).1.length ∉ received.map Prod.fst := by
  obtain ⟨h1, h2⟩ := pop_loop_tracks received s.messages_.length s m ht
  exact ⟨h1, h2, not_mem_of_pop_false _ received _ h1 (pop_until_false_done s)⟩

theorem next_message_tracks (s : ReliableInputStream M)
    (received : List (Nat × InputMessagePtr M)) (m n : Nat) (v : InputMessagePtr M)
    (ht : tracks s received m) (hnew : m ∉ received.map Prod.fst)
    (hahead : n < m + RELIABLE_STREAM_DEPTH) (hbehind : m ≤ n + RELIABLE_STREAM_DEPTH) :
    tracks (s.next_message (SeqNum.ofNat n) v).2.2 (received ++ [(n, v)])
      (m + (if (s.next_message (SeqNum.ofNat n) v).1 then
        [(SeqNum.ofNat n, (s.next_message (SeqNum.ofNat n) v).2.1)] else []).length) ∧
    numbered (received ++ [(n, v)]) m
      (if (s.next_message (SeqNum.ofNat n) v).1 then
        [(SeqNum.ofNat n, (s.next_message (SeqNum.ofNat n) v).2.1)] else []) := by
  obtain ⟨h1, h2, h3, h4, h5⟩ := ht
  have hmap : ∀ x, x ∈ (received ++ [(n, v)]).map Prod.fst ↔
      x ∈ received.map Prod.fst ∨ x = n := by
    intro x
    simp [List.map_append]
  rcases Nat.lt_trichotomy n m with hlt | heq | hgt
  · -- a duplicate of a number handed out before
    obtain ⟨hne, hnw⟩ := not_in_window_of_behind s m n h1 hlt hbehind
    rw [next_message_of_not_window s _ v hne hnw]
    simp only [Bool.false_eq_true, if_false, List.length_nil, Nat.add_zero]
    refine ⟨⟨h1, ?_, ?_, ?_, ?_⟩, trivial⟩
    · intro k hk
      exact (hmap k).mpr (Or.inl (h2 k hk))
    · intro x hx
      rcases (hmap x).mp hx with hx | hx
      · exact h3 x hx
      · omega
    · intro e he
      obtain ⟨p, hp, hmp, hep⟩ := h4 e he
      exact ⟨p, List.mem_append_left _ hp, hmp, hep⟩
    · intro x hx hmx
      rcases (hmap x).mp hx with hx | hx
      · exact h5 x hx hmx
      · omega
  · -- the number the stream waits for
    subst heq
    rw [next_message_of_eq s _ v h1.symm]
    simp only [if_true, List.length_singleton]
    refine ⟨⟨ofNat_succ _ _ h1, ?_, ?_, ?_, ?_⟩, ⟨⟨rfl, by simp⟩, trivial⟩⟩
    · intro k hk
      by_cases hkn : k < n
      · exact (hmap k).mpr (Or.inl (h2 k hkn))
      · exact (hmap k).mpr (Or.inr (by omega))
    · intro x hx
      rcases (hmap x).mp hx with hx | hx
      · have := h3 x hx
        omega
      · omega
    · intro e he
      obtain ⟨p, hp, hmp, hep⟩ := h4 e he
      refine ⟨p, List.mem_append_left _ hp, ?_, hep⟩
      by_contra hle
      have hpn : p.1 = n := by omega
      exact hnew (hpn ▸ List.mem_map_of_mem Prod.fst hp)
    · intro x hx hmx
      rcases (hmap x).mp hx with hx | hx
      · exact h5 x hx (by omega)
      · omega
  · -- a number ahead, inside the window
    obtain ⟨hne, hw⟩ := in_window_of_ahead s m n h1 hgt hahead
    have hfst := next_message_fst_of_ne s _ v hne
    have hlh := next_message_handled_of_ne s _ v hne
    have hms := next_message_messages_of_window s _ v hne hw
    rw [hfst]
    simp only [Bool.false_eq_true, if_false, List.length_nil, Nat.add_zero]
    unfold tracks
    rw [hlh, hms]
    refine ⟨⟨h1, ?_, ?_, ?_, ?_⟩, trivial⟩
    · intro k hk
      exact (hmap k).mpr (Or.inl (h2 k hk))
    · intro x hx
      rcases (hmap x).mp hx with hx | hx
      · exact h3 x hx
      · omega
    · intro e he
      cases hfind : s.messages_.find (SeqNum.ofNat n) with
      | some w =>
        rw [MessageMap.insert_of_find_some _ _ _ _ hfind] at he
        obtain ⟨p, hp, hmp, hep⟩ := h4 e he
        exact ⟨p, List.mem_append_left _ hp, hmp, hep⟩
      | none =>
        rw [MessageMap.insert_of_find_none _ _ _ hfind] at he
        rcases List.mem_append.mp he with he | he
        · obtain ⟨p, hp, hmp, hep⟩ := h4 e he
          exact ⟨p, List.mem_append_left _ hp, hmp, hep⟩
        · have hee : e = (SeqNum.ofNat n, v) := by simpa using he
          exact ⟨(n, v), by simp, by simp only; omega, hee⟩
    · intro x hx hmx
      by_cases hkey : SeqNum.ofNat x = SeqNum.ofNat n
      · rw [hkey]
        cases hfind : s.messages_.find (SeqNum.ofNat n) with
        | some w => rw [MessageMap.insert_of_find_some _ _ _ _ hfind, hfind]; rfl
        | none => rw [MessageMap.find_insert_self _ _ _ hfind]; rfl
      · rw [MessageMap.find_insert_of_ne _ _ _ _ hkey]
        rcases (hmap x).mp hx with hx | hx
        · exact h5 x hx hmx
        · exact absurd (by rw [hx]) hkey

theorem receive_tracks (s : ReliableInputStream M)
    (received : List (Nat × InputMessagePtr M)) (m n : Nat) (v : InputMessagePtr M)
    (ht : tracks s received m) (hnew : m ∉ received.map Prod.fst)
    (hahead : n < m + RELIABLE_STREAM_DEPTH) (hbehind : m ≤ n + RELIABLE_STREAM_DEPTH) :
    tracks (receive s (SeqNum.ofNat n) v).2 (received ++ [(n, v)])
      (m + (receive s (SeqNum.ofNat n) v).1.length) ∧
    numbered (received ++ [(n, v)]) m (receive s (SeqNum.ofNat n) v).1 ∧
    m + (receive s (SeqNum.ofNat n) v).1.length ∉ (received ++ [(n, v)]).map Prod.fst := by
  obtain ⟨t1, n1⟩ := next_message_tracks s received m n v ht hnew hahead hbehind
  obtain ⟨t2, n2, c2⟩ := pop_until_false_tracks _ _ _ t1
  unfold receive
  simp only [List.length_append]
  rw [← Nat.add_assoc]
  exact ⟨t2, (numbered_append _ _ _ m).mpr ⟨n1, n2⟩, c2⟩

theorem receive_all_tracks (rest : List (Nat × InputMessagePtr M)) :
    ∀ (s : ReliableInputStream M) (received : List (Nat × InputMessagePtr M)) (m : Nat),
      tracks s received m → m ∉ received.map Prod.fst →
      bounded_after (received.map Prod.fst) (rest.map Prod.fst) →
      tracks (receive_all s (on_wire rest)).2 (received ++ rest)
        (m + (receive_all s (on_wire rest)).1.length) ∧
      numbered (received ++ rest) m (receive_all s (on_wire rest)).1 ∧
      m + (receive_all s (on_wire rest)).1.length ∉ (received ++ rest).map Prod.fst := by
  induction rest with
  | nil =>
    intro s received m ht hnew _
    simp only [on_wire, List.map_nil, receive_all, List.length_nil, Nat.add_zero,
      List.append_nil]
    exact ⟨ht, trivial, hnew⟩
  | cons p rest ih =>
    intro s received m ht hnew hb
    obtain ⟨hb1, ⟨k, hk, hkseen⟩, hb3⟩ := hb
    have hahead : p.1 < m + RELIABLE_STREAM_DEPTH := by
      by_contra hge
      exact hnew (hb1 m (by omega))
    have hbehind : m ≤ p.1 + RELIABLE_STREAM_DEPTH := by
      by_contra hgt
      exact hkseen (ht.2.1 k (by omega))
    obtain ⟨t1, n1, c1⟩ := receive_tracks s received m p.1 p.2 ht hnew hahead hbehind
    have hseen : (received ++ [(p.1, p.2)]).map Prod.fst =
        received.map Prod.fst ++ [p.1] := by simp
    rw [← hseen] at hb3
    obtain ⟨t2, n2, c2⟩ := ih _ _ _ t1 c1 hb3
    have happ : received ++ [(p.1, p.2)] ++ rest = received ++ p :: rest := by simp
    rw [happ] at t2 n2 c2
    have hwire : on_wire (p :: rest) = (SeqNum.ofNat p.1, p.2) :: on_wire rest := rfl
    rw [hwire]
    simp only [receive_all, List.length_append]
    rw [← Nat.add_assoc]
    refine ⟨t2, (numbered_append _ _ _ m).mpr ⟨?_, n2⟩, c2⟩
    exact numbered_mono _ _ (fun q hq => by
      rcases List.mem_append.mp hq with hq | hq
      · exact List.mem_append_left _ hq
      · exact List.mem_append_right _ (by
          have : q = p := by simpa using hq
          rw [this]
          exact List.mem_cons_self _ _)) _ m n1

theorem tracks_fresh : tracks (fresh : ReliableInputStream M) [] 0 := by
  have h0 : (UINT16_MAX + 1 : SeqNum) = SeqNum.ofNat 0 := by decide
  refine ⟨h0, ?_, ?_, ?_, ?_⟩
  · intro k hk
    exact absurd hk (Nat.not_lt_zero _)
  · intro n hn
    simp at hn
  · intro e he
    simp [fresh] at he
  · intro n hn
    simp at hn

/-- C1: the messages that a sender numbers 0, 1, 2, ... reach a fresh stream under
the sequence numbers `SeqNum(n)`, duplicated and reordered within
`RELIABLE_STREAM_DEPTH`, each `next_message` followed by `pop_message` until it returns
false. The sequence numbers of the delivered messages are consecutive from the initial
`last_handled + 1`; the `k`-th delivered message is a message received with the number
`k`, so every number is delivered once, at its place; every run of numbers `0 .. N - 1`
that has arrived in full is delivered, and when the arrivals are exactly the numbers
below `N`, exactly `N` messages are delivered; there are no more deliveries than
received pairs; and no sequence number is delivered twice as long as at most `2^16`
messages are delivered. -/
theorem reliable_delivery_in_order (inputs : List (Nat × InputMessagePtr M))
    (hbound : bounded_reordering (inputs.map Prod.fst)) :
    (receive_all (fresh : ReliableInputStream M) (on_wire inputs)).1.map Prod.fst =
      consecutive_from ((fresh : ReliableInputStream M).last_handled_ + 1)
        (receive_all (fresh : ReliableInputStream M) (on_wire inputs)).1.length ∧
    (∀ (k : Nat)
        (hk : k < (receive_all (fresh : ReliableInputStream M) (on_wire inputs)).1.length),
      ((receive_all (fresh : ReliableInputStream M) (on_wire inputs)).1.get ⟨k, hk⟩).1 =
        SeqNum.ofNat k ∧
      (k, ((receive_all (fresh : ReliableInputStream M) (on_wire inputs)).1.get ⟨k, hk⟩).2) ∈
        inputs) ∧
    (∀ N : Nat, (∀ k, k < N → k ∈ inputs.map Prod.fst) →
      N ≤ (receive_all (fresh : ReliableInputStream M) (on_wire inputs)).1.length) ∧
    (∀ N : Nat, (∀ k, k < N → k ∈ inputs.map Prod.fst) →
      (∀ n ∈ inputs.map Prod.fst, n < N) →
      (receive_all (fresh : ReliableInputStream M) (on_wire inputs)).1.length = N) ∧
    (receive_all (fresh : ReliableInputStream M) (on_wire inputs)).1.length ≤ inputs.length ∧
    ((receive_all (fresh : ReliableInputStream M) (on_wire inputs)).1.length ≤ 65536 →
      ((receive_all (fresh : ReliableInputStream M) (on_wire inputs)).1.map Prod.fst).Nodup) := by
  obtain ⟨h1, _, _, _, h5⟩ := receive_all_spec (on_wire inputs) (fresh : ReliableInputStream M)
  have hlen5 : (receive_all (fresh : ReliableInputStream M) (on_wire inputs)).1.length ≤
      inputs.length := by
    have hw : (on_wire inputs).length = inputs.length := List.length_map _ _
    have hf : (fresh : ReliableInputStream M).messages_.length = 0 := rfl
    omega
  obtain ⟨_, hnum, hclosed⟩ := receive_all_tracks inputs (fresh : ReliableInputStream M) [] 0
    tracks_fresh (by simp) hbound
  simp only [List.nil_append, Nat.zero_add] at hnum hclosed
  have hget := numbered_get inputs _ 0 hnum
  have hlive : ∀ N : Nat, (∀ k, k < N → k ∈ inputs.map Prod.fst) →
      N ≤ (receive_all (fresh : ReliableInputStream M) (on_wire inputs)).1.length := by
    intro N hN
    by_contra hlt
    exact hclosed (hN _ (by omega))
  refine ⟨h1, ?_, hlive, ?_, hlen5, ?_⟩
  · intro k hk
    have := hget k hk
    rw [Nat.zero_add] at this
    exact this
  · intro N hN hall
    apply Nat.le_antisymm _ (hlive N hN)
    by_contra hgt
    have hN' : N < (receive_all (fresh : ReliableInputStream M) (on_wire inputs)).1.length := by
      omega
    have := (hget N hN').2
    rw [Nat.zero_add] at this
    exact absurd (hall N (List.mem_map_of_mem Prod.fst this)) (Nat.lt_irrefl _)
  · intro hlen
    rw [h1]
    exact consecutive_from_nodup _ _ hlen

/-- Witness of C1: the numbers 1, 0, 1, 3, 2 arrive; the messages of 0, 1, 2, 3 are
delivered in this order, the duplicate of 1 is not. -/
theorem reliable_delivery_in_order_witness :
    bounded_reordering [1, 0, 1, 3, 2] ∧
    (receive_all (fresh : ReliableInputStream Nat)
      (on_wire [(1, some 10), (0, some 20), (1, some 30), (3, some 40), (2, some 50)])).1 =
      [(0, some 20), (1, some 10), (2, some 50), (3, some 40)] ∧
    (receive_all (fresh : ReliableInputStream Nat)
      (on_wire [(1, some 10), (0, some 20), (1, some 30), (3, some 40),
        (2, some 50)])).1.length = 4 :=
  ⟨by decide, by decide,
   (reliable_delivery_in_order
      [(1, some 10), (0, some 20), (1, some 30), (3, some 40), (2, some 50)]
      (by decide)).2.2.2.1 4 (by decide) (by decide)⟩

end ReliableInputStream
end uxr

namespace uxr

/-! ## Arrival: `next_message` -/

namespace ReliableInputStream

variable {M : Type}

/-- C2: `next_message(seq, msg)` returns true exactly when `seq == last_handled + 1`
(16-bit wrap-around addition); when it returns true, `last_handled` has advanced by
one and `last_announced` and the buffered messages are as before. -/
theorem next_message_true_iff (s : ReliableInputStream M) (seq : SeqNum)
    (msg : InputMessagePtr M) :
    ((s.next_message seq msg).1 = true ↔ seq = s.last_handled_ + 1) ∧
    ((s.next_message seq msg).1 = true →
      (s.next_message seq msg).2.2.last_handled_ = s.last_handled_ + 1 ∧
      (s.next_message seq msg).2.2.last_announced_ = s.last_announced_ ∧
      (s.next_message seq msg).2.2.messages_ = s.messages_) := by
  by_cases h : seq = s.last_handled_ + 1
  · simp [next_message, h]
  · have hf : (s.next_message seq msg).1 = false := by
      unfold next_message
      rw [if_neg h]
      split
      · split
        · rfl
        · split <;> rfl
      · rfl
    simp [hf, h]

/-- Witness of C2 on the freshly constructed stream, which takes sequence number 0. -/
theorem next_message_true_iff_witness :
    ((fresh : ReliableInputStream Nat).next_message 0 (some 7)).1 = true ∧
    ((fresh : ReliableInputStream Nat).next_message 0 (some 7)).2.2.last_handled_ =
      (fresh : ReliableInputStream Nat).last_handled_ + 1 ∧
    ((fresh : ReliableInputStream Nat).next_message 0 (some 7)).2.2.last_announced_ =
      (fresh : ReliableInputStream Nat).last_announced_ ∧
    ((fresh : ReliableInputStream Nat).next_message 0 (some 7)).2.2.messages_ =
      (fresh : ReliableInputStream Nat).messages_ :=
  ⟨by decide, (next_message_true_iff fresh 0 (some 7)).2 (by decide)⟩

/-- C3: for `seq != last_handled + 1` with `last_handled < seq <= last_handled +
RELIABLE_STREAM_DEPTH` (wrap-aware), `next_message(seq, msg)` returns false and keeps
`last_handled`; the buffer becomes `insert` of the pair, which stores `msg` under `seq`
when nothing was stored there, keeps an already stored message, and leaves every other
key alone; `last_announced` becomes the larger of `last_announced` and `seq`. -/
theorem next_message_in_window (s : ReliableInputStream M) (seq : SeqNum)
    (msg : InputMessagePtr M) (hne : seq ≠ s.last_handled_ + 1)
    (hlo : s.last_handled_ < seq)
    (hhi : seq ≤ s.last_handled_ + SeqNum.ofNat RELIABLE_STREAM_DEPTH) :
    (s.next_message seq msg).1 = false ∧
    (s.next_message seq msg).2.2.last_handled_ = s.last_handled_ ∧
    (s.messages_.find seq = none →
      (s.next_message seq msg).2.2.messages_ = s.messages_ ++ [(seq, msg)] ∧
      (s.next_message seq msg).2.2.messages_.find seq = some msg) ∧
    (∀ old, s.messages_.find seq = some old →
      (s.next_message seq msg).2.2.messages_ = s.messages_) ∧
    (∀ k, k ≠ seq → (s.next_message seq msg).2.2.messages_.find k = s.messages_.find k) ∧
    (s.next_message seq msg).2.2.last_announced_ = SeqNum.max s.last_announced_ seq := by
  have hwin : seq > s.last_handled_ + 1 ∧
      seq ≤ s.last_handled_ + SeqNum.ofNat RELIABLE_STREAM_DEPTH := by
    refine ⟨?_, hhi⟩
    have h1 := seq.isLt
    have h2 := s.last_handled_.isLt
    simp only [SeqNum.gt_iff, SeqNum.lt_iff, SeqNum.le_iff, SeqNum.eq_iff, SeqNum.add_val,
      SeqNum.one_val, SeqNum.ofNat_val, RELIABLE_STREAM_DEPTH, ne_eq] at *
    omega
  have hm : (s.next_message seq msg).2.2.messages_ = s.messages_.insert seq msg := by
    unfold next_message
    rw [if_neg hne, if_pos hwin]
    split
    · rfl
    · split
      · rfl
      · rename_i old hold
        exact (MessageMap.insert_of_find_some _ _ _ _ hold).symm
  refine ⟨?_, ?_, ?_, ?_, ?_, ?_⟩
  · unfold next_message
    rw [if_neg hne, if_pos hwin]
    split
    · rfl
    · split <;> rfl
  · unfold next_message
    rw [if_neg hne, if_pos hwin]
    split
    · rfl
    · split <;> rfl
  · intro hnone
    rw [hm]
    exact ⟨MessageMap.insert_of_find_none _ _ _ hnone, MessageMap.find_insert_self _ _ _ hnone⟩
  · intro old hold
    rw [hm]
    exact MessageMap.insert_of_find_some _ _ _ _ hold
  · intro k hk
    rw [hm]
    exact MessageMap.find_insert_of_ne _ _ _ _ hk
  · unfold next_message SeqNum.max
    rw [if_neg hne, if_pos hwin]
    by_cases hla : seq > s.last_announced_
    · rw [if_pos hla, if_pos hla]
    · rw [if_neg hla, if_neg hla]
      split <;> rfl

/-- Witness of C3: sequence number 2 arrives at the fresh stream, which waits for 0. -/
theorem next_message_in_window_witness :
    ((fresh : ReliableInputStream Nat).next_message 2 (some 7)).1 = false ∧
    ((fresh : ReliableInputStream Nat).next_message 2 (some 7)).2.2.messages_ =
      [(2, some 7)] ∧
    ((fresh : ReliableInputStream Nat).next_message 2 (some 7)).2.2.last_announced_ =
      SeqNum.max UINT16_MAX 2 :=
  have h := next_message_in_window (fresh : ReliableInputStream Nat) 2 (some 7)
    (by decide) (by decide) (by decide)
  ⟨h.1, (h.2.2.1 rfl).1, h.2.2.2.2.2⟩

/-- C4: for a stale `seq` (`seq <= last_handled`) or one beyond the window
(`seq > last_handled + RELIABLE_STREAM_DEPTH`), `next_message(seq, msg)` returns false
and changes nothing: the stream, and with it `last_handled`, `last_announced` and the
buffered messages, is the same, and the caller keeps its message. -/
theorem next_message_dropped (s : ReliableInputStream M) (seq : SeqNum)
    (msg : InputMessagePtr M)
    (h : seq ≤ s.last_handled_ ∨ seq > s.last_handled_ + SeqNum.ofNat RELIABLE_STREAM_DEPTH) :
    s.next_message seq msg = (false, msg, s) := by
  have h1 := seq.isLt
  have h2 := s.last_handled_.isLt
  have hne : seq ≠ s.last_handled_ + 1 := by
    simp only [SeqNum.gt_iff, SeqNum.lt_iff, SeqNum.le_iff, SeqNum.eq_iff, SeqNum.add_val,
      SeqNum.one_val, SeqNum.ofNat_val, RELIABLE_STREAM_DEPTH, ne_eq] at *
    omega
  have hwin : ¬ (seq > s.last_handled_ + 1 ∧
      seq ≤ s.last_handled_ + SeqNum.ofNat RELIABLE_STREAM_DEPTH) := by
    simp only [SeqNum.gt_iff, SeqNum.lt_iff, SeqNum.le_iff, SeqNum.eq_iff, SeqNum.add_val,
      SeqNum.one_val, SeqNum.ofNat_val, RELIABLE_STREAM_DEPTH, ne_eq] at *
    omega
  unfold next_message
  rw [if_neg hne, if_neg hwin]

/-- Witness of C4: sequence number 16 is beyond the window of the fresh stream, and
a stream that handled 3 drops the stale number 3. -/
theorem next_message_dropped_witness :
    (fresh : ReliableInputStream Nat).next_message 16 (some 7) = (false, some 7, fresh) ∧
    (({ (fresh : ReliableInputStream Nat) with last_handled_ := 3 }).next_message 3 (some 7)).1
      = false :=
  ⟨next_message_dropped fresh 16 (some 7) (Or.inr (by decide)),
   by rw [next_message_dropped _ 3 (some 7) (Or.inl (by decide))]⟩

/-! ## Delivery after a gap heals: `pop_message` -/

/-- C5: `pop_message` returns true exactly when a message is buffered under
`last_handled + 1`; then it yields that message, advances `last_handled` by one and
removes the entry (nothing is stored under that key afterwards, every other key keeps
its message, `last_announced` is as before); otherwise it returns false and the stream
and the caller's message are unchanged. -/
theorem pop_message_spec (s : ReliableInputStream M) (message : InputMessagePtr M) :
    ((s.pop_message message).1 = true ↔
      ∃ v, s.messages_.find (s.last_handled_ + 1) = some v) ∧
    (∀ v, s.messages_.find (s.last_handled_ + 1) = some v →
      (s.pop_message message).2.1 = v ∧
      (s.pop_message message).2.2.last_handled_ = s.last_handled_ + 1 ∧
      (s.pop_message message).2.2.last_announced_ = s.last_announced_ ∧
      (s.pop_message message).2.2.messages_ = s.messages_.erase (s.last_handled_ + 1) ∧
      (s.pop_message message).2.2.messages_.find (s.last_handled_ + 1) = none ∧
      (∀ k, k ≠ s.last_handled_ + 1 →
        (s.pop_message message).2.2.messages_.find k = s.messages_.find k)) ∧
    (s.messages_.find (s.last_handled_ + 1) = none →
      s.pop_message message = (false, message, s)) := by
  cases hf : s.messages_.find (s.last_handled_ + 1) with
  | none => simp [pop_message, hf]
  | some w =>
    simp only [pop_message, hf, Option.some.injEq, exists_eq', true_iff, forall_eq', true_and,
      false_imp_iff, and_true, reduceCtorEq]
    exact ⟨MessageMap.find_erase_self _ _, fun k hk => MessageMap.find_erase_of_ne _ _ _ hk⟩

/-- Witness of C5: a stream that handled 3 and buffers 4 hands out 4. -/
theorem pop_message_spec_witness :
    (({ (fresh : ReliableInputStream Nat) with
        last_handled_ := 3, last_announced_ := 5,
        messages_ := [(5, some 50), (4, some 40)] }).pop_message none).2.1 = some 40 ∧
    (({ (fresh : ReliableInputStream Nat) with
        last_handled_ := 3, last_announced_ := 5,
        messages_ := [(5, some 50), (4, some 40)] }).pop_message none).2.2.messages_.find
          ((3 : SeqNum) + 1) = none ∧
    (fresh : ReliableInputStream Nat).pop_message (some 1) = (false, some 1, fresh) :=
  have h := pop_message_spec ({ (fresh : ReliableInputStream Nat) with
        last_handled_ := 3, last_announced_ := 5,
        messages_ := [(5, some 50), (4, some 40)] }) none
  ⟨(h.2.1 (some 40) rfl).1, (h.2.1 (some 40) rfl).2.2.2.2.1,
   (pop_message_spec (fresh : ReliableInputStream Nat) (some 1)).2.2 rfl⟩

end ReliableInputStream

end uxr

namespace uxr
namespace ReliableInputStream
variable {M : Type}

/-- The bound of `window_invariant` as a distance: `last_announced` is at most
`RELIABLE_STREAM_DEPTH` steps ahead of `last_handled`. -/
theorem window_invariant_iff (s : ReliableInputStream M) :
    window_invariant s ↔
      (s.last_announced_.seq_num_ + 65536 - s.last_handled_.seq_num_) % 65536 ≤ 16 := by
  have h2 := s.last_handled_.isLt
  have h3 := s.last_announced_.isLt
  simp only [window_invariant, SeqNum.le_iff, SeqNum.add_val, SeqNum.ofNat_val,
    RELIABLE_STREAM_DEPTH, Nat.reduceMod, ne_eq]
  omega

theorem window_invariant_advance (s : ReliableInputStream M) {m : MessageMap M}
    (hinv : window_invariant s) (hne : s.last_announced_ ≠ s.last_handled_) :
    window_invariant { s with last_handled_ := s.last_handled_ + 1, messages_ := m } := by
  rw [window_invariant_iff] at hinv ⊢
  have h2 := s.last_handled_.isLt
  have h3 := s.last_announced_.isLt
  simp only [ne_eq, SeqNum.eq_iff, SeqNum.add_val, SeqNum.one_val] at hne ⊢
  omega

/-- C6, as stated, fails: after the first in-order message `last_announced` is behind
`last_handled`, and a heartbeat stores a `last_available` beyond the window. -/
theorem window_invariant_counterexample :
    (Reachable ((fresh : ReliableInputStream Nat).next_message 0 none).2.2 ∧
      ¬ window_invariant ((fresh : ReliableInputStream Nat).next_message 0 none).2.2) ∧
    (Reachable ((fresh : ReliableInputStream Nat).update_from_heartbeat 0 100) ∧
      ¬ window_invariant ((fresh : ReliableInputStream Nat).update_from_heartbeat 0 100)) :=
  ⟨⟨Reachable.next_message _ _ _ Reachable.fresh, by decide⟩,
   ⟨Reachable.update_from_heartbeat _ _ _ Reachable.fresh, by decide⟩⟩

/-- C6, amended: the fresh stream and every stream after `reset` satisfy
`last_handled <= last_announced <= last_handled + RELIABLE_STREAM_DEPTH`; a
`next_message` or `pop_message` call made where the bound holds keeps it, unless the
call delivers a message (returns true) while `last_announced = last_handled`; and
`update_from_heartbeat` keeps it when `first_available` does not move `last_handled`
and `last_available <= last_handled + RELIABLE_STREAM_DEPTH`. -/
theorem window_invariant_steps :
    window_invariant (fresh : ReliableInputStream M) ∧
    (∀ s : ReliableInputStream M, window_invariant s.reset) ∧
    (∀ (s : ReliableInputStream M) (seq : SeqNum) (msg : InputMessagePtr M),
      window_invariant s →
      (s.last_announced_ ≠ s.last_handled_ ∨ (s.next_message seq msg).1 = false) →
      window_invariant (s.next_message seq msg).2.2) ∧
    (∀ (s : ReliableInputStream M) (msg : InputMessagePtr M),
      window_invariant s →
      (s.last_announced_ ≠ s.last_handled_ ∨ (s.pop_message msg).1 = false) →
      window_invariant (s.pop_message msg).2.2) ∧
    (∀ (s : ReliableInputStream M) (first_available last_available : SeqNum),
      window_invariant s →
      ¬ s.last_handled_ + 1 < first_available →
      last_available ≤ s.last_handled_ + SeqNum.ofNat RELIABLE_STREAM_DEPTH →
      window_invariant (s.update_from_heartbeat first_available last_available)) := by
  refine ⟨?_, fun s => ?_, ?_, ?_, ?_⟩
  · show UINT16_MAX ≤ UINT16_MAX ∧ UINT16_MAX ≤ UINT16_MAX + SeqNum.ofNat RELIABLE_STREAM_DEPTH
    decide
  · show UINT16_MAX ≤ UINT16_MAX ∧ UINT16_MAX ≤ UINT16_MAX + SeqNum.ofNat RELIABLE_STREAM_DEPTH
    decide
  · intro s seq msg hinv hor
    by_cases h : seq = s.last_handled_ + 1
    · rw [next_message_of_eq s seq msg h] at hor ⊢
      have hne : s.last_announced_ ≠ s.last_handled_ := by
        rcases hor with hor | hor
        · exact hor
        · exact absurd hor (by simp)
      exact window_invariant_advance s hinv hne
    · by_cases hwin : in_window s seq
      · rw [window_invariant_iff] at hinv ⊢
        rw [next_message_handled_of_ne s seq msg h,
          next_message_announced_of_window s seq msg h hwin]
        have h1 := seq.isLt
        have h2 := s.last_handled_.isLt
        have h3 := s.last_announced_.isLt
        split
        · simp only [in_window, SeqNum.gt_iff, SeqNum.le_iff, SeqNum.add_val, SeqNum.one_val,
            SeqNum.ofNat_val, RELIABLE_STREAM_DEPTH, Nat.reduceMod, ne_eq] at hwin
          omega
        · exact hinv
      · rw [next_message_of_not_window s seq msg h hwin]
        exact hinv
  · intro s msg hinv hor
    cases hf : s.messages_.find (s.last_handled_ + 1) with
    | none => rw [pop_message_of_none s msg hf]; exact hinv
    | some v =>
      rw [pop_message_of_some s msg v hf] at hor ⊢
      have hne : s.last_announced_ ≠ s.last_handled_ := by
        rcases hor with hor | hor
        · exact hor
        · exact absurd hor (by simp)
      exact window_invariant_advance _ hinv hne
  · intro s a b hinv hno hb
    have hlh : (s.update_from_heartbeat a b).last_handled_ = s.last_handled_ := by
      rw [update_from_heartbeat_handled, if_neg hno]
    have hla : (s.update_from_heartbeat a b).last_announced_ =
        if s.last_announced_ < b then b else s.last_announced_ := by
      unfold update_from_heartbeat
      simp only [if_neg hno]
      split <;> rfl
    rw [window_invariant_iff] at hinv ⊢
    rw [hlh, hla]
    have h2 := s.last_handled_.isLt
    have h3 := s.last_announced_.isLt
    have h4 := b.isLt
    split
    · rename_i hlt
      simp only [SeqNum.lt_iff, SeqNum.le_iff, SeqNum.add_val,
        SeqNum.ofNat_val, RELIABLE_STREAM_DEPTH, Nat.reduceMod, ne_eq] at hlt hb
      omega
    · exact hinv

/-- Witness of C6 (amended): a stream that handled 3 and was announced 5 delivers the
in-order number 4 and still satisfies the bound. -/
theorem window_invariant_steps_witness :
    window_invariant ({ (fresh : ReliableInputStream Nat) with
        last_handled_ := 3, last_announced_ := 5 }) ∧
    window_invariant (({ (fresh : ReliableInputStream Nat) with
        last_handled_ := 3, last_announced_ := 5 }).next_message 4 (some 7)).2.2 :=
  ⟨by decide,
   (@window_invariant_steps Nat).2.2.1 ({ (fresh : ReliableInputStream Nat) with
        last_handled_ := 3, last_announced_ := 5 }) 4 (some 7) (by decide)
      (Or.inl (by decide))⟩

end ReliableInputStream
end uxr

namespace uxr
namespace ReliableInputStream
variable {M : Type}

/-! ## The buffer stays inside the window -/

/-- The numbers `last_handled + 1 .. last_handled + RELIABLE_STREAM_DEPTH`. -/
theorem mem_window_list (lh k : SeqNum)
    (h : lh < k ∧ k ≤ lh + SeqNum.ofNat RELIABLE_STREAM_DEPTH) :
    k ∈ (List.range RELIABLE_STREAM_DEPTH).map (fun j => lh + SeqNum.ofNat (j + 1)) := by
  have h1 := lh.isLt
  have h2 := k.isLt
  rw [List.mem_map]
  refine ⟨(k.seq_num_ + 65536 - lh.seq_num_) % 65536 - 1, ?_, ?_⟩
  · rw [List.mem_range]
    simp only [SeqNum.lt_iff, SeqNum.le_iff, SeqNum.add_val, SeqNum.ofNat_val,
      RELIABLE_STREAM_DEPTH, ne_eq] at *
    omega
  · simp only [SeqNum.lt_iff, SeqNum.le_iff, SeqNum.eq_iff, SeqNum.add_val, SeqNum.ofNat_val,
      RELIABLE_STREAM_DEPTH, ne_eq] at *
    omega

theorem length_le_of_window (s : ReliableInputStream M) (hw : buffered_in_window s)
    (hn : (s.messages_.map Prod.fst).Nodup) : s.messages_.length ≤ RELIABLE_STREAM_DEPTH := by
  have hsub : s.messages_.map Prod.fst ⊆
      (List.range RELIABLE_STREAM_DEPTH).map
        (fun j => s.last_handled_ + SeqNum.ofNat (j + 1)) := by
    intro k hk
    obtain ⟨e, he, rfl⟩ := List.mem_map.mp hk
    exact mem_window_list _ _ (hw e he)
  have := (hn.subperm hsub).length_le
  simpa using this

theorem nodup_keys_insert (m : MessageMap M) (k : SeqNum) (v : InputMessagePtr M)
    (hn : (m.map Prod.fst).Nodup) : ((m.insert k v).map Prod.fst).Nodup := by
  cases hf : m.find k with
  | some w => rw [MessageMap.insert_of_find_some _ _ _ _ hf]; exact hn
  | none =>
    rw [MessageMap.insert_of_find_none _ _ _ hf, List.map_append, List.nodup_append]
    refine ⟨hn, by simp, ?_⟩
    intro a ha hb
    simp only [List.map_cons, List.map_nil, List.mem_singleton] at hb
    obtain ⟨e, he, rfl⟩ := List.mem_map.mp ha
    exact (MessageMap.find_eq_none_iff m k).mp hf e he hb

theorem nodup_keys_erase (m : MessageMap M) (k : SeqNum)
    (hn : (m.map Prod.fst).Nodup) : ((m.erase k).map Prod.fst).Nodup :=
  hn.sublist (List.Sublist.map _ (List.filter_sublist m))

theorem mem_insert (m : MessageMap M) (k : SeqNum) (v : InputMessagePtr M)
    (e : SeqNum × InputMessagePtr M) (he : e ∈ m.insert k v) : e ∈ m ∨ e = (k, v) := by
  cases hf : m.find k with
  | some w => rw [MessageMap.insert_of_find_some _ _ _ _ hf] at he; exact Or.inl he
  | none =>
    rw [MessageMap.insert_of_find_none _ _ _ hf] at he
    simpa using he

theorem mem_erase (m : MessageMap M) (k : SeqNum) (e : SeqNum × InputMessagePtr M)
    (he : e ∈ m.erase k) : e ∈ m ∧ e.1 ≠ k := by
  have := List.mem_filter.mp he
  exact ⟨this.1, by simpa using this.2⟩

/-- The invariant behind C7: keys are in the window and no key occurs twice. -/
theorem drained_invariant (s : ReliableInputStream M) (h : ReachableDrained s) :
    buffered_in_window s ∧ (s.messages_.map Prod.fst).Nodup := by
  induction h with
  | fresh => exact ⟨fun e he => by simp [fresh] at he, by simp [fresh]⟩
  | next_message s seq msg _ hside ih =>
    obtain ⟨hw, hn⟩ := ih
    by_cases hseq : seq = s.last_handled_ + 1
    · rw [next_message_of_eq s seq msg hseq]
      refine ⟨?_, hn⟩
      intro e he
      have hne : e.1 ≠ s.last_handled_ + 1 :=
        (MessageMap.find_eq_none_iff _ _).mp (hseq ▸ hside hseq) e he
      have hwe := hw e he
      have h1 := e.1.isLt
      have h2 := s.last_handled_.isLt
      simp only [SeqNum.lt_iff, SeqNum.le_iff, SeqNum.eq_iff, SeqNum.add_val, SeqNum.ofNat_val,
        SeqNum.one_val, RELIABLE_STREAM_DEPTH, ne_eq] at *
      omega
    · by_cases hwin : in_window s seq
      · refine ⟨?_, ?_⟩
        · intro e he
          rw [next_message_handled_of_ne s seq msg hseq]
          rw [next_message_messages_of_window s seq msg hseq hwin] at he
          rcases mem_insert _ _ _ _ he with he | he
          · exact hw e he
          · subst he
            have h1 := seq.isLt
            have h2 := s.last_handled_.isLt
            simp only [in_window, SeqNum.gt_iff, SeqNum.lt_iff, SeqNum.le_iff, SeqNum.eq_iff,
              SeqNum.add_val, SeqNum.ofNat_val, SeqNum.one_val, RELIABLE_STREAM_DEPTH,
              ne_eq] at *
            omega
        · rw [next_message_messages_of_window s seq msg hseq hwin]
          exact nodup_keys_insert _ _ _ hn
      · rw [next_message_of_not_window s seq msg hseq hwin]
        exact ⟨hw, hn⟩
  | pop_message s msg _ ih =>
    obtain ⟨hw, hn⟩ := ih
    cases hf : s.messages_.find (s.last_handled_ + 1) with
    | none => rw [pop_message_of_none s msg hf]; exact ⟨hw, hn⟩
    | some v =>
      rw [pop_message_of_some s msg v hf]
      refine ⟨?_, nodup_keys_erase _ _ hn⟩
      intro e he
      obtain ⟨hem, hne⟩ := mem_erase _ _ _ he
      have hwe := hw e hem
      have h1 := e.1.isLt
      have h2 := s.last_handled_.isLt
      simp only [SeqNum.lt_iff, SeqNum.le_iff, SeqNum.eq_iff, SeqNum.add_val, SeqNum.ofNat_val,
        SeqNum.one_val, RELIABLE_STREAM_DEPTH, ne_eq] at *
      omega
  | update_from_heartbeat s a b _ hno ih =>
    have hlh : (s.update_from_heartbeat a b).last_handled_ = s.last_handled_ := by
      unfold update_from_heartbeat
      simp only [if_neg hno]
      split <;> rfl
    have hms : (s.update_from_heartbeat a b).messages_ = s.messages_ := by
      unfold update_from_heartbeat
      simp only [if_neg hno]
      split <;> rfl
    unfold buffered_in_window
    rw [hlh, hms]
    exact ih
  | reset s _ _ => exact ⟨fun e he => by simp [reset] at he, by simp [reset]⟩

/-- C7, as stated, fails: a heartbeat moves `last_handled` past a buffered message
without erasing it, and so does an in-order `next_message` for a number that is
still buffered. -/
theorem buffered_in_window_counterexample :
    (Reachable (((fresh : ReliableInputStream Nat).next_message 5 (some 7)).2.2.update_from_heartbeat
        10 10) ∧
      ¬ buffered_in_window
        (((fresh : ReliableInputStream Nat).next_message 5 (some 7)).2.2.update_from_heartbeat
          10 10)) ∧
    (Reachable (((((fresh : ReliableInputStream Nat).next_message 1 (some 7)).2.2.next_message
        0 (some 8)).2.2.next_message 1 (some 9)).2.2) ∧
      ¬ buffered_in_window (((((fresh : ReliableInputStream Nat).next_message 1 (some 7)).2.2.next_message
        0 (some 8)).2.2.next_message 1 (some 9)).2.2)) := by
  refine ⟨⟨Reachable.update_from_heartbeat _ _ _ (Reachable.next_message _ _ _ Reachable.fresh),
      ?_⟩,
    ⟨Reachable.next_message _ _ _ (Reachable.next_message _ _ _
      (Reachable.next_message _ _ _ Reachable.fresh)), ?_⟩⟩
  · intro h
    exact absurd (h (5, some 7) (by decide)).1 (by decide)
  · intro h
    exact absurd (h (1, some 7) (by decide)).1 (by decide)

/-- C7, amended: in every state reached from the freshly constructed stream by
`next_message`, `pop_message`, `update_from_heartbeat` and `reset` calls in which
`next_message` is never called with `last_handled + 1` while a message is buffered
under that number and `update_from_heartbeat` never moves `last_handled`, every
buffered sequence number lies in `(last_handled, last_handled + RELIABLE_STREAM_DEPTH]`
and at most `RELIABLE_STREAM_DEPTH` messages are buffered. -/
theorem buffered_in_window_of_drained (s : ReliableInputStream M) (h : ReachableDrained s) :
    buffered_in_window s ∧ s.messages_.length ≤ RELIABLE_STREAM_DEPTH :=
  ⟨(drained_invariant s h).1,
   length_le_of_window s (drained_invariant s h).1 (drained_invariant s h).2⟩

/-- Witness of C7 (amended): the fresh stream after buffering sequence number 2. -/
theorem buffered_in_window_of_drained_witness :
    ReachableDrained ((fresh : ReliableInputStream Nat).next_message 2 (some 7)).2.2 ∧
    buffered_in_window ((fresh : ReliableInputStream Nat).next_message 2 (some 7)).2.2 ∧
    ((fresh : ReliableInputStream Nat).next_message 2 (some 7)).2.2.messages_.length ≤
      RELIABLE_STREAM_DEPTH :=
  ⟨ReachableDrained.next_message _ _ _ ReachableDrained.fresh (fun _ => rfl),
   buffered_in_window_of_drained _
    (ReachableDrained.next_message _ _ _ ReachableDrained.fresh (fun _ => rfl))⟩

end ReliableInputStream
end uxr

namespace uxr
namespace ReliableInputStream
variable {M : Type}

/-! ## Heartbeats -/

/-- C8, the code at the failing input: a stream that handled 3 receives the heartbeat
`(6, 10)`. `last_handled` becomes 6, not `6 − 1 = 5`, and `get_first_unacked` returns 7,
not 6: the number 6, which the peer still announces, counts as handled. -/
theorem update_from_heartbeat_jump_off_by_one :
    (({ (fresh : ReliableInputStream Nat) with
        last_handled_ := 3, last_announced_ := 3 }).update_from_heartbeat 6 10).last_handled_
      = 6 ∧
    (({ (fresh : ReliableInputStream Nat) with
        last_handled_ := 3, last_announced_ := 3 }).update_from_heartbeat
          6 10).get_first_unacked = 7 ∧
    ((({ (fresh : ReliableInputStream Nat) with
        last_handled_ := 3, last_announced_ := 3 }).update_from_heartbeat
          6 10).next_message 6 (some 1)).1 = false := by
  decide

/-! ## No delivery below a heartbeat's `first_available` -/

theorem popped_seqs_offset (calls : List (StreamCall M)) :
    ∀ (s : ReliableInputStream M) (q : SeqNum), q ∈ popped_seqs s calls →
      ∃ d, 1 ≤ d ∧ d ≤ calls.length ∧ q = s.last_handled_ + SeqNum.ofNat d := by
  induction calls with
  | nil => intro s q hq; simp [popped_seqs] at hq
  | cons c calls ih =>
    intro s q hq
    have h2 := s.last_handled_.isLt
    cases c with
    | next_message seq msg =>
      simp only [popped_seqs] at hq
      obtain ⟨d, hd1, hd2, hq⟩ := ih _ q hq
      by_cases hseq : seq = s.last_handled_ + 1
      · rw [next_message_of_eq s seq msg hseq] at hq
        refine ⟨d + 1, by omega, by simp; omega, ?_⟩
        rw [hq]
        simp only [SeqNum.eq_iff, SeqNum.add_val, SeqNum.ofNat_val, SeqNum.one_val]
        omega
      · rw [next_message_handled_of_ne s seq msg hseq] at hq
        exact ⟨d, hd1, by simp; omega, hq⟩
    | pop_message msg =>
      simp only [popped_seqs] at hq
      cases hf : s.messages_.find (s.last_handled_ + 1) with
      | none =>
        rw [pop_message_of_none s msg hf] at hq
        simp only [Bool.false_eq_true, if_false] at hq
        obtain ⟨d, hd1, hd2, hq⟩ := ih _ q hq
        exact ⟨d, hd1, by simp; omega, hq⟩
      | some v =>
        rw [pop_message_of_some s msg v hf] at hq
        simp only [if_true, List.mem_cons] at hq
        rcases hq with hq | hq
        · refine ⟨1, by omega, by simp, ?_⟩
          rw [hq]
          rfl
        · obtain ⟨d, hd1, hd2, hq⟩ := ih _ q hq
          refine ⟨d + 1, by omega, by simp; omega, ?_⟩
          rw [hq]
          simp only [SeqNum.eq_iff, SeqNum.add_val, SeqNum.ofNat_val, SeqNum.one_val]
          omega

theorem popped_seqs_in_order (n : Nat) :
    ∀ (s : ReliableInputStream M) (rest : List (StreamCall M)),
      popped_seqs s (in_order_calls s.last_handled_ n ++ rest) =
        popped_seqs { s with last_handled_ := s.last_handled_ + SeqNum.ofNat n } rest := by
  induction n with
  | zero =>
    intro s rest
    have : s.last_handled_ + SeqNum.ofNat 0 = s.last_handled_ := by
      have h2 := s.last_handled_.isLt
      simp only [SeqNum.eq_iff, SeqNum.add_val, SeqNum.ofNat_val]
      omega
    rw [this]
    rfl
  | succ n ih =>
    intro s rest
    have h2 := s.last_handled_.isLt
    have hadd : s.last_handled_ + 1 + SeqNum.ofNat n = s.last_handled_ + SeqNum.ofNat (n + 1) := by
      simp only [SeqNum.eq_iff, SeqNum.add_val, SeqNum.ofNat_val, SeqNum.one_val]
      omega
    simp only [in_order_calls, List.cons_append, popped_seqs]
    rw [next_message_of_eq s _ none rfl]
    have := ih { s with last_handled_ := s.last_handled_ + 1 } rest
    simp only [hadd] at this
    exact this

/-- C9, as stated, fails once the 16-bit numbers wrap: a stream that handled 0 and
buffers a message under 32771 takes the heartbeat `(2, 2)`, then the 32768 numbers
`3 .. 32770` arrive in order, and the next `pop_message` returns the message of
32771, which is less than 2 in the wrap-aware order. -/
theorem pop_after_heartbeat_counterexample :
    ({ (fresh : ReliableInputStream Nat) with
        last_handled_ := 0, last_announced_ := 0,
        messages_ := [(SeqNum.ofNat 32771, some 0)] }).last_handled_ + 1 < (2 : SeqNum) ∧
    SeqNum.ofNat 32771 ∈
      popped_seqs (({ (fresh : ReliableInputStream Nat) with
          last_handled_ := 0, last_announced_ := 0,
          messages_ := [(SeqNum.ofNat 32771, some 0)] }).update_from_heartbeat 2 2)
        (in_order_calls 2 32768 ++ [StreamCall.pop_message none]) ∧
    SeqNum.ofNat 32771 < (2 : SeqNum) := by
  refine ⟨by decide, ?_, by decide⟩
  have h := popped_seqs_in_order 32768
    (({ (fresh : ReliableInputStream Nat) with
          last_handled_ := 0, last_announced_ := 0,
          messages_ := [(SeqNum.ofNat 32771, some 0)] }).update_from_heartbeat 2 2)
    [StreamCall.pop_message none]
  have hlh : (({ (fresh : ReliableInputStream Nat) with
          last_handled_ := 0, last_announced_ := 0,
          messages_ := [(SeqNum.ofNat 32771, some 0)] }).update_from_heartbeat 2 2).last_handled_
      = 2 := by decide
  rw [hlh] at h
  rw [h]
  decide

/-- C9, amended: after `update_from_heartbeat(a, b)` with `a > last_handled + 1`, no
`pop_message` call among the next `2^15` `next_message` and `pop_message` calls returns
a message whose sequence number is less than `a`. -/
theorem pop_after_heartbeat (s : ReliableInputStream M) (a b : SeqNum)
    (calls : List (StreamCall M)) (ha : a > s.last_handled_ + 1)
    (hlen : calls.length ≤ 32768) :
    ∀ q ∈ popped_seqs (s.update_from_heartbeat a b) calls, ¬ q < a := by
  intro q hq
  obtain ⟨d, hd1, hd2, hqd⟩ := popped_seqs_offset calls _ q hq
  rw [update_from_heartbeat_handled, if_pos ha] at hqd
  have h1 := a.isLt
  rw [hqd]
  simp only [SeqNum.lt_iff, SeqNum.add_val, SeqNum.ofNat_val, ne_eq]
  omega

/-- Witness of C9 (amended): a stream that handled 3 and buffers 7 and 8 takes the
heartbeat `(6, 8)`; the two `pop_message` calls that follow return 7 and 8. -/
theorem pop_after_heartbeat_witness :
    popped_seqs (({ (fresh : ReliableInputStream Nat) with
        last_handled_ := 3, last_announced_ := 8,
        messages_ := [(7, some 70), (8, some 80)] }).update_from_heartbeat 6 8)
      [StreamCall.pop_message none, StreamCall.pop_message none] = [7, 8] ∧
    ∀ q ∈ popped_seqs (({ (fresh : ReliableInputStream Nat) with
        last_handled_ := 3, last_announced_ := 8,
        messages_ := [(7, some 70), (8, some 80)] }).update_from_heartbeat 6 8)
      [StreamCall.pop_message none, StreamCall.pop_message none], ¬ q < (6 : SeqNum) :=
  ⟨by decide,
   pop_after_heartbeat _ 6 8 [StreamCall.pop_message none, StreamCall.pop_message none]
    (by decide) (by decide)⟩

end ReliableInputStream
end uxr

namespace uxr
namespace ReliableInputStream
variable {M : Type}

/-! ## The NACK bitmap -/

theorem nack_step_eq (s : ReliableInputStream M) (bitmap : Nat × Nat) (i : Nat) :
    nack_step s bitmap i =
      ((if nack_guard s (i + 8) then (bitmap.1 ||| (1 <<< i)) % 256 else bitmap.1),
       (if nack_guard s i then (bitmap.2 ||| (1 <<< i)) % 256 else bitmap.2)) := by
  unfold nack_step nack_guard
  refine Prod.ext ?_ ?_
  · by_cases h : s.last_handled_ + SeqNum.ofNat (i + 8) < s.last_announced_
    · cases hf : s.messages_.find (s.last_handled_ + SeqNum.ofNat (i + 8 + 1)) <;>
        simp [h, hf]
    · simp [h]
  · by_cases h : s.last_handled_ + SeqNum.ofNat i < s.last_announced_
    · cases hf : s.messages_.find (s.last_handled_ + SeqNum.ofNat (i + 1)) <;>
        simp [h, hf]
    · simp [h]

theorem testBit_set_bit (x i j : Nat) (hj : j < 8) :
    ((x ||| (1 <<< i)) % 256).testBit j = (x.testBit j || decide (i = j)) := by
  have h256 : (256 : Nat) = 2 ^ 8 := by norm_num
  rw [h256, Nat.testBit_mod_two_pow, Nat.testBit_or, Nat.one_shiftLeft, Nat.testBit_two_pow]
  simp [hj]

theorem nack_fold_testBit (s : ReliableInputStream M) (l : List Nat) :
    ∀ (bitmap : Nat × Nat) (j : Nat), j < 8 →
      (List.foldl (nack_step s) bitmap l).2.testBit j =
        (bitmap.2.testBit j || (decide (j ∈ l) && nack_guard s j)) ∧
      (List.foldl (nack_step s) bitmap l).1.testBit j =
        (bitmap.1.testBit j || (decide (j ∈ l) && nack_guard s (j + 8))) := by
  induction l with
  | nil => intro bitmap j _; simp
  | cons i l ih =>
    intro bitmap j hj
    rw [List.foldl_cons]
    obtain ⟨h2, h1⟩ := ih (nack_step s bitmap i) j hj
    rw [h2, h1, nack_step_eq]
    constructor
    · by_cases hg : nack_guard s i = true
      · simp only [hg, if_true, testBit_set_bit _ _ _ hj]
        by_cases hij : i = j
        · subst hij
          simp [hg]
        · have hji : ¬ j = i := fun h => hij h.symm
          simp [hij, hji]
      · simp only [hg, if_false, Bool.false_eq_true]
        by_cases hij : i = j
        · subst hij
          simp [hg]
        · have hji : ¬ j = i := fun h => hij h.symm
          simp [hji]
    · by_cases hg : nack_guard s (i + 8) = true
      · simp only [hg, if_true, testBit_set_bit _ _ _ hj]
        by_cases hij : i = j
        · subst hij
          simp [hg]
        · have hji : ¬ j = i := fun h => hij h.symm
          simp [hij, hji]
      · simp only [hg, if_false, Bool.false_eq_true]
        by_cases hij : i = j
        · subst hij
          simp [hg]
        · have hji : ¬ j = i := fun h => hij h.symm
          simp [hji]

theorem nack_bit_get_nack_bitmap (s : ReliableInputStream M) (i : Nat) (hi : i < 16) :
    nack_bit (get_nack_bitmap s) i = nack_guard s i := by
  unfold nack_bit get_nack_bitmap
  by_cases h8 : i < 8
  · rw [if_pos h8, (nack_fold_testBit s (List.range 8) (0, 0) i h8).1]
    simp [List.mem_range, h8]
  · have h8' : i - 8 < 8 := by omega
    rw [if_neg h8, (nack_fold_testBit s (List.range 8) (0, 0) (i - 8) h8').2]
    have : i - 8 + 8 = i := by omega
    simp [List.mem_range, h8', this]

/-- C10, as stated, fails when `last_announced` is exactly `2^15` ahead of the number
the bit stands for: with `last_handled = 0`, `last_announced = 32768` and nothing
buffered, `1 <= last_announced` holds and nothing is buffered under 1, yet bit 0 is
clear, because the code tests `last_handled + 0 < last_announced`. -/
theorem get_nack_bitmap_counterexample :
    ¬ (nack_bit (get_nack_bitmap ({ (fresh : ReliableInputStream Nat) with
          last_handled_ := 0, last_announced_ := SeqNum.ofNat 32768 })) 0 = true ↔
        ((0 : SeqNum) + SeqNum.ofNat (0 + 1) ≤ SeqNum.ofNat 32768 ∧
          ({ (fresh : ReliableInputStream Nat) with
            last_handled_ := 0, last_announced_ := SeqNum.ofNat 32768 }).messages_.find
              ((0 : SeqNum) + SeqNum.ofNat (0 + 1)) = none)) := by
  decide

/-- C10, amended: for every `i` in `0 .. 15` such that `last_announced` is not
`last_handled + i + 2^15`, bit `i` of the NACK bitmap (bits 0 to 7 in array element 1,
bits 8 to 15 in array element 0) is set if and only if
`last_handled + i + 1 <= last_announced` and no message is buffered under
`last_handled + i + 1`. -/
theorem get_nack_bitmap_bit (s : ReliableInputStream M) (i : Nat) (hi : i < 16)
    (hanti : s.last_announced_ ≠ s.last_handled_ + SeqNum.ofNat (i + 32768)) :
    nack_bit (get_nack_bitmap s) i = true ↔
      (s.last_handled_ + SeqNum.ofNat (i + 1) ≤ s.last_announced_ ∧
        s.messages_.find (s.last_handled_ + SeqNum.ofNat (i + 1)) = none) := by
  rw [nack_bit_get_nack_bitmap s i hi]
  unfold nack_guard
  have h2 := s.last_handled_.isLt
  have h3 := s.last_announced_.isLt
  have hord : s.last_handled_ + SeqNum.ofNat i < s.last_announced_ ↔
      s.last_handled_ + SeqNum.ofNat (i + 1) ≤ s.last_announced_ := by
    simp only [SeqNum.lt_iff, SeqNum.le_iff, SeqNum.eq_iff, SeqNum.add_val, SeqNum.ofNat_val,
      ne_eq] at *
    omega
  simp [hord, Option.isNone_iff_eq_none]

/-- Witness of C10 (amended): a stream that handled 3, was announced 10 and buffers 5;
bit 0 (number 4) is set and bit 1 (number 5) is clear. -/
theorem get_nack_bitmap_bit_witness :
    nack_bit (get_nack_bitmap ({ (fresh : ReliableInputStream Nat) with
        last_handled_ := 3, last_announced_ := 10, messages_ := [(5, some 50)] })) 0 = true ∧
    nack_bit (get_nack_bitmap ({ (fresh : ReliableInputStream Nat) with
        last_handled_ := 3, last_announced_ := 10, messages_ := [(5, some 50)] })) 1 = false ∧
    (nack_bit (get_nack_bitmap ({ (fresh : ReliableInputStream Nat) with
        last_handled_ := 3, last_announced_ := 10, messages_ := [(5, some 50)] })) 1 = true ↔
      ((3 : SeqNum) + SeqNum.ofNat (1 + 1) ≤ (10 : SeqNum) ∧
        MessageMap.find [((5 : SeqNum), some 50)] ((3 : SeqNum) + SeqNum.ofNat (1 + 1)) = none)) :=
  ⟨by decide, by decide,
   get_nack_bitmap_bit ({ (fresh : ReliableInputStream Nat) with
        last_handled_ := 3, last_announced_ := 10, messages_ := [(5, some 50)] }) 1
      (by decide) (by decide)⟩

end ReliableInputStream
end uxr

namespace uxr
namespace ReliableInputStream

variable {M : Type}

/-! ## Scenario S2 -/

/-- C11, as stated, fails: on the stream of scenario S2 (handled 3, announced 10,
messages buffered under 5, 6, 8, 9 and 10) after `update_from_heartbeat(1, 10)` the
bitmap is not `0b00000000_01001000`. -/
theorem scenario_s2_counterexample :
    ¬ ((({ (fresh : ReliableInputStream Nat) with
          last_handled_ := 3, last_announced_ := 10,
          messages_ := [(5, some 50), (6, some 60), (8, some 80), (9, some 90),
            (10, some 100)] }).update_from_heartbeat 1 10).get_first_unacked = 4 ∧
        (({ (fresh : ReliableInputStream Nat) with
          last_handled_ := 3, last_announced_ := 10,
          messages_ := [(5, some 50), (6, some 60), (8, some 80), (9, some 90),
            (10, some 100)] }).update_from_heartbeat 1 10).get_nack_bitmap =
          (0b00000000, 0b01001000)) := by
  decide

/-- C11, amended: for a stream with `last_handled = 3`, `last_announced = 10` and
messages buffered under exactly 5, 6, 8, 9 and 10, after
`update_from_heartbeat(1, 10)` `get_first_unacked` returns 4 and `get_nack_bitmap`
returns high byte `0b00000000` (array element 0) and low byte `0b00001001` (array
element 1): bit 0 for sequence number 4 and bit 3 for sequence number 7. -/
theorem scenario_s2 (s : ReliableInputStream M) (hlh : s.last_handled_ = 3)
    (hla : s.last_announced_ = 10)
    (hbuf : ∀ k, (s.messages_.find k).isSome = decide (k ∈ ([5, 6, 8, 9, 10] : List SeqNum))) :
    (s.update_from_heartbeat 1 10).get_first_unacked = 4 ∧
    (s.update_from_heartbeat 1 10).get_nack_bitmap = (0b00000000, 0b00001001) ∧
    (∀ i, i < 16 →
      (nack_bit (s.update_from_heartbeat 1 10).get_nack_bitmap i = true ↔ i = 0 ∨ i = 3)) := by
  have hhb : s.update_from_heartbeat 1 10 = s := by
    have h1 : ¬ (s.last_handled_ + 1 < 1) := by rw [hlh]; decide
    have h2 : ¬ (s.last_announced_ < 10) := by rw [hla]; decide
    unfold update_from_heartbeat
    simp only [if_neg h1, if_neg h2]
  have hg : ∀ j, nack_guard s j =
      (decide ((3 : SeqNum) + SeqNum.ofNat j < 10) &&
        !decide ((3 : SeqNum) + SeqNum.ofNat (j + 1) ∈ ([5, 6, 8, 9, 10] : List SeqNum))) := by
    intro j
    unfold nack_guard
    rw [hlh, hla, ← hbuf]
    cases s.messages_.find (3 + SeqNum.ofNat (j + 1)) <;> rfl
  have hbitmap : s.get_nack_bitmap = (0b00000000, 0b00001001) := by
    show List.foldl (nack_step s) (0, 0) [0, 1, 2, 3, 4, 5, 6, 7] = _
    simp only [List.foldl, nack_step_eq, hg]
    decide
  rw [hhb, hbitmap]
  refine ⟨?_, rfl, ?_⟩
  · unfold get_first_unacked
    rw [hlh]
    decide
  · decide

/-- Witness of C11 (amended): the stream of scenario S2. -/
theorem scenario_s2_witness :
    (({ (fresh : ReliableInputStream Nat) with
        last_handled_ := 3, last_announced_ := 10,
        messages_ := [(5, some 50), (6, some 60), (8, some 80), (9, some 90),
          (10, some 100)] }).update_from_heartbeat 1 10).get_first_unacked = 4 ∧
    (({ (fresh : ReliableInputStream Nat) with
        last_handled_ := 3, last_announced_ := 10,
        messages_ := [(5, some 50), (6, some 60), (8, some 80), (9, some 90),
          (10, some 100)] }).update_from_heartbeat 1 10).get_nack_bitmap =
      (0b00000000, 0b00001001) :=
  have h := scenario_s2 ({ (fresh : ReliableInputStream Nat) with
        last_handled_ := 3, last_announced_ := 10,
        messages_ := [(5, some 50), (6, some 60), (8, some 80), (9, some 90),
          (10, some 100)] }) rfl rfl
      (by
        intro k
        show (MessageMap.find [(5, some 50), (6, some 60), (8, some 80), (9, some 90),
          (10, some 100)] k).isSome = _
        simp only [MessageMap.find_cons, MessageMap.find_nil, List.mem_cons,
          List.mem_singleton, List.not_mem_nil, or_false]
        by_cases h5 : (5 : SeqNum) = k
        · subst h5; decide
        · by_cases h6 : (6 : SeqNum) = k
          · subst h6; decide
          · by_cases h8 : (8 : SeqNum) = k
            · subst h8; decide
            · by_cases h9 : (9 : SeqNum) = k
              · subst h9; decide
              · by_cases h10 : (10 : SeqNum) = k
                · subst h10; decide
                · simp [h5, h6, h8, h9, h10, Ne.symm h5, Ne.symm h6, Ne.symm h8,
                    Ne.symm h9, Ne.symm h10, eq_comm])
  ⟨h.1, h.2.1⟩

end ReliableInputStream
end uxr

namespace uxr

/-! ## Fragment reassembly -/

namespace MessageHeader

/-- The header read from a buffer depends only on the header bytes: the first 8 when
the session id is below 128, the first 4 otherwise. -/
theorem deserialize_take_append (buf tail : List Nat)
    (h : (if 128 > (deserialize buf).1.session_id then 8 else 4) ≤ buf.length) :
    (deserialize
      (buf.take (if 128 > (deserialize buf).1.session_id then 8 else 4) ++ tail)).1 =
      (deserialize buf).1 := by
  match buf, h with
  | [], h => simp [deserialize, empty] at h
  | [a], h =>
    simp only [deserialize, empty] at h
    split at h <;> simp at h
  | [a, b], h =>
    simp only [deserialize, empty] at h
    split at h <;> simp at h
  | [a, b, c], h =>
    simp only [deserialize, empty] at h
    split at h <;> simp at h
  | a :: b :: c :: d :: rest, h =>
    by_cases ha : 128 > a
    · by_cases hr : 4 ≤ rest.length
      · match rest, hr with
        | e :: f :: g :: i :: rest', _ =>
          simp [deserialize, ha]
      · simp [deserialize, ha, hr] at h
    · simp [deserialize, ha, empty]

end MessageHeader

namespace ReliableInputStream

/-- What `push_fragment` does with a fragment whose payload can be read in full: the
raw header is put in front when the buffer is empty, the payload is appended, and the
flag tells whether this fragment carries `LAST_FRAGMENT`. -/
theorem push_fragment_of_readable (s : ReliableInputStream InputMessage) (m : InputMessage)
    (hread : m.position + m.subheader_.submessage_length ≤ m.buf_.length) :
    (s.push_fragment m).2 =
      { s with
        fragment_msg_ :=
          (if s.fragment_msg_.isEmpty then
            (m.get_raw_header.2.take m.get_raw_header.1) ++ s.fragment_msg_
          else s.fragment_msg_) ++ m.payload
        fragment_message_available_ :=
          decide (0 ≠ (FLAG_LAST_FRAGMENT &&& m.subheader_.flags)) } := by
  simp [push_fragment, InputMessage.get_raw_payload, InputMessage.payload, hread]

theorem push_fragment_of_nonempty (s : ReliableInputStream InputMessage) (m : InputMessage)
    (hread : m.position + m.subheader_.submessage_length ≤ m.buf_.length)
    (hne : s.fragment_msg_ ≠ []) :
    (s.push_fragment m).2 =
      { s with
        fragment_msg_ := s.fragment_msg_ ++ m.payload
        fragment_message_available_ :=
          decide (0 ≠ (FLAG_LAST_FRAGMENT &&& m.subheader_.flags)) } := by
  rw [push_fragment_of_readable s m hread]
  have : s.fragment_msg_.isEmpty = false := by
    cases hs : s.fragment_msg_ with
    | nil => exact absurd hs hne
    | cons a l => rfl
  simp [this]

theorem length_payload (m : InputMessage)
    (hread : m.position + m.subheader_.submessage_length ≤ m.buf_.length) :
    m.payload.length = m.subheader_.submessage_length := by
  simp only [InputMessage.payload, List.length_take, List.length_drop]
  omega

theorem length_payloads (l : List InputMessage)
    (hread : ∀ m ∈ l, m.position + m.subheader_.submessage_length ≤ m.buf_.length) :
    (payloads l).length = (l.map (fun m => m.subheader_.submessage_length)).sum := by
  induction l with
  | nil => rfl
  | cons m rest ih =>
    simp only [payloads, List.length_append, List.map_cons, List.sum_cons]
    rw [length_payload m (hread m (List.mem_cons_self _ _)),
      ih (fun x hx => hread x (List.mem_cons_of_mem _ hx))]

/-- Fragments pushed onto a buffer that already holds bytes: the payloads are
appended. -/
theorem push_fragments_msg_of_nonempty (l : List InputMessage) :
    ∀ s : ReliableInputStream InputMessage, s.fragment_msg_ ≠ [] →
      (∀ m ∈ l, m.position + m.subheader_.submessage_length ≤ m.buf_.length) →
      (push_fragments s l).fragment_msg_ = s.fragment_msg_ ++ payloads l := by
  induction l with
  | nil => intro s _ _; simp [push_fragments, payloads]
  | cons m rest ih =>
    intro s hne hread
    have hm := hread m (List.mem_cons_self _ _)
    have hrest : ∀ x ∈ rest, x.position + x.subheader_.submessage_length ≤ x.buf_.length :=
      fun x hx => hread x (List.mem_cons_of_mem _ hx)
    have hne' : ((s.push_fragment m).2).fragment_msg_ ≠ [] := by
      rw [push_fragment_of_nonempty s m hm hne]
      simp [hne]
    simp only [push_fragments, payloads]
    rw [ih (s.push_fragment m).2 hne' hrest, push_fragment_of_nonempty s m hm hne]
    simp

/-- After a non-empty list of readable fragments the flag is that of the last
fragment. -/
theorem push_fragments_available (l : List InputMessage) (hl : l ≠ []) :
    ∀ s : ReliableInputStream InputMessage,
      (∀ m ∈ l, m.position + m.subheader_.submessage_length ≤ m.buf_.length) →
      (push_fragments s l).fragment_message_available_ =
        decide (0 ≠ (FLAG_LAST_FRAGMENT &&& (l.getLast hl).subheader_.flags)) := by
  induction l with
  | nil => exact absurd rfl hl
  | cons m rest ih =>
    intro s hread
    have hm := hread m (List.mem_cons_self _ _)
    cases rest with
    | nil =>
      simp only [push_fragments, List.getLast_singleton]
      rw [push_fragment_of_readable s m hm]
    | cons r rs =>
      have hrest : ∀ x ∈ r :: rs,
          x.position + x.subheader_.submessage_length ≤ x.buf_.length :=
        fun x hx => hread x (List.mem_cons_of_mem _ hx)
      rw [List.getLast_cons (List.cons_ne_nil r rs)]
      exact ih (List.cons_ne_nil r rs) (s.push_fragment m).2 hrest

end ReliableInputStream

end uxr

namespace uxr
namespace ReliableInputStream

/-- C12: a non-empty list of fragments is pushed into a stream whose fragment buffer
is empty; the first fragment holds its raw header, every payload can be read in full
and the last fragment carries `LAST_FRAGMENT`. Then `pop_fragment_message` returns
true with one message whose bytes are the first fragment's raw header (8 bytes when its
session id is below 128, else 4) followed by the payloads in push order; it holds the
header bytes plus the sum of the payload lengths, and its parsed header is that of the
first fragment. -/
theorem fragments_reassembled (s : ReliableInputStream InputMessage) (first : InputMessage)
    (rest : List InputMessage) (message : InputMessagePtr InputMessage)
    (hempty : s.fragment_msg_ = [])
    (hheader : first.get_raw_header.1 ≤ first.buf_.length)
    (hread : ∀ m ∈ first :: rest,
      m.position + m.subheader_.submessage_length ≤ m.buf_.length)
    (hlast : 0 ≠ FLAG_LAST_FRAGMENT &&&
      ((first :: rest).getLast (List.cons_ne_nil first rest)).subheader_.flags) :
    ((push_fragments s (first :: rest)).pop_fragment_message message).1 = true ∧
    ∃ out : InputMessage,
      ((push_fragments s (first :: rest)).pop_fragment_message message).2.1 = some out ∧
      out.buf_ = first.buf_.take first.get_raw_header.1 ++ payloads (first :: rest) ∧
      first.get_raw_header.1 = (if first.header_.session_id < 128 then 8 else 4) ∧
      out.buf_.length = first.get_raw_header.1 +
        ((first :: rest).map (fun m => m.subheader_.submessage_length)).sum ∧
      (first.header_ = (MessageHeader.deserialize first.buf_).1 →
        out.header_ = first.header_) := by
  have hfirst := hread first (List.mem_cons_self _ _)
  have hrest : ∀ x ∈ rest, x.position + x.subheader_.submessage_length ≤ x.buf_.length :=
    fun x hx => hread x (List.mem_cons_of_mem _ hx)
  have hsize : first.get_raw_header.1 = (if first.header_.session_id < 128 then 8 else 4) := by
    unfold InputMessage.get_raw_header
    split <;> rfl
  have hbytes : first.get_raw_header.2.take first.get_raw_header.1 =
      first.buf_.take first.get_raw_header.1 := by
    unfold InputMessage.get_raw_header
    split <;> simp
  have hpush : (s.push_fragment first).2.fragment_msg_ =
      first.buf_.take first.get_raw_header.1 ++ first.payload := by
    rw [push_fragment_of_readable s first hfirst]
    simp [hempty, hbytes]
  have hne : (s.push_fragment first).2.fragment_msg_ ≠ [] := by
    rw [hpush]
    intro h
    have hlen := congrArg List.length h
    simp only [List.length_append, List.length_take, List.length_nil] at hlen
    have h4 : 4 ≤ first.get_raw_header.1 := by
      rw [hsize]
      split <;> omega
    omega
  have hmsg : (push_fragments s (first :: rest)).fragment_msg_ =
      first.buf_.take first.get_raw_header.1 ++ payloads (first :: rest) := by
    simp only [push_fragments, payloads]
    rw [push_fragments_msg_of_nonempty rest _ hne hrest, hpush, List.append_assoc]
  have hflag : (push_fragments s (first :: rest)).fragment_message_available_ = true := by
    rw [push_fragments_available (first :: rest) (List.cons_ne_nil first rest) s hread]
    exact decide_eq_true hlast
  have hpop : (push_fragments s (first :: rest)).pop_fragment_message message =
      (true, some (InputMessage.create (push_fragments s (first :: rest)).fragment_msg_),
        { push_fragments s (first :: rest) with
          fragment_msg_ := [], fragment_message_available_ := false }) := by
    unfold pop_fragment_message
    rw [if_pos hflag]
  rw [hpop]
  refine ⟨rfl, _, rfl, ?_, hsize, ?_, ?_⟩
  · rw [hmsg]
    rfl
  · show (push_fragments s (first :: rest)).fragment_msg_.length = _
    rw [hmsg, List.length_append, length_payloads _ hread, List.length_take,
      Nat.min_eq_left hheader]
  · intro hparsed
    show (MessageHeader.deserialize (push_fragments s (first :: rest)).fragment_msg_).1 = _
    rw [hmsg, hparsed]
    have hsz : first.get_raw_header.1 =
        (if 128 > (MessageHeader.deserialize first.buf_).1.session_id then 8 else 4) := by
      rw [hsize, hparsed]
    rw [hsz] at hheader ⊢
    exact MessageHeader.deserialize_take_append first.buf_ _ hheader

end ReliableInputStream
end uxr

namespace uxr
namespace ReliableInputStream

/-- A message built by `fragment_message` has its whole payload behind the cursor. -/
theorem fragment_message_readable (header : List Nat) (flags : Nat) (payload : List Nat) :
    (fragment_message header flags payload).position +
        (fragment_message header flags payload).subheader_.submessage_length ≤
      (fragment_message header flags payload).buf_.length := by
  simp only [fragment_message, InputMessage.create, List.length_append, List.length_cons,
    List.length_nil]
  omega

theorem fragment_message_raw_header_size (a b c d flags : Nat) (payload : List Nat)
    (ha : 128 ≤ a) :
    (fragment_message [a, b, c, d] flags payload).get_raw_header.1 = 4 := by
  have : ¬ 128 > a := by omega
  simp [fragment_message, InputMessage.create, InputMessage.get_raw_header,
    MessageHeader.deserialize, MessageHeader.empty, this]

/-- Witness of C12, scenario S3: four fragments of 500 payload bytes each, with
session id 0x81 (a 4-byte header), the last one flagged; the reassembled message
holds the 4 header bytes and 2,000 payload bytes. -/
theorem fragments_reassembled_witness :
    ((push_fragments (fresh : ReliableInputStream InputMessage)
      [fragment_message [0x81, 0x80, 1, 0] 0 (List.replicate 500 1),
       fragment_message [0x81, 0x80, 2, 0] 0 (List.replicate 500 2),
       fragment_message [0x81, 0x80, 3, 0] 0 (List.replicate 500 3),
       fragment_message [0x81, 0x80, 4, 0] 0x80 (List.replicate 500 4)]).pop_fragment_message
        none).1 = true ∧
    ∃ out : InputMessage,
      ((push_fragments (fresh : ReliableInputStream InputMessage)
        [fragment_message [0x81, 0x80, 1, 0] 0 (List.replicate 500 1),
         fragment_message [0x81, 0x80, 2, 0] 0 (List.replicate 500 2),
         fragment_message [0x81, 0x80, 3, 0] 0 (List.replicate 500 3),
         fragment_message [0x81, 0x80, 4, 0] 0x80
           (List.replicate 500 4)]).pop_fragment_message none).2.1 = some out ∧
      out.buf_.length = 4 + 2000 ∧
      out.header_ = (fragment_message [0x81, 0x80, 1, 0] 0 (List.replicate 500 1)).header_ := by
  have hread : ∀ m ∈
      [fragment_message [0x81, 0x80, 1, 0] 0 (List.replicate 500 1),
       fragment_message [0x81, 0x80, 2, 0] 0 (List.replicate 500 2),
       fragment_message [0x81, 0x80, 3, 0] 0 (List.replicate 500 3),
       fragment_message [0x81, 0x80, 4, 0] 0x80 (List.replicate 500 4)],
      m.position + m.subheader_.submessage_length ≤ m.buf_.length := by
    intro m hm
    simp only [List.mem_cons, List.mem_singleton, List.not_mem_nil, or_false] at hm
    rcases hm with rfl | rfl | rfl | rfl <;> exact fragment_message_readable _ _ _
  have hsize := fragment_message_raw_header_size 0x81 0x80 1 0 0 (List.replicate 500 1)
    (by decide)
  obtain ⟨h1, out, h2, _, _, h5, h6⟩ := fragments_reassembled
    (fresh : ReliableInputStream InputMessage)
    (fragment_message [0x81, 0x80, 1, 0] 0 (List.replicate 500 1))
    [fragment_message [0x81, 0x80, 2, 0] 0 (List.replicate 500 2),
     fragment_message [0x81, 0x80, 3, 0] 0 (List.replicate 500 3),
     fragment_message [0x81, 0x80, 4, 0] 0x80 (List.replicate 500 4)]
    none rfl
    (by rw [hsize]
        simp only [fragment_message, InputMessage.create, List.length_append,
          List.length_cons, List.length_nil]
        omega)
    hread (by decide)
  refine ⟨h1, out, h2, ?_, h6 rfl⟩
  rw [h5, hsize]
  simp only [List.map, fragment_message, List.length_replicate, List.sum_cons, List.sum_nil]
  rfl

/-- C13: `pop_fragment_message` returns true exactly when `fragment_message_available`
is set. Then it yields the message constructed from the reassembled bytes, empties the
buffer and clears the flag, so that another `pop_fragment_message` right after returns
false; the sequence-number state is untouched. When it returns false the stream and
the caller's message are unchanged. -/
theorem pop_fragment_message_spec (s : ReliableInputStream InputMessage)
    (message : InputMessagePtr InputMessage) :
    ((s.pop_fragment_message message).1 = true ↔ s.fragment_message_available_ = true) ∧
    (s.fragment_message_available_ = true →
      (s.pop_fragment_message message).2.1 = some (InputMessage.create s.fragment_msg_) ∧
      (InputMessage.create s.fragment_msg_).buf_ = s.fragment_msg_ ∧
      (s.pop_fragment_message message).2.2.fragment_msg_ = [] ∧
      (s.pop_fragment_message message).2.2.fragment_message_available_ = false ∧
      (s.pop_fragment_message message).2.2.last_handled_ = s.last_handled_ ∧
      (s.pop_fragment_message message).2.2.last_announced_ = s.last_announced_ ∧
      (s.pop_fragment_message message).2.2.messages_ = s.messages_ ∧
      (∀ again : InputMessagePtr InputMessage,
        ((s.pop_fragment_message message).2.2.pop_fragment_message again).1 = false)) ∧
    (s.fragment_message_available_ = false →
      s.pop_fragment_message message = (false, message, s)) := by
  cases h : s.fragment_message_available_ with
  | false => simp [pop_fragment_message, h]
  | true => simp [pop_fragment_message, h, InputMessage.create]

/-- Witness of C13: a stream holding the completed bytes `[129, 128, 1, 0, 7, 8]`. -/
theorem pop_fragment_message_spec_witness :
    (({ (fresh : ReliableInputStream InputMessage) with
        fragment_msg_ := [129, 128, 1, 0, 7, 8]
        fragment_message_available_ := true }).pop_fragment_message none).2.1 =
      some (InputMessage.create [129, 128, 1, 0, 7, 8]) ∧
    (({ (fresh : ReliableInputStream InputMessage) with
        fragment_msg_ := [129, 128, 1, 0, 7, 8]
        fragment_message_available_ := true }).pop_fragment_message none).2.2.fragment_msg_ =
      [] ∧
    (fresh : ReliableInputStream InputMessage).pop_fragment_message none =
      (false, none, fresh) :=
  have h := (pop_fragment_message_spec ({ (fresh : ReliableInputStream InputMessage) with
        fragment_msg_ := [129, 128, 1, 0, 7, 8]
        fragment_message_available_ := true }) none).2.1 rfl
  ⟨h.1, h.2.2.1,
   (pop_fragment_message_spec (fresh : ReliableInputStream InputMessage) none).2.2 rfl⟩

/-- C14, as stated, fails: a stream holds the completed bytes `[129, 128, 1, 0, 7, 8]`
and a further fragment with payload `[9]` and without `LAST_FRAGMENT` is pushed; the
payload is appended and the flag is cleared. -/
theorem push_fragment_after_complete_counterexample :
    ({ (fresh : ReliableInputStream InputMessage) with
        fragment_msg_ := [129, 128, 1, 0, 7, 8]
        fragment_message_available_ := true }).fragment_message_available_ = true ∧
    ¬ ((({ (fresh : ReliableInputStream InputMessage) with
          fragment_msg_ := [129, 128, 1, 0, 7, 8]
          fragment_message_available_ := true }).push_fragment
            (fragment_message [129, 128, 2, 0] 0 [9])).2.fragment_msg_ =
          [129, 128, 1, 0, 7, 8] ∧
        (({ (fresh : ReliableInputStream InputMessage) with
          fragment_msg_ := [129, 128, 1, 0, 7, 8]
          fragment_message_available_ := true }).push_fragment
            (fragment_message [129, 128, 2, 0] 0 [9])).2.fragment_message_available_ =
          true) := by
  decide

/-- C14, amended: when the reassembly is already complete and has not been popped,
`push_fragment` of a further fragment whose payload can be read, and whose buffer
holds its raw header when the reassembly buffer is empty, does not discard it: the
reassembled bytes are kept and the fragment's payload is appended to them (behind the
fragment's raw header when the buffer was empty), and the completion flag becomes
whether the new fragment carries `LAST_FRAGMENT`. -/
theorem push_fragment_after_complete (s : ReliableInputStream InputMessage)
    (m : InputMessage) (_hcomplete : s.fragment_message_available_ = true)
    (hread : m.position + m.subheader_.submessage_length ≤ m.buf_.length)
    (hheader : s.fragment_msg_ = [] → m.get_raw_header.1 ≤ m.buf_.length) :
    (s.push_fragment m).2.fragment_msg_ =
      (if s.fragment_msg_ = [] then m.get_raw_header.2.take m.get_raw_header.1
        else s.fragment_msg_) ++ m.payload ∧
    (s.push_fragment m).2.fragment_msg_.length =
      (if s.fragment_msg_ = [] then m.get_raw_header.1 else s.fragment_msg_.length) +
        m.subheader_.submessage_length ∧
    ((s.push_fragment m).2.fragment_message_available_ = true ↔
      0 ≠ FLAG_LAST_FRAGMENT &&& m.subheader_.flags) := by
  have hbytes : (s.push_fragment m).2.fragment_msg_ =
      (if s.fragment_msg_ = [] then m.get_raw_header.2.take m.get_raw_header.1
        else s.fragment_msg_) ++ m.payload := by
    rw [push_fragment_of_readable s m hread]
    by_cases h : s.fragment_msg_ = []
    · simp [h]
    · have : s.fragment_msg_.isEmpty = false := by
        cases hs : s.fragment_msg_ with
        | nil => exact absurd hs h
        | cons a l => rfl
      simp [h, this]
  refine ⟨hbytes, ?_, ?_⟩
  · rw [hbytes, List.length_append, length_payload m hread]
    by_cases h : s.fragment_msg_ = []
    · have hh := hheader h
      rw [if_pos h, if_pos h]
      unfold InputMessage.get_raw_header at hh ⊢
      split
      · rename_i hs
        rw [if_pos hs] at hh
        simp only [List.length_take] at hh ⊢
        omega
      · rename_i hs
        rw [if_neg hs] at hh
        simp only [List.length_take] at hh ⊢
        omega
    · rw [if_neg h, if_neg h]
  · rw [push_fragment_of_readable s m hread]
    simp

/-- Witness of C14 (amended): the stream and the fragment of the counterexample. -/
theorem push_fragment_after_complete_witness :
    (({ (fresh : ReliableInputStream InputMessage) with
        fragment_msg_ := [129, 128, 1, 0, 7, 8]
        fragment_message_available_ := true }).push_fragment
          (fragment_message [129, 128, 2, 0] 0 [9])).2.fragment_msg_ =
      [129, 128, 1, 0, 7, 8, 9] ∧
    ¬ (({ (fresh : ReliableInputStream InputMessage) with
        fragment_msg_ := [129, 128, 1, 0, 7, 8]
        fragment_message_available_ := true }).push_fragment
          (fragment_message [129, 128, 2, 0] 0 [9])).2.fragment_message_available_ = true :=
  have h := push_fragment_after_complete ({ (fresh : ReliableInputStream InputMessage) with
        fragment_msg_ := [129, 128, 1, 0, 7, 8]
        fragment_message_available_ := true }) (fragment_message [129, 128, 2, 0] 0 [9])
      rfl (by decide) (by decide)
  ⟨h.1, fun hflag => absurd (h.2.2.mp hflag) (by decide)⟩

end ReliableInputStream
end uxr

namespace uxr

/-! ## Lookup in the object registry -/

/-- The low nibble of the byte that `create_object` computes is the kind. -/
theorem low_nibble_or (p d : Nat) (hd : d < 16) : ((p &&& 0xF0) ||| d) % 256 &&& 0x0F = d := by
  apply Nat.eq_of_testBit_eq
  intro i
  have h15 : (0x0F : Nat) = 2 ^ 4 - 1 := rfl
  have h256 : (256 : Nat) = 2 ^ 8 := rfl
  have hF0 : (0xF0 : Nat) = (2 ^ 4 - 1) <<< 4 := rfl
  rw [h15, h256, hF0]
  simp only [Nat.testBit_and, Nat.testBit_mod_two_pow, Nat.testBit_or, Nat.testBit_shiftLeft,
    Nat.testBit_two_pow_sub_one]
  by_cases hi : i < 4
  · have h1 : ¬ i ≥ 4 := by omega
    have h2 : i < 8 := by omega
    simp [hi, h1, h2]
  · have hpow : d < 2 ^ i :=
      Nat.lt_of_lt_of_le hd (by
        have : (2 : Nat) ^ 4 ≤ 2 ^ i := Nat.pow_le_pow_right (by decide) (by omega)
        simpa using this)
    simp [hi, Nat.testBit_lt_two_pow hpow]

namespace ObjectContainer

variable {Obj : Type}

theorem find_nil_obj (id : ObjectId) : find ([] : ObjectContainer Obj) id = none := rfl

theorem find_cons_obj (e : ObjectId × Obj) (m : ObjectContainer Obj) (id : ObjectId) :
    find (e :: m) id = if e.1 = id then some e.2 else find m id := by
  by_cases h : e.1 = id <;> simp [find, List.find?, h]

theorem find_append_single_obj (m : ObjectContainer Obj) (id k : ObjectId) (object : Obj) :
    find (m ++ [(id, object)]) k =
      match find m k with
      | some w => some w
      | none => if id = k then some object else none := by
  induction m with
  | nil => simp [find_cons_obj, find_nil_obj]
  | cons e m ih =>
    rw [List.cons_append, find_cons_obj, find_cons_obj]
    by_cases h : e.1 = k
    · simp [h]
    · simp [h, ih]

theorem emplace_of_find_none (m : ObjectContainer Obj) (id : ObjectId) (object : Obj)
    (h : find m id = none) : emplace m id object = (m ++ [(id, object)], true) := by
  simp [emplace, h]

theorem emplace_of_find_some (m : ObjectContainer Obj) (id : ObjectId) (object old : Obj)
    (h : find m id = some old) : emplace m id object = (m, false) := by
  simp [emplace, h]

theorem find_append_self (m : ObjectContainer Obj) (id : ObjectId) (object : Obj)
    (h : find m id = none) : find (m ++ [(id, object)]) id = some object := by
  rw [find_append_single_obj, h]
  simp

theorem find_append_of_ne (m : ObjectContainer Obj) (id k : ObjectId) (object : Obj)
    (h : k ≠ id) : find (m ++ [(id, object)]) k = find m k := by
  rw [find_append_single_obj]
  cases find m k with
  | some w => rfl
  | none => simp [Ne.symm h]

theorem find_eq_none_iff_obj (m : ObjectContainer Obj) (id : ObjectId) :
    find m id = none ↔ ∀ e ∈ m, e.1 ≠ id := by
  induction m with
  | nil => simp [find_nil_obj]
  | cons e m ih =>
    rw [find_cons_obj]
    by_cases h : e.1 = id
    · simp [h]
    · simp [h, ih]

theorem find_erase_self_obj (m : ObjectContainer Obj) (id : ObjectId) :
    find (erase m id) id = none := by
  rw [find_eq_none_iff_obj]
  intro e he
  simpa [erase] using (List.mem_filter.mp he).2

theorem find_erase_of_ne_obj (m : ObjectContainer Obj) (id k : ObjectId) (h : k ≠ id) :
    find (erase m id) k = find m k := by
  induction m with
  | nil => rfl
  | cons e m ih =>
    by_cases hk : e.1 = id
    · have hk' : e.1 ≠ k := fun h' => h (h'.symm.trans hk)
      have : erase (e :: m) id = erase m id := by simp [erase, hk]
      rw [this, ih, find_cons_obj, if_neg hk']
    · have : erase (e :: m) id = e :: erase m id := by simp [erase, hk]
      rw [this, find_cons_obj, find_cons_obj, ih]

end ObjectContainer

namespace ProxyClient

variable {Obj Rep : Type}

/-! ## Creation case by case -/

/-- The id that `create_object` computes carries the kind of the representation in
its low nibble. -/
theorem compute_object_id_nibble (E : Entities Obj Rep) (objectid_prefix_ : ObjectPrefix)
    (rep : ObjectVariant Rep) :
    (compute_object_id E objectid_prefix_ rep).2 &&& 0x0F = E.code rep.kind :=
  low_nibble_or _ _ (E.code_lt _)

theorem emplace_object_of_find_none (c : ProxyClient Obj) (object_id : ObjectId) (object : Obj)
    (h : c.objects_.find object_id = none) :
    c.emplace_object object_id object =
      (true, { objects_ := c.objects_ ++ [(object_id, object)] }) := by
  simp [emplace_object, ObjectContainer.emplace_of_find_none _ _ _ h]

/-- For an id that carries the kind of the representation and is not registered, the
private `create_object` registers the requested entity when there is one and fails
without a change otherwise. -/
theorem create_object_by_id_of_unregistered (E : Entities Obj Rep) (c : ProxyClient Obj)
    (object_id : ObjectId) (rep : ObjectVariant Rep)
    (hkind : object_id.2 &&& 0x0F = E.code rep.kind)
    (hnew : c.objects_.find object_id = none) :
    create_object_by_id E c object_id rep =
      match requested_entity E c.objects_ object_id rep with
      | some object => (true, { objects_ := c.objects_ ++ [(object_id, object)] })
      | none => (false, c) := by
  cases rep with
  | participant r =>
    simp only [create_object_by_id, create_participant, requested_entity,
      ObjectVariant.kind] at hkind ⊢
    rw [if_pos hkind.symm]
    cases E.participant_create object_id r with
    | none => rfl
    | some p => exact emplace_object_of_find_none c object_id p hnew
  | topic r =>
    simp only [create_object_by_id, create_topic, requested_entity,
      ObjectVariant.kind] at hkind ⊢
    by_cases hp : E.code ObjectKind.participant = r.participant_id.2 &&& 0x0F
    · rw [if_pos ⟨hp, hkind.symm⟩, if_pos hp]
      cases c.objects_.find r.participant_id with
      | none => rfl
      | some parent =>
        simp only [Option.bind]
        cases E.topic_create object_id parent r with
        | none => rfl
        | some p => exact emplace_object_of_find_none c object_id p hnew
    · rw [if_neg (fun h => hp h.1), if_neg hp]
  | publisher r =>
    simp only [create_object_by_id, create_publisher, requested_entity,
      ObjectVariant.kind] at hkind ⊢
    by_cases hp : E.code ObjectKind.participant = r.participant_id.2 &&& 0x0F
    · rw [if_pos ⟨hp, hkind.symm⟩, if_pos hp]
      cases c.objects_.find r.participant_id with
      | none => rfl
      | some parent =>
        simp only [Option.bind]
        cases E.publisher_create object_id parent r with
        | none => rfl
        | some p => exact emplace_object_of_find_none c object_id p hnew
    · rw [if_neg (fun h => hp h.1), if_neg hp]
  | subscriber r =>
    simp only [create_object_by_id, create_subscriber, requested_entity,
      ObjectVariant.kind] at hkind ⊢
    by_cases hp : E.code ObjectKind.participant = r.participant_id.2 &&& 0x0F
    · rw [if_pos ⟨hp, hkind.symm⟩, if_pos hp]
      cases c.objects_.find r.participant_id with
      | none => rfl
      | some parent =>
        simp only [Option.bind]
        cases E.subscriber_create object_id parent r with
        | none => rfl
        | some p => exact emplace_object_of_find_none c object_id p hnew
    · rw [if_neg (fun h => hp h.1), if_neg hp]
  | data_writer r =>
    simp only [create_object_by_id, create_datawriter, requested_entity,
      ObjectVariant.kind] at hkind ⊢
    by_cases hp : E.code ObjectKind.publisher = r.publisher_id.2 &&& 0x0F
    · rw [if_pos ⟨hp, hkind.symm⟩, if_pos hp]
      cases c.objects_.find r.publisher_id with
      | none => rfl
      | some parent =>
        simp only [Option.bind]
        cases E.datawriter_create object_id parent r c.objects_ with
        | none => rfl
        | some p => exact emplace_object_of_find_none c object_id p hnew
    · rw [if_neg (fun h => hp h.1), if_neg hp]
  | data_reader r =>
    simp only [create_object_by_id, create_datareader, requested_entity,
      ObjectVariant.kind] at hkind ⊢
    by_cases hp : E.code ObjectKind.subscriber = r.subscriber_id.2 &&& 0x0F
    · rw [if_pos ⟨hp, hkind.symm⟩, if_pos hp]
      cases c.objects_.find r.subscriber_id with
      | none => rfl
      | some parent =>
        simp only [Option.bind]
        cases E.datareader_create object_id parent r c.objects_ with
        | none => rfl
        | some p => exact emplace_object_of_find_none c object_id p hnew
    · rw [if_neg (fun h => hp h.1), if_neg hp]
  | requester r => rfl
  | replier r => rfl
  | application r => rfl
  | qosprofile r => rfl
  | type r => rfl

/-- The step "erase, then create" on a registered id: the old entry goes, and the
requested entity is registered when there is one. -/
theorem replace_object_eq (E : Entities Obj Rep) (c : ProxyClient Obj)
    (object_id : ObjectId) (rep : ObjectVariant Rep)
    (hkind : object_id.2 &&& 0x0F = E.code rep.kind) :
    replace_object E c object_id rep =
      match requested_entity E (c.objects_.erase object_id) object_id rep with
      | some object =>
        (result_of StatusValue.STATUS_OK,
          { objects_ := c.objects_.erase object_id ++ [(object_id, object)] })
      | none =>
        (result_of StatusValue.STATUS_ERR_UNKNOWN_REFERENCE,
          { objects_ := c.objects_.erase object_id }) := by
  unfold replace_object
  rw [create_object_by_id_of_unregistered E { objects_ := c.objects_.erase object_id }
    object_id rep hkind (ObjectContainer.find_erase_self_obj _ _)]
  cases requested_entity E (c.objects_.erase object_id) object_id rep <;> rfl

end ProxyClient
end uxr

namespace uxr
namespace ProxyClient

variable {Obj Rep : Type}

/-! ## The creation-mode matrix -/

theorem create_object_of_unregistered (E : Entities Obj Rep) (c : ProxyClient Obj)
    (creation_mode : CreationMode) (objectid_prefix_ : ObjectPrefix) (rep : ObjectVariant Rep)
    (hnew : c.objects_.find (compute_object_id E objectid_prefix_ rep) = none) :
    c.create_object E creation_mode objectid_prefix_ rep =
      match requested_entity E c.objects_ (compute_object_id E objectid_prefix_ rep) rep with
      | some object =>
        (result_of StatusValue.STATUS_OK,
          { objects_ := c.objects_ ++ [(compute_object_id E objectid_prefix_ rep, object)] })
      | none => (result_of StatusValue.STATUS_ERR_UNKNOWN_REFERENCE, c) := by
  unfold create_object
  rw [hnew]
  simp only
  rw [create_object_by_id_of_unregistered E c _ rep
    (compute_object_id_nibble E objectid_prefix_ rep) hnew]
  cases requested_entity E c.objects_ (compute_object_id E objectid_prefix_ rep) rep <;> rfl

theorem create_object_of_registered (E : Entities Obj Rep) (c : ProxyClient Obj)
    (creation_mode : CreationMode) (objectid_prefix_ : ObjectPrefix) (rep : ObjectVariant Rep)
    (existing : Obj)
    (hexists : c.objects_.find (compute_object_id E objectid_prefix_ rep) = some existing) :
    c.create_object E creation_mode objectid_prefix_ rep =
      if !creation_mode.reuse then
        if !creation_mode.replace then
          (result_of StatusValue.STATUS_ERR_ALREADY_EXISTS, c)
        else replace_object E c (compute_object_id E objectid_prefix_ rep) rep
      else
        if !creation_mode.replace then
          if E.matched existing rep then (result_of StatusValue.STATUS_OK_MATCHED, c)
          else (result_of StatusValue.STATUS_ERR_MISMATCH, c)
        else
          if E.matched existing rep then (result_of StatusValue.STATUS_OK_MATCHED, c)
          else replace_object E c (compute_object_id E objectid_prefix_ rep) rep := by
  unfold create_object
  rw [hexists]

/-- What "erase, then create" leaves in the registry when the entity can be created:
the id holds the new object and every other id holds what it held. -/
theorem replace_object_of_created (E : Entities Obj Rep) (c : ProxyClient Obj)
    (object_id : ObjectId) (rep : ObjectVariant Rep) (object : Obj)
    (hkind : object_id.2 &&& 0x0F = E.code rep.kind)
    (hcreate : requested_entity E (c.objects_.erase object_id) object_id rep = some object) :
    (replace_object E c object_id rep).1 = result_of StatusValue.STATUS_OK ∧
    (replace_object E c object_id rep).2.objects_ =
      c.objects_.erase object_id ++ [(object_id, object)] ∧
    (replace_object E c object_id rep).2.get_object object_id = some object ∧
    (∀ k, k ≠ object_id →
      (replace_object E c object_id rep).2.get_object k = c.get_object k) := by
  rw [replace_object_eq E c object_id rep hkind, hcreate]
  refine ⟨rfl, rfl, ?_, ?_⟩
  · exact ObjectContainer.find_append_self _ _ _ (ObjectContainer.find_erase_self_obj _ _)
  · intro k hk
    show ObjectContainer.find _ k = ObjectContainer.find _ k
    rw [ObjectContainer.find_append_of_ne _ _ _ _ hk,
      ObjectContainer.find_erase_of_ne_obj _ _ _ hk]

/-- C15: when the object id is not registered, `create_object` returns OK and
registers the object under that id (every other id keeps its object) if the entity
can be created from the representation, and returns UNKNOWN_REFERENCE with the
registry unchanged if it cannot, whatever the reuse and replace flags are. -/
theorem create_object_unregistered (E : Entities Obj Rep) (c : ProxyClient Obj)
    (creation_mode : CreationMode) (objectid_prefix_ : ObjectPrefix) (rep : ObjectVariant Rep)
    (hnew : c.get_object (compute_object_id E objectid_prefix_ rep) = none) :
    (∀ object,
      requested_entity E c.objects_ (compute_object_id E objectid_prefix_ rep) rep =
        some object →
      (c.create_object E creation_mode objectid_prefix_ rep).1 =
        result_of StatusValue.STATUS_OK ∧
      (c.create_object E creation_mode objectid_prefix_ rep).2.get_object
        (compute_object_id E objectid_prefix_ rep) = some object ∧
      (∀ k, k ≠ compute_object_id E objectid_prefix_ rep →
        (c.create_object E creation_mode objectid_prefix_ rep).2.get_object k =
          c.get_object k)) ∧
    (requested_entity E c.objects_ (compute_object_id E objectid_prefix_ rep) rep = none →
      c.create_object E creation_mode objectid_prefix_ rep =
        (result_of StatusValue.STATUS_ERR_UNKNOWN_REFERENCE, c)) := by
  have h := create_object_of_unregistered E c creation_mode objectid_prefix_ rep hnew
  constructor
  · intro object hobj
    rw [h, hobj]
    refine ⟨rfl, ObjectContainer.find_append_self _ _ _ hnew, ?_⟩
    intro k hk
    exact ObjectContainer.find_append_of_ne _ _ _ _ hk
  · intro hnone
    rw [h, hnone]

/-- Witness of C15: an empty registry; the participant representation 5 can be
created and is registered under id `(0, 0x11)`, the representation 0 cannot. -/
theorem create_object_unregistered_witness :
    ((⟨[]⟩ : ProxyClient Nat).create_object example_entities ⟨false, false⟩ (0, 0x10)
      (ObjectVariant.participant ⟨5⟩)).1 = result_of StatusValue.STATUS_OK ∧
    ((⟨[]⟩ : ProxyClient Nat).create_object example_entities ⟨false, false⟩ (0, 0x10)
      (ObjectVariant.participant ⟨5⟩)).2.get_object (0, 0x11) = some 5 ∧
    ((⟨[]⟩ : ProxyClient Nat).create_object example_entities ⟨true, true⟩ (0, 0x10)
      (ObjectVariant.participant ⟨0⟩)).1 =
        result_of StatusValue.STATUS_ERR_UNKNOWN_REFERENCE :=
  have h := (create_object_unregistered example_entities (⟨[]⟩ : ProxyClient Nat)
    ⟨false, false⟩ (0, 0x10) (ObjectVariant.participant ⟨5⟩) rfl).1 5 rfl
  ⟨h.1, h.2.1,
   by rw [(create_object_unregistered example_entities (⟨[]⟩ : ProxyClient Nat)
    ⟨true, true⟩ (0, 0x10) (ObjectVariant.participant ⟨0⟩) rfl).2 rfl]⟩

/-- C16: when the object id is already registered and neither reuse nor replace is
set, `create_object` returns ALREADY_EXISTS and the registry is unchanged, whether or
not the representation matches the existing object. -/
theorem create_object_already_exists (E : Entities Obj Rep) (c : ProxyClient Obj)
    (creation_mode : CreationMode) (objectid_prefix_ : ObjectPrefix) (rep : ObjectVariant Rep)
    (existing : Obj)
    (hexists : c.get_object (compute_object_id E objectid_prefix_ rep) = some existing)
    (hreuse : creation_mode.reuse = false) (hreplace : creation_mode.replace = false) :
    c.create_object E creation_mode objectid_prefix_ rep =
      (result_of StatusValue.STATUS_ERR_ALREADY_EXISTS, c) := by
  rw [create_object_of_registered E c creation_mode objectid_prefix_ rep existing hexists,
    hreuse, hreplace]
  rfl

/-- Witness of C16: participant 5 is registered under `(0, 0x11)`; creating 5 again or
6 without flags is answered ALREADY_EXISTS. -/
theorem create_object_already_exists_witness :
    (⟨[((0, 0x11), 5)]⟩ : ProxyClient Nat).create_object example_entities ⟨false, false⟩
      (0, 0x10) (ObjectVariant.participant ⟨5⟩) =
        (result_of StatusValue.STATUS_ERR_ALREADY_EXISTS, ⟨[((0, 0x11), 5)]⟩) ∧
    (⟨[((0, 0x11), 5)]⟩ : ProxyClient Nat).create_object example_entities ⟨false, false⟩
      (0, 0x10) (ObjectVariant.participant ⟨6⟩) =
        (result_of StatusValue.STATUS_ERR_ALREADY_EXISTS, ⟨[((0, 0x11), 5)]⟩) :=
  ⟨create_object_already_exists example_entities ⟨[((0, 0x11), 5)]⟩ ⟨false, false⟩
      (0, 0x10) (ObjectVariant.participant ⟨5⟩) 5 rfl rfl rfl,
   create_object_already_exists example_entities ⟨[((0, 0x11), 5)]⟩ ⟨false, false⟩
      (0, 0x10) (ObjectVariant.participant ⟨6⟩) 5 rfl rfl rfl⟩

/-- C17: when the object id is already registered, reuse is set and replace is not,
`create_object` returns OK_MATCHED if the representation matches the existing object
and MISMATCH otherwise; in both cases the registry is unchanged. -/
theorem create_object_reuse_only (E : Entities Obj Rep) (c : ProxyClient Obj)
    (creation_mode : CreationMode) (objectid_prefix_ : ObjectPrefix) (rep : ObjectVariant Rep)
    (existing : Obj)
    (hexists : c.get_object (compute_object_id E objectid_prefix_ rep) = some existing)
    (hreuse : creation_mode.reuse = true) (hreplace : creation_mode.replace = false) :
    (E.matched existing rep = true →
      c.create_object E creation_mode objectid_prefix_ rep =
        (result_of StatusValue.STATUS_OK_MATCHED, c)) ∧
    (E.matched existing rep = false →
      c.create_object E creation_mode objectid_prefix_ rep =
        (result_of StatusValue.STATUS_ERR_MISMATCH, c)) := by
  rw [create_object_of_registered E c creation_mode objectid_prefix_ rep existing hexists,
    hreuse, hreplace]
  constructor
  · intro hm
    simp [hm]
  · intro hm
    simp [hm]

/-- Witness of C17: participant 5 is registered; with reuse, creating 5 is answered
OK_MATCHED and creating 6 MISMATCH. -/
theorem create_object_reuse_only_witness :
    (⟨[((0, 0x11), 5)]⟩ : ProxyClient Nat).create_object example_entities ⟨true, false⟩
      (0, 0x10) (ObjectVariant.participant ⟨5⟩) =
        (result_of StatusValue.STATUS_OK_MATCHED, ⟨[((0, 0x11), 5)]⟩) ∧
    (⟨[((0, 0x11), 5)]⟩ : ProxyClient Nat).create_object example_entities ⟨true, false⟩
      (0, 0x10) (ObjectVariant.participant ⟨6⟩) =
        (result_of StatusValue.STATUS_ERR_MISMATCH, ⟨[((0, 0x11), 5)]⟩) :=
  ⟨(create_object_reuse_only example_entities ⟨[((0, 0x11), 5)]⟩ ⟨true, false⟩
      (0, 0x10) (ObjectVariant.participant ⟨5⟩) 5 rfl rfl rfl).1 (by decide),
   (create_object_reuse_only example_entities ⟨[((0, 0x11), 5)]⟩ ⟨true, false⟩
      (0, 0x10) (ObjectVariant.participant ⟨6⟩) 5 rfl rfl rfl).2 (by decide)⟩

/-- C18: when the object id is already registered, replace is set and reuse is not,
and the entity can be created from the representation (the same as the existing one
or another one), `create_object` erases the existing object, creates the new one and
returns OK; afterwards the id holds the newly created object and every other id holds
what it held. -/
theorem create_object_replace (E : Entities Obj Rep) (c : ProxyClient Obj)
    (creation_mode : CreationMode) (objectid_prefix_ : ObjectPrefix) (rep : ObjectVariant Rep)
    (existing object : Obj)
    (hexists : c.get_object (compute_object_id E objectid_prefix_ rep) = some existing)
    (hreuse : creation_mode.reuse = false) (hreplace : creation_mode.replace = true)
    (hcreate : requested_entity E
      (c.objects_.erase (compute_object_id E objectid_prefix_ rep))
      (compute_object_id E objectid_prefix_ rep) rep = some object) :
    (c.create_object E creation_mode objectid_prefix_ rep).1 =
      result_of StatusValue.STATUS_OK ∧
    (c.create_object E creation_mode objectid_prefix_ rep).2.objects_ =
      c.objects_.erase (compute_object_id E objectid_prefix_ rep) ++
        [(compute_object_id E objectid_prefix_ rep, object)] ∧
    (c.create_object E creation_mode objectid_prefix_ rep).2.get_object
      (compute_object_id E objectid_prefix_ rep) = some object ∧
    (∀ k, k ≠ compute_object_id E objectid_prefix_ rep →
      (c.create_object E creation_mode objectid_prefix_ rep).2.get_object k =
        c.get_object k) := by
  rw [create_object_of_registered E c creation_mode objectid_prefix_ rep existing hexists,
    hreuse, hreplace]
  exact replace_object_of_created E c _ rep object
    (compute_object_id_nibble E objectid_prefix_ rep) hcreate

/-- Witness of C18: participant 5 is registered; with replace, creating 6 is answered
OK and the id holds 6. -/
theorem create_object_replace_witness :
    ((⟨[((0, 0x11), 5)]⟩ : ProxyClient Nat).create_object example_entities ⟨false, true⟩
      (0, 0x10) (ObjectVariant.participant ⟨6⟩)).1 = result_of StatusValue.STATUS_OK ∧
    ((⟨[((0, 0x11), 5)]⟩ : ProxyClient Nat).create_object example_entities ⟨false, true⟩
      (0, 0x10) (ObjectVariant.participant ⟨6⟩)).2.get_object (0, 0x11) = some 6 :=
  have h := create_object_replace example_entities ⟨[((0, 0x11), 5)]⟩ ⟨false, true⟩
      (0, 0x10) (ObjectVariant.participant ⟨6⟩) 5 6 rfl rfl rfl rfl
  ⟨h.1, h.2.2.1⟩

/-- C19: when the object id is already registered and both reuse and replace are set,
`create_object` returns OK_MATCHED and leaves the registry unchanged if the
representation matches the existing object; otherwise, when the entity can be created
from the representation, it erases the existing object, creates the new one and
returns OK, and the id holds the newly created object. -/
theorem create_object_reuse_replace (E : Entities Obj Rep) (c : ProxyClient Obj)
    (creation_mode : CreationMode) (objectid_prefix_ : ObjectPrefix) (rep : ObjectVariant Rep)
    (existing : Obj)
    (hexists : c.get_object (compute_object_id E objectid_prefix_ rep) = some existing)
    (hreuse : creation_mode.reuse = true) (hreplace : creation_mode.replace = true) :
    (E.matched existing rep = true →
      c.create_object E creation_mode objectid_prefix_ rep =
        (result_of StatusValue.STATUS_OK_MATCHED, c)) ∧
    (E.matched existing rep = false →
      ∀ object,
        requested_entity E (c.objects_.erase (compute_object_id E objectid_prefix_ rep))
          (compute_object_id E objectid_prefix_ rep) rep = some object →
        (c.create_object E creation_mode objectid_prefix_ rep).1 =
          result_of StatusValue.STATUS_OK ∧
        (c.create_object E creation_mode objectid_prefix_ rep).2.objects_ =
          c.objects_.erase (compute_object_id E objectid_prefix_ rep) ++
            [(compute_object_id E objectid_prefix_ rep, object)] ∧
        (c.create_object E creation_mode objectid_prefix_ rep).2.get_object
          (compute_object_id E objectid_prefix_ rep) = some object ∧
        (∀ k, k ≠ compute_object_id E objectid_prefix_ rep →
          (c.create_object E creation_mode objectid_prefix_ rep).2.get_object k =
            c.get_object k)) := by
  rw [create_object_of_registered E c creation_mode objectid_prefix_ rep existing hexists,
    hreuse, hreplace]
  constructor
  · intro hm
    simp [hm]
  · intro hm object hcreate
    simp only [hm, Bool.not_true, Bool.false_eq_true, if_false]
    exact replace_object_of_created E c _ rep object
      (compute_object_id_nibble E objectid_prefix_ rep) hcreate

/-- Witness of C19: participant 5 is registered; with reuse and replace, creating 5 is
answered OK_MATCHED, creating 6 is answered OK and the id holds 6. -/
theorem create_object_reuse_replace_witness :
    (⟨[((0, 0x11), 5)]⟩ : ProxyClient Nat).create_object example_entities ⟨true, true⟩
      (0, 0x10) (ObjectVariant.participant ⟨5⟩) =
        (result_of StatusValue.STATUS_OK_MATCHED, ⟨[((0, 0x11), 5)]⟩) ∧
    ((⟨[((0, 0x11), 5)]⟩ : ProxyClient Nat).create_object example_entities ⟨true, true⟩
      (0, 0x10) (ObjectVariant.participant ⟨6⟩)).1 = result_of StatusValue.STATUS_OK ∧
    ((⟨[((0, 0x11), 5)]⟩ : ProxyClient Nat).create_object example_entities ⟨true, true⟩
      (0, 0x10) (ObjectVariant.participant ⟨6⟩)).2.get_object (0, 0x11) = some 6 :=
  have h := (create_object_reuse_replace example_entities ⟨[((0, 0x11), 5)]⟩ ⟨true, true⟩
      (0, 0x10) (ObjectVariant.participant ⟨6⟩) 5 rfl rfl rfl).2 (by decide) 6 rfl
  ⟨(create_object_reuse_replace example_entities ⟨[((0, 0x11), 5)]⟩ ⟨true, true⟩
      (0, 0x10) (ObjectVariant.participant ⟨5⟩) 5 rfl rfl rfl).1 (by decide),
   h.1, h.2.2.1⟩

end ProxyClient
end uxr

namespace uxr

/-- A byte is its high nibble together with its low nibble. -/
theorem high_nibble_or_low (p : Nat) (hp : p < 256) :
    ((p &&& 0xF0) ||| (p &&& 0x0F)) % 256 = p := by
  apply Nat.eq_of_testBit_eq
  intro i
  have h15 : (0x0F : Nat) = 2 ^ 4 - 1 := rfl
  have h256 : (256 : Nat) = 2 ^ 8 := rfl
  have hF0 : (0xF0 : Nat) = (2 ^ 4 - 1) <<< 4 := rfl
  rw [h15, h256, hF0]
  simp only [Nat.testBit_and, Nat.testBit_mod_two_pow, Nat.testBit_or, Nat.testBit_shiftLeft,
    Nat.testBit_two_pow_sub_one]
  by_cases hi : i < 8
  · by_cases h4 : i < 4
    · have h1 : ¬ i ≥ 4 := by omega
      simp [hi, h4, h1]
    · have h1 : i ≥ 4 := by omega
      have h2 : i - 4 < 4 := by omega
      simp [hi, h4, h1, h2]
  · have hpow : p < 2 ^ i :=
      Nat.lt_of_lt_of_le hp (by
        have : (2 : Nat) ^ 8 ≤ 2 ^ i := Nat.pow_le_pow_right (by decide) (by omega)
        simpa using this)
    simp [hi, Nat.testBit_lt_two_pow hpow]

namespace ProxyClient

variable {Obj Rep : Type}

/-- When the low nibble of a full object id is the kind of the representation,
`create_object` works on that very id. -/
theorem compute_object_id_of_kind (E : Entities Obj Rep) (object_id : ObjectId)
    (rep : ObjectVariant Rep) (hbyte : object_id.2 < 256)
    (hkind : object_id.2 &&& 0x0F = E.code rep.kind) :
    compute_object_id E object_id rep = object_id := by
  unfold compute_object_id
  rw [← hkind, high_nibble_or_low _ hbyte]

/-- The public `create_object` has no path that answers INVALID_DATA. -/
theorem create_object_status_ne_invalid_data (E : Entities Obj Rep) (c : ProxyClient Obj)
    (creation_mode : CreationMode) (objectid_prefix_ : ObjectPrefix)
    (rep : ObjectVariant Rep) :
    (c.create_object E creation_mode objectid_prefix_ rep).1.status ≠
      StatusValue.STATUS_ERR_INVALID_DATA := by
  unfold create_object replace_object
  split
  · split <;> simp [result_of]
  · split
    · split
      · simp [result_of]
      · split <;> simp [result_of]
    · split
      · split <;> simp [result_of]
      · split
        · simp [result_of]
        · split <;> simp [result_of]

end ProxyClient

namespace Agent

variable {Obj Rep : Type}

/-- C20: a create request whose object id has a low nibble different from the kind
discriminator of the representation is rejected with INVALID_DATA, and the registry
is as before: no object is registered or replaced. -/
theorem create_object_invalid_data (E : Entities Obj Rep) (c : ProxyClient Obj)
    (creation_mode : CreationMode) (object_id : ObjectId) (rep : ObjectVariant Rep)
    (hkind : object_id.2 &&& 0x0F ≠ E.code rep.kind) :
    Agent.create_object E c creation_mode object_id rep =
      (ProxyClient.result_of StatusValue.STATUS_ERR_INVALID_DATA, c) := by
  unfold Agent.create_object
  rw [if_neg hkind]

/-- Witness of C20: a participant representation with the topic-kind id `(0, 0x02)`,
on a registry that holds participant 5. -/
theorem create_object_invalid_data_witness :
    Agent.create_object example_entities (⟨[((0, 0x01), 5)]⟩ : ProxyClient Nat) ⟨false, true⟩
      (0, 0x02) (ObjectVariant.participant ⟨6⟩) =
        (ProxyClient.result_of StatusValue.STATUS_ERR_INVALID_DATA, ⟨[((0, 0x01), 5)]⟩) :=
  create_object_invalid_data example_entities ⟨[((0, 0x01), 5)]⟩ ⟨false, true⟩
    (0, 0x02) (ObjectVariant.participant ⟨6⟩) (by decide)

end Agent
end uxr

namespace uxr

/-! ## The referential rule, deletion and failed replacement -/

namespace ProxyClient

variable {Obj Rep : Type}

theorem requested_entity_of_invalid_parent (E : Entities Obj Rep)
    (objects : ObjectContainer Obj) (object_id : ObjectId) (rep : ObjectVariant Rep)
    (parent_kind : ObjectKind) (parent_id : ObjectId)
    (hparent : rep.parent_reference = some (parent_kind, parent_id))
    (hinvalid : ¬ (parent_id.2 &&& 0x0F = E.code parent_kind ∧
      (objects.find parent_id).isSome = true)) :
    requested_entity E objects object_id rep = none := by
  cases rep <;> simp only [ObjectVariant.parent_reference, Option.some.injEq, Prod.mk.injEq,
    reduceCtorEq] at hparent
  all_goals
    obtain ⟨hk, hid⟩ := hparent
    subst hk hid
    simp only [requested_entity]
    split
    · rename_i hcode
      cases hfind : objects.find _ with
      | none => rfl
      | some p => exact absurd ⟨hcode.symm, by rw [hfind]; rfl⟩ hinvalid
    · rfl

theorem delete_object_of_registered
    (release : Obj → ObjectContainer Obj → ObjectContainer Obj)
    (c : ProxyClient Obj) (object_id : ObjectId) (object : Obj)
    (h : c.objects_.find object_id = some object) :
    c.delete_object release object_id =
      (result_of StatusValue.STATUS_OK,
       { objects_ := (release object c.objects_).erase object_id }) := by
  unfold delete_object
  rw [h]

theorem delete_object_of_unregistered
    (release : Obj → ObjectContainer Obj → ObjectContainer Obj)
    (c : ProxyClient Obj) (object_id : ObjectId)
    (h : c.objects_.find object_id = none) :
    c.delete_object release object_id =
      (result_of StatusValue.STATUS_ERR_UNKNOWN_REFERENCE, c) := by
  unfold delete_object
  rw [h]

theorem delete_object_unregisters
    (release : Obj → ObjectContainer Obj → ObjectContainer Obj)
    (c : ProxyClient Obj) (object_id : ObjectId) :
    (c.delete_object release object_id).2.objects_.find object_id = none := by
  cases h : c.objects_.find object_id with
  | none => rw [delete_object_of_unregistered release c object_id h]; exact h
  | some object =>
    rw [delete_object_of_registered release c object_id object h]
    exact ObjectContainer.find_erase_self_obj _ _

/-- C21: for a create request whose id is not registered and whose representation
refers to a parent (a topic, publisher or subscriber to its participant, a data writer
to its publisher, a data reader to its subscriber): when the parent id is not the id
of a registered object of the parent's kind, `create_object` returns
UNKNOWN_REFERENCE and leaves the registry as it was. -/
theorem create_object_invalid_parent (E : Entities Obj Rep) (c : ProxyClient Obj)
    (creation_mode : CreationMode) (objectid_prefix_ : ObjectPrefix) (rep : ObjectVariant Rep)
    (parent_kind : ObjectKind) (parent_id : ObjectId)
    (hnew : c.get_object (compute_object_id E objectid_prefix_ rep) = none)
    (hparent : rep.parent_reference = some (parent_kind, parent_id))
    (hinvalid : ¬ (parent_id.2 &&& 0x0F = E.code parent_kind ∧
      (c.get_object parent_id).isSome = true)) :
    c.create_object E creation_mode objectid_prefix_ rep =
      (result_of StatusValue.STATUS_ERR_UNKNOWN_REFERENCE, c) := by
  rw [create_object_of_unregistered E c creation_mode objectid_prefix_ rep hnew,
    requested_entity_of_invalid_parent E c.objects_ _ rep parent_kind parent_id hparent
      hinvalid]

/-- Witness of C21: participant 5 is registered under `(0, 0x11)`; a topic that names
`(0, 0x12)` as its participant is answered UNKNOWN_REFERENCE and nothing is
registered. -/
theorem create_object_invalid_parent_witness :
    (⟨[((0, 0x11), 5)]⟩ : ProxyClient Nat).create_object example_entities ⟨false, false⟩
      (0, 0x10) (ObjectVariant.topic ⟨(0, 0x12), 7⟩) =
      (result_of StatusValue.STATUS_ERR_UNKNOWN_REFERENCE, ⟨[((0, 0x11), 5)]⟩) :=
  create_object_invalid_parent example_entities ⟨[((0, 0x11), 5)]⟩ ⟨false, false⟩
    (0, 0x10) (ObjectVariant.topic ⟨(0, 0x12), 7⟩) ObjectKind.participant (0, 0x12)
    rfl rfl (by decide)

/-- C22: `delete_object` returns OK exactly when the id is registered, and afterwards
the id is not registered; when the id is not registered it returns
UNKNOWN_REFERENCE and the registry is unchanged; so deleting a registered id twice in
a row returns OK and then UNKNOWN_REFERENCE. -/
theorem delete_object_spec (release : Obj → ObjectContainer Obj → ObjectContainer Obj)
    (c : ProxyClient Obj) (object_id : ObjectId) :
    ((c.delete_object release object_id).1 = result_of StatusValue.STATUS_OK ↔
      (c.get_object object_id).isSome = true) ∧
    (c.delete_object release object_id).2.get_object object_id = none ∧
    (c.get_object object_id = none →
      c.delete_object release object_id =
        (result_of StatusValue.STATUS_ERR_UNKNOWN_REFERENCE, c)) ∧
    ((c.get_object object_id).isSome = true →
      (c.delete_object release object_id).1 = result_of StatusValue.STATUS_OK ∧
      ((c.delete_object release object_id).2.delete_object release object_id).1 =
        result_of StatusValue.STATUS_ERR_UNKNOWN_REFERENCE) := by
  have hsecond : ((c.delete_object release object_id).2.delete_object release object_id).1 =
      result_of StatusValue.STATUS_ERR_UNKNOWN_REFERENCE := by
    rw [delete_object_of_unregistered release _ object_id
      (delete_object_unregisters release c object_id)]
  have hiff : (c.delete_object release object_id).1 = result_of StatusValue.STATUS_OK ↔
      (c.get_object object_id).isSome = true := by
    unfold get_object
    cases h : c.objects_.find object_id with
    | none =>
      rw [delete_object_of_unregistered release c object_id h]
      simp [result_of]
    | some object =>
      rw [delete_object_of_registered release c object_id object h]
      simp
  refine ⟨hiff, delete_object_unregisters release c object_id,
    delete_object_of_unregistered release c object_id, fun h => ⟨hiff.mpr h, hsecond⟩⟩

/-- C26: when the id is already registered and the request takes the
delete-and-recreate path (replace without reuse, or reuse and replace with a
representation that the registered object does not match) and the entity cannot be
created from the representation, `create_object` returns UNKNOWN_REFERENCE and the id
is no longer registered: the registry is the old one without the id. -/
theorem failed_replace_not_rolled_back (E : Entities Obj Rep) (c : ProxyClient Obj)
    (creation_mode : CreationMode) (objectid_prefix_ : ObjectPrefix) (rep : ObjectVariant Rep)
    (existing : Obj)
    (hexists : c.get_object (compute_object_id E objectid_prefix_ rep) = some existing)
    (hpath : creation_mode.replace = true ∧
      (creation_mode.reuse = false ∨
        (creation_mode.reuse = true ∧ E.matched existing rep = false)))
    (hfail : requested_entity E
      (c.objects_.erase (compute_object_id E objectid_prefix_ rep))
      (compute_object_id E objectid_prefix_ rep) rep = none) :
    (c.create_object E creation_mode objectid_prefix_ rep).1 =
      result_of StatusValue.STATUS_ERR_UNKNOWN_REFERENCE ∧
    (c.create_object E creation_mode objectid_prefix_ rep).2.get_object
      (compute_object_id E objectid_prefix_ rep) = none ∧
    (c.create_object E creation_mode objectid_prefix_ rep).2.objects_ =
      c.objects_.erase (compute_object_id E objectid_prefix_ rep) := by
  have hrep : replace_object E c (compute_object_id E objectid_prefix_ rep) rep =
      (result_of StatusValue.STATUS_ERR_UNKNOWN_REFERENCE,
        { objects_ := c.objects_.erase (compute_object_id E objectid_prefix_ rep) }) := by
    rw [replace_object_eq E c _ rep (compute_object_id_nibble E objectid_prefix_ rep), hfail]
  have hcall : c.create_object E creation_mode objectid_prefix_ rep =
      replace_object E c (compute_object_id E objectid_prefix_ rep) rep := by
    rw [create_object_of_registered E c creation_mode objectid_prefix_ rep existing hexists]
    obtain ⟨hreplace, hreuse | ⟨hreuse, hmatch⟩⟩ := hpath
    · simp [hreplace, hreuse]
    · simp [hreplace, hreuse, hmatch]
  rw [hcall, hrep]
  exact ⟨rfl, ObjectContainer.find_erase_self_obj _ _, rfl⟩

/-- Witness of C26: participant 5 is registered; with replace, a request from whose
representation no participant can be created is answered UNKNOWN_REFERENCE and the id
is no longer registered. -/
theorem failed_replace_not_rolled_back_witness :
    ((⟨[((0, 0x11), 5)]⟩ : ProxyClient Nat).create_object example_entities ⟨false, true⟩
      (0, 0x10) (ObjectVariant.participant ⟨0⟩)).1 =
      result_of StatusValue.STATUS_ERR_UNKNOWN_REFERENCE ∧
    ((⟨[((0, 0x11), 5)]⟩ : ProxyClient Nat).create_object example_entities ⟨false, true⟩
      (0, 0x10) (ObjectVariant.participant ⟨0⟩)).2.get_object (0, 0x11) = none :=
  have h := failed_replace_not_rolled_back example_entities ⟨[((0, 0x11), 5)]⟩ ⟨false, true⟩
      (0, 0x10) (ObjectVariant.participant ⟨0⟩) 5 rfl ⟨rfl, Or.inl rfl⟩ rfl
  ⟨h.1, h.2.1⟩

end ProxyClient

end uxr

namespace uxr

/-! ## The wrap-aware order and best-effort streams -/

namespace SeqNum

theorem lt_as_written_of_lt (a b : SeqNum) (h : a < b) : lt_as_written a b = true := by
  simp only [SeqNum.lt_iff, ne_eq] at h
  simpa [lt_as_written] using h.2

/-- C23, the statement as written fails: for `a = b = 0` the difference `(b − a) mod
2^16` is below `2^15`, but `0 < 0` does not hold in the order of sequence numbers; read
word for word, the comparison makes `a < b` and `a == b` hold together. -/
theorem seqnum_order_counterexample :
    (((0 : SeqNum).seq_num_ : Int) - ((0 : SeqNum).seq_num_ : Int)) % 65536 < 32768 ∧
    ¬ ((0 : SeqNum) < 0) ∧
    lt_as_written 0 0 = true ∧ (0 : SeqNum) = 0 := by
  decide

/-- C23, amended: with `a < b` iff `a ≠ b` and `(b − a) mod 2^16 < 2^15`, for all
sequence numbers `a` and `b` with `|a − b| < 2^15` exactly one of `a < b`, `a == b`,
`a > b` holds, and `a < a + k` for every `k` with `1 ≤ k < 2^15`, the sum taken with
wrap-around. -/
theorem seqnum_order_trichotomy (a b : SeqNum) (k : Nat)
    (hclose : a.seq_num_ < b.seq_num_ + 32768 ∧ b.seq_num_ < a.seq_num_ + 32768)
    (hk : 1 ≤ k ∧ k < 32768) :
    (a < b ↔ a ≠ b ∧ ((b.seq_num_ : Int) - (a.seq_num_ : Int)) % 65536 < 32768) ∧
    ((a < b ∧ ¬ a = b ∧ ¬ a > b) ∨ (¬ a < b ∧ a = b ∧ ¬ a > b) ∨
      (¬ a < b ∧ ¬ a = b ∧ a > b)) ∧
    a < a + SeqNum.ofNat k := by
  have ha := a.isLt
  have hb := b.isLt
  simp only [SeqNum.lt_iff, SeqNum.gt_iff, SeqNum.eq_iff, SeqNum.add_val, SeqNum.ofNat_val,
    ne_eq]
  refine ⟨?_, ?_, ?_⟩
  · constructor
    · rintro ⟨h1, h2⟩
      exact ⟨h1, by omega⟩
    · rintro ⟨h1, h2⟩
      exact ⟨h1, by omega⟩
  · omega
  · omega

/-- Witness of C23: 65530 and 3 are not ordered by their values but 65530 and
65535 are; `65530 < 65535`, and `65530 < 65530 + 9`, which wraps to 3. -/
theorem seqnum_order_trichotomy_witness :
    (SeqNum.ofNat 65530 < SeqNum.ofNat 65535 ∧ ¬ SeqNum.ofNat 65530 = SeqNum.ofNat 65535 ∧
      ¬ SeqNum.ofNat 65530 > SeqNum.ofNat 65535) ∧
    SeqNum.ofNat 65530 < SeqNum.ofNat 65530 + SeqNum.ofNat 9 ∧
    SeqNum.ofNat 65530 + SeqNum.ofNat 9 = SeqNum.ofNat 3 :=
  have h := seqnum_order_trichotomy (SeqNum.ofNat 65530) (SeqNum.ofNat 65535) 9
    (by decide) (by decide)
  ⟨by
    rcases h.2.1 with h1 | h1 | h1
    · exact h1
    · exact absurd h1.2.1 (by decide)
    · exact absurd (show SeqNum.ofNat 65530 < SeqNum.ofNat 65535 by decide) h1.1,
   h.2.2, by decide⟩

end SeqNum

namespace BestEffortInputStream

/-- C24: `next_message(seq)` returns true exactly when `seq > last_received` in the
wrap-aware order, and then `last_received` is `seq`; otherwise it returns false and the
stream is unchanged. So a duplicate of the last accepted sequence number is rejected,
and a fresh stream, whose `last_received` is 0xFFFF, accepts sequence number 0. -/
theorem best_effort_next_message (s : BestEffortInputStream) (seq : SeqNum) :
    ((s.next_message seq).1 = true ↔ seq > s.last_received_) ∧
    (seq > s.last_received_ → (s.next_message seq).2.last_received_ = seq) ∧
    (¬ seq > s.last_received_ → s.next_message seq = (false, s)) ∧
    ((s.next_message seq).2.next_message seq).1 = false ∧
    fresh.last_received_ = SeqNum.ofNat 0xFFFF ∧
    fresh.next_message 0 = (true, { last_received_ := 0 }) := by
  have hirr : ∀ x : SeqNum, ¬ x > x := by
    intro x
    simp only [SeqNum.gt_iff, ne_eq, not_true_eq_false, false_and, not_false_eq_true]
  refine ⟨?_, ?_, ?_, ?_, rfl, by decide⟩
  · unfold next_message
    by_cases h : seq > s.last_received_
    · simp [h]
    · simp [h]
  · intro h
    unfold next_message
    rw [if_pos h]
  · intro h
    unfold next_message
    rw [if_neg h]
  · by_cases h : seq > s.last_received_
    · have h1 : s.next_message seq = (true, { s with last_received_ := seq }) := by
        unfold next_message
        rw [if_pos h]
      rw [h1]
      unfold next_message
      rw [if_neg (hirr seq)]
    · have h1 : s.next_message seq = (false, s) := by
        unfold next_message
        rw [if_neg h]
      rw [h1, h1]

end BestEffortInputStream

namespace ReliableInputStream

/-- C30: `reset()` sets `last_handled_` and `last_announced_` to 0xFFFF and empties
the message buffer, and leaves `fragment_msg_` and `fragment_message_available_` as
they were; so a fragment pushed after a reset of a stream whose fragment buffer is not
empty is appended to the bytes received before the reset, and no header is copied. -/
theorem reset_keeps_fragments (s : ReliableInputStream InputMessage) :
    s.reset.last_handled_ = SeqNum.ofNat 0xFFFF ∧
    s.reset.last_announced_ = SeqNum.ofNat 0xFFFF ∧
    s.reset.messages_ = [] ∧
    s.reset.fragment_msg_ = s.fragment_msg_ ∧
    s.reset.fragment_message_available_ = s.fragment_message_available_ ∧
    (∀ m : InputMessage, m.position + m.subheader_.submessage_length ≤ m.buf_.length →
      s.fragment_msg_ ≠ [] →
      (s.reset.push_fragment m).2.fragment_msg_ = s.fragment_msg_ ++ m.payload) := by
  refine ⟨rfl, rfl, rfl, rfl, rfl, ?_⟩
  intro m hread hne
  rw [push_fragment_of_nonempty s.reset m hread hne]
  rfl

end ReliableInputStream

end uxr

namespace uxr

/-! ## The alignment of submessages -/

namespace InputMessage

theorem jump_of_gt (m : InputMessage) (numBytes : Nat)
    (h : m.buf_.length < m.position + numBytes) (hpos : m.position ≤ m.buf_.length) :
    m.jump numBytes = m := by
  unfold jump
  rw [if_neg (by omega)]

end InputMessage

namespace SubmessageHeader

end SubmessageHeader

end uxr

namespace uxr

namespace InputMessage

end InputMessage

namespace ReliableInputStream

/-- Witness of C30: a stream that holds five bytes of a fragmented message is reset;
the next fragment, with payload 7, 8, is appended to those bytes. -/
theorem reset_keeps_fragments_witness :
    (({ (fresh : ReliableInputStream InputMessage) with
        fragment_msg_ := [129, 0, 0, 0, 9] }).reset.push_fragment
      (fragment_message [129, 0, 0, 0] 0 [7, 8])).2.fragment_msg_ =
      [129, 0, 0, 0, 9, 7, 8] :=
  (reset_keeps_fragments
    { (fresh : ReliableInputStream InputMessage) with fragment_msg_ := [129, 0, 0, 0, 9] }).2.2.2.2.2
      (fragment_message [129, 0, 0, 0] 0 [7, 8]) (fragment_message_readable _ _ _)
      (by decide)

end ReliableInputStream

end uxr

namespace uxr

/-! ## The error handling of the multi-port serial agent -/

namespace MultiTermiosAgent

theorem handle_error_loop_of_fixed (remove_serial : Int → Bool) (st : ErrorLoop)
    (hin : st.serial_fd ≠ st.agent.error_fd.length)
    (hfix : handle_error_body remove_serial st = st) (fuel : Nat) :
    handle_error_loop remove_serial fuel st = none := by
  induction fuel with
  | zero => simp [handle_error_loop, hin]
  | succ n ih => simp [handle_error_loop, hin, hfix, ih]

/-- The loop is left after one pass when the one reported descriptor is the key of an
open device and the device can be restarted. -/
theorem handle_error_of_key :
    handle_error (fun _ => true) (fun a => (true, a)) 1
      { devs_ := [], initialized_devs_ := [(3, "/dev/ttyUSB0"), (4, "/dev/ttyUSB1")],
        error_fd := [3, 3] } =
      some (true,
        { devs_ := ["/dev/ttyUSB0"], initialized_devs_ := [(4, "/dev/ttyUSB1")],
          error_fd := [] }) := by
  decide

/-- C27, the code does not do what is asked: two devices are open under the
descriptors 3 and 4 and `error_fd` holds the descriptor 7, which is not a key of
`initialized_devs_`. The body of the loop finds no entry and neither erases the
descriptor nor advances `serial_fd`, so the loop is not left, however many passes are
made, and `handle_error` does not return. -/
theorem handle_error_no_return (remove_serial : Int → Bool)
    (init : MultiTermiosAgent → Bool × MultiTermiosAgent) (fuel : Nat) :
    handle_error_body remove_serial
        { agent :=
            { devs_ := [], initialized_devs_ := [(3, "/dev/ttyUSB0"), (4, "/dev/ttyUSB1")],
              error_fd := [7] },
          serial_fd := 0, rv := true } =
      { agent :=
          { devs_ := [], initialized_devs_ := [(3, "/dev/ttyUSB0"), (4, "/dev/ttyUSB1")],
            error_fd := [7] },
        serial_fd := 0, rv := true } ∧
    handle_error remove_serial init fuel
      { devs_ := [], initialized_devs_ := [(3, "/dev/ttyUSB0"), (4, "/dev/ttyUSB1")],
        error_fd := [7] } = none := by
  have hbody : handle_error_body remove_serial
      { agent :=
          { devs_ := [], initialized_devs_ := [(3, "/dev/ttyUSB0"), (4, "/dev/ttyUSB1")],
            error_fd := [7] },
        serial_fd := 0, rv := true } =
      { agent :=
          { devs_ := [], initialized_devs_ := [(3, "/dev/ttyUSB0"), (4, "/dev/ttyUSB1")],
            error_fd := [7] },
        serial_fd := 0, rv := true } := by
    rfl
  refine ⟨hbody, ?_⟩
  have hloop := handle_error_loop_of_fixed remove_serial _ (by decide) hbody fuel
  exact congrArg (Option.map fun st => (st.rv, st.agent)) hloop

end MultiTermiosAgent

end uxr

namespace uxr

namespace MultiTermiosAgent

theorem find_key (devs : List (Int × String)) (fd : Int) (it : Int × String)
    (h : find devs fd = some it) : it.1 = fd := by
  have := List.find?_some h
  simpa using this

theorem find_cons_fd (e : Int × String) (devs : List (Int × String)) (fd : Int) :
    find (e :: devs) fd = if e.1 = fd then some e else find devs fd := by
  by_cases h : e.1 = fd <;> simp [find, List.find?, h]

theorem find_erase_of_ne_fd (devs : List (Int × String)) (fd k : Int) (h : k ≠ fd) :
    find (erase devs fd) k = find devs k := by
  induction devs with
  | nil => rfl
  | cons e devs ih =>
    by_cases hk : e.1 = fd
    · have hk' : e.1 ≠ k := fun h' => h (h'.symm.trans hk)
      have : erase (e :: devs) fd = erase devs fd := by simp [erase, hk]
      rw [this, ih, find_cons_fd, if_neg hk']
    · have : erase (e :: devs) fd = e :: erase devs fd := by simp [erase, hk]
      rw [this, find_cons_fd, find_cons_fd, ih]

/-- The loop is left when every descriptor still to be visited is the key of an open
device and no descriptor occurs twice: as many passes as there are descriptors to
visit are enough. -/
theorem handle_error_loop_returns (remove_serial : Int → Bool) (fuel : Nat) :
    ∀ st : ErrorLoop,
      st.serial_fd ≤ st.agent.error_fd.length →
      (∀ fd ∈ st.agent.error_fd.drop st.serial_fd,
        (find st.agent.initialized_devs_ fd).isSome = true) →
      (st.agent.error_fd.drop st.serial_fd).Nodup →
      st.agent.error_fd.length - st.serial_fd ≤ fuel →
      (handle_error_loop remove_serial fuel st).isSome = true := by
  induction fuel with
  | zero =>
    intro st hidx _ _ hfuel
    have : st.serial_fd = st.agent.error_fd.length := by omega
    simp [handle_error_loop, this]
  | succ n ih =>
    intro st hidx hkeys hnodup hfuel
    unfold handle_error_loop
    by_cases hend : st.serial_fd = st.agent.error_fd.length
    · simp [hend]
    · rw [if_pos hend]
      have hlt : st.serial_fd < st.agent.error_fd.length := by omega
      have hdrop : st.agent.error_fd.drop st.serial_fd =
          st.agent.error_fd[st.serial_fd] :: st.agent.error_fd.drop (st.serial_fd + 1) :=
        List.drop_eq_getElem_cons hlt
      have hget : st.agent.error_fd.get? st.serial_fd = some st.agent.error_fd[st.serial_fd] :=
        List.get?_eq_get hlt
      rw [hdrop] at hkeys hnodup
      have hkey := hkeys _ (List.mem_cons_self _ _)
      obtain ⟨it, hit⟩ := Option.isSome_iff_exists.mp hkey
      have hitkey := find_key _ _ _ hit
      apply ih
      · unfold handle_error_body
        rw [hget]
        simp only [hit]
        split
        · simp only [List.length_eraseIdx, hlt, if_true]
          omega
        · simp only
          omega
      · unfold handle_error_body
        rw [hget]
        simp only [hit]
        split
        · intro fd hfd
          simp only [List.eraseIdx_eq_take_drop_succ] at hfd
          rw [List.drop_append_of_le_length (by simp; omega)] at hfd
          have htake : (List.take st.serial_fd st.agent.error_fd).drop st.serial_fd = [] := by
            simp
          rw [htake, List.nil_append] at hfd
          have hne : fd ≠ st.agent.error_fd[st.serial_fd] := by
            intro heq
            exact (List.nodup_cons.mp hnodup).1 (heq ▸ hfd)
          simp only [restart_serial]
          split
          · simp only
            rw [hitkey, find_erase_of_ne_fd _ _ _ hne]
            exact hkeys fd (List.mem_cons_of_mem _ hfd)
          · simp only
            rw [hitkey, find_erase_of_ne_fd _ _ _ hne]
            exact hkeys fd (List.mem_cons_of_mem _ hfd)
        · intro fd hfd
          exact hkeys fd (List.mem_cons_of_mem _ hfd)
      · unfold handle_error_body
        rw [hget]
        simp only [hit]
        split
        · simp only [List.eraseIdx_eq_take_drop_succ]
          rw [List.drop_append_of_le_length (by simp; omega)]
          have htake : (List.take st.serial_fd st.agent.error_fd).drop st.serial_fd = [] := by
            simp
          rw [htake, List.nil_append]
          exact (List.nodup_cons.mp hnodup).2
        · exact (List.nodup_cons.mp hnodup).2
      · unfold handle_error_body
        rw [hget]
        simp only [hit]
        split
        · simp only [List.length_eraseIdx, hlt, if_true]
          omega
        · simp only
          omega

end MultiTermiosAgent

end uxr

namespace uxr

/-! ## Matching and repeated creation in the Fast DDS middleware -/

namespace EntityMap

variable {Ent : Type}

theorem emplace_of_find_some_ent (m : EntityMap Ent) (id : Nat) (old entity : Ent)
    (h : find m id = some old) : emplace m id entity = m := by
  unfold emplace
  rw [h]

end EntityMap

namespace FastDDSMiddleware

variable {Ent : Type}

theorem create_participant_by_xml_registered (E : FastDDSEntities Ent)
    (mw : FastDDSMiddleware Ent) (participant_id : Nat) (domain_id : Int) (xml : String)
    (old created : Ent) (hreg : mw.participants_.find participant_id = some old)
    (hcreate : E.participant_by_xml domain_id xml = some created) :
    mw.create_participant_by_xml E participant_id domain_id xml = (true, mw) := by
  unfold create_participant_by_xml
  rw [hcreate]
  simp only
  rw [EntityMap.emplace_of_find_some_ent _ _ old created hreg]

theorem create_topic_by_ref_registered (E : FastDDSEntities Ent)
    (mw : FastDDSMiddleware Ent) (topic_id participant_id : Nat) (ref : String)
    (old participant created : Ent) (hreg : mw.topics_.find topic_id = some old)
    (hparent : mw.participants_.find participant_id = some participant)
    (hcreate : E.topic_by_ref participant ref topic_id = some created) :
    mw.create_topic_by_ref E topic_id participant_id ref = (true, mw) := by
  unfold create_topic_by_ref
  rw [hparent]
  simp only
  rw [hcreate]
  simp only
  rw [EntityMap.emplace_of_find_some_ent _ _ old created hreg]

theorem create_topic_by_xml_registered (E : FastDDSEntities Ent)
    (mw : FastDDSMiddleware Ent) (topic_id participant_id : Nat) (xml : String)
    (old participant created : Ent) (hreg : mw.topics_.find topic_id = some old)
    (hparent : mw.participants_.find participant_id = some participant)
    (hcreate : E.topic_by_xml participant xml topic_id = some created) :
    mw.create_topic_by_xml E topic_id participant_id xml = (true, mw) := by
  unfold create_topic_by_xml
  rw [hparent]
  simp only
  rw [hcreate]
  simp only
  rw [EntityMap.emplace_of_find_some_ent _ _ old created hreg]

theorem create_publisher_by_xml_registered (E : FastDDSEntities Ent)
    (mw : FastDDSMiddleware Ent) (publisher_id participant_id : Nat) (xml : String)
    (old participant created : Ent) (hreg : mw.publishers_.find publisher_id = some old)
    (hparent : mw.participants_.find participant_id = some participant)
    (hcreate : E.publisher_by_xml participant xml = some created) :
    mw.create_publisher_by_xml E publisher_id participant_id xml = (true, mw) := by
  unfold create_publisher_by_xml
  rw [hparent]
  simp only
  rw [hcreate]
  simp only
  rw [EntityMap.emplace_of_find_some_ent _ _ old created hreg]

theorem create_subscriber_by_xml_registered (E : FastDDSEntities Ent)
    (mw : FastDDSMiddleware Ent) (subscriber_id participant_id : Nat) (xml : String)
    (old participant created : Ent) (hreg : mw.subscribers_.find subscriber_id = some old)
    (hparent : mw.participants_.find participant_id = some participant)
    (hcreate : E.subscriber_by_xml participant xml = some created) :
    mw.create_subscriber_by_xml E subscriber_id participant_id xml = (true, mw) := by
  unfold create_subscriber_by_xml
  rw [hparent]
  simp only
  rw [hcreate]
  simp only
  rw [EntityMap.emplace_of_find_some_ent _ _ old created hreg]

theorem create_datawriter_by_ref_registered (E : FastDDSEntities Ent)
    (mw : FastDDSMiddleware Ent) (datawriter_id publisher_id : Nat) (ref : String)
    (old publisher created : Ent) (hreg : mw.datawriters_.find datawriter_id = some old)
    (hparent : mw.publishers_.find publisher_id = some publisher)
    (hcreate : E.datawriter_by_ref publisher ref = some created) :
    mw.create_datawriter_by_ref E datawriter_id publisher_id ref = (true, mw) := by
  unfold create_datawriter_by_ref
  rw [hparent]
  simp only
  rw [hcreate]
  simp only
  rw [EntityMap.emplace_of_find_some_ent _ _ old created hreg]

theorem create_datawriter_by_xml_registered (E : FastDDSEntities Ent)
    (mw : FastDDSMiddleware Ent) (datawriter_id publisher_id : Nat) (xml : String)
    (old publisher created : Ent) (hreg : mw.datawriters_.find datawriter_id = some old)
    (hparent : mw.publishers_.find publisher_id = some publisher)
    (hcreate : E.datawriter_by_xml publisher xml = some created) :
    mw.create_datawriter_by_xml E datawriter_id publisher_id xml = (true, mw) := by
  unfold create_datawriter_by_xml
  rw [hparent]
  simp only
  rw [hcreate]
  simp only
  rw [EntityMap.emplace_of_find_some_ent _ _ old created hreg]

theorem create_datareader_by_ref_registered (E : FastDDSEntities Ent)
    (mw : FastDDSMiddleware Ent) (datareader_id subscriber_id : Nat) (ref : String)
    (old subscriber created : Ent) (hreg : mw.datareaders_.find datareader_id = some old)
    (hparent : mw.subscribers_.find subscriber_id = some subscriber)
    (hcreate : E.datareader_by_ref subscriber ref = some created) :
    mw.create_datareader_by_ref E datareader_id subscriber_id ref = (true, mw) := by
  unfold create_datareader_by_ref
  rw [hparent]
  simp only
  rw [hcreate]
  simp only
  rw [EntityMap.emplace_of_find_some_ent _ _ old created hreg]

theorem create_datareader_by_xml_registered (E : FastDDSEntities Ent)
    (mw : FastDDSMiddleware Ent) (datareader_id subscriber_id : Nat) (xml : String)
    (old subscriber created : Ent) (hreg : mw.datareaders_.find datareader_id = some old)
    (hparent : mw.subscribers_.find subscriber_id = some subscriber)
    (hcreate : E.datareader_by_xml subscriber xml = some created) :
    mw.create_datareader_by_xml E datareader_id subscriber_id xml = (true, mw) := by
  unfold create_datareader_by_xml
  rw [hparent]
  simp only
  rw [hcreate]
  simp only
  rw [EntityMap.emplace_of_find_some_ent _ _ old created hreg]

theorem create_requester_by_ref_registered (E : FastDDSEntities Ent)
    (mw : FastDDSMiddleware Ent) (requester_id participant_id : Nat) (ref : String)
    (old participant created : Ent) (hreg : mw.requesters_.find requester_id = some old)
    (hparent : mw.participants_.find participant_id = some participant)
    (hcreate : E.requester_by_ref participant ref = some created) :
    mw.create_requester_by_ref E requester_id participant_id ref = (true, mw) := by
  unfold create_requester_by_ref
  rw [hparent]
  simp only
  rw [hcreate]
  simp only
  rw [EntityMap.emplace_of_find_some_ent _ _ old created hreg]

theorem create_requester_by_xml_registered (E : FastDDSEntities Ent)
    (mw : FastDDSMiddleware Ent) (requester_id participant_id : Nat) (xml : String)
    (old participant created : Ent) (hreg : mw.requesters_.find requester_id = some old)
    (hparent : mw.participants_.find participant_id = some participant)
    (hcreate : E.requester_by_xml participant xml = some created) :
    mw.create_requester_by_xml E requester_id participant_id xml = (true, mw) := by
  unfold create_requester_by_xml
  rw [hparent]
  simp only
  rw [hcreate]
  simp only
  rw [EntityMap.emplace_of_find_some_ent _ _ old created hreg]

theorem create_replier_by_ref_registered (E : FastDDSEntities Ent)
    (mw : FastDDSMiddleware Ent) (replier_id participant_id : Nat) (ref : String)
    (old participant created : Ent) (hreg : mw.repliers_.find replier_id = some old)
    (hparent : mw.participants_.find participant_id = some participant)
    (hcreate : E.replier_by_ref participant ref = some created) :
    mw.create_replier_by_ref E replier_id participant_id ref = (true, mw) := by
  unfold create_replier_by_ref
  rw [hparent]
  simp only
  rw [hcreate]
  simp only
  rw [EntityMap.emplace_of_find_some_ent _ _ old created hreg]

theorem create_replier_by_xml_registered (E : FastDDSEntities Ent)
    (mw : FastDDSMiddleware Ent) (replier_id participant_id : Nat) (xml : String)
    (old participant created : Ent) (hreg : mw.repliers_.find replier_id = some old)
    (hparent : mw.participants_.find participant_id = some participant)
    (hcreate : E.replier_by_xml participant xml = some created) :
    mw.create_replier_by_xml E replier_id participant_id xml = (true, mw) := by
  unfold create_replier_by_xml
  rw [hparent]
  simp only
  rw [hcreate]
  simp only
  rw [EntityMap.emplace_of_find_some_ent _ _ old created hreg]

/-- C28, the code does not do what is asked: `matched_requester_from_xml` and
`matched_replier_from_xml` return what `match_from_ref` of the registered entity
answers for the XML text, whereas `matched_datareader_from_xml` returns what
`match_from_xml` answers. For a requester (and a replier) created from the XML text
`<r/>`, whose `match_from_xml` accepts that text, the middleware answers false; for a
data reader created the same way it answers true. -/
theorem matched_requester_from_xml_uses_ref :
    (∀ (T : Type) (E : FastDDSEntities T) (mw : FastDDSMiddleware T) (id : Nat)
        (xml : String),
      mw.matched_requester_from_xml E id xml = mw.matched_requester_from_ref E id xml ∧
      mw.matched_replier_from_xml E id xml = mw.matched_replier_from_ref E id xml) ∧
    (((empty.create_participant_by_xml example_fastdds 1 0 "<p/>").2.create_requester_by_xml
        example_fastdds 1 1 "<r/>").2.requesters_.find 1 = some (0, true, "<r/>") ∧
      example_fastdds.match_from_xml (0, true, "<r/>") "<r/>" = true ∧
      ((empty.create_participant_by_xml example_fastdds 1 0 "<p/>").2.create_requester_by_xml
        example_fastdds 1 1 "<r/>").2.matched_requester_from_xml example_fastdds 1 "<r/>" =
        false) ∧
    (((empty.create_participant_by_xml example_fastdds 1 0 "<p/>").2.create_replier_by_xml
        example_fastdds 1 1 "<r/>").2.repliers_.find 1 = some (0, true, "<r/>") ∧
      ((empty.create_participant_by_xml example_fastdds 1 0 "<p/>").2.create_replier_by_xml
        example_fastdds 1 1 "<r/>").2.matched_replier_from_xml example_fastdds 1 "<r/>" =
        false) ∧
    ((((empty.create_participant_by_xml example_fastdds 1 0 "<p/>").2.create_subscriber_by_xml
        example_fastdds 1 1 "<s/>").2.create_datareader_by_xml
        example_fastdds 1 1 "<r/>").2.datareaders_.find 1 = some (0, true, "<r/>") ∧
      (((empty.create_participant_by_xml example_fastdds 1 0 "<p/>").2.create_subscriber_by_xml
        example_fastdds 1 1 "<s/>").2.create_datareader_by_xml
        example_fastdds 1 1 "<r/>").2.matched_datareader_from_xml example_fastdds 1 "<r/>" =
        true) := by
  refine ⟨fun T E mw id xml => ⟨rfl, rfl⟩, ?_, ?_, ?_⟩
  · decide
  · decide
  · decide

/-- The matched functions for data readers answer with `match_from_xml` of the
registered reader, and every one of the three answers false for an id that is not
registered. -/
theorem matched_from_xml_lookup (E : FastDDSEntities Ent) (mw : FastDDSMiddleware Ent)
    (id : Nat) (xml : String) :
    (∀ reader, mw.datareaders_.find id = some reader →
      mw.matched_datareader_from_xml E id xml = E.match_from_xml reader xml) ∧
    (mw.datareaders_.find id = none → mw.matched_datareader_from_xml E id xml = false) ∧
    (mw.requesters_.find id = none → mw.matched_requester_from_xml E id xml = false) ∧
    (mw.repliers_.find id = none → mw.matched_replier_from_xml E id xml = false) := by
  refine ⟨?_, ?_, ?_, ?_⟩
  · intro reader h
    unfold matched_datareader_from_xml
    rw [h]
  · intro h
    unfold matched_datareader_from_xml
    rw [h]
  · intro h
    unfold matched_requester_from_xml
    rw [h]
  · intro h
    unfold matched_replier_from_xml
    rw [h]

/-- C29: when `participant_id` is already registered and a participant can be created
from `ref`, `create_participant_by_ref` returns true and leaves the middleware as it
was: the id still holds the participant registered before, the created one is not
stored, and `matched_participant_from_ref` for the id is answered by the participant
registered before. The other create functions behave in the same way on their
registries: on a registered id, with a registered parent and a text from which the
entity can be created, they return true and leave the middleware as it was. -/
theorem create_by_ref_keeps_registered (E : FastDDSEntities Ent)
    (mw : FastDDSMiddleware Ent) (participant_id : Nat) (domain_id : Int) (ref : String)
    (old created : Ent) (hreg : mw.participants_.find participant_id = some old)
    (hcreate : E.participant_by_ref domain_id ref = some created) :
    (mw.create_participant_by_ref E participant_id domain_id ref).1 = true ∧
    (mw.create_participant_by_ref E participant_id domain_id ref).2 = mw ∧
    (mw.create_participant_by_ref E participant_id domain_id ref).2.participants_.find
      participant_id = some old ∧
    (∀ (d : Int) (r : String),
      (mw.create_participant_by_ref E participant_id domain_id ref).2.matched_participant_from_ref
        E participant_id d r =
        (decide (d = E.get_domain_id old) && E.match_from_ref old r)) ∧
    (∀ (xml : String) (created : Ent), E.participant_by_xml domain_id xml = some created →
      mw.create_participant_by_xml E participant_id domain_id xml = (true, mw)) ∧
    (∀ (topic_id participant_id : Nat) (ref : String) (old participant created : Ent),
      mw.topics_.find topic_id = some old → mw.participants_.find participant_id = some participant →
      E.topic_by_ref participant ref topic_id = some created →
      mw.create_topic_by_ref E topic_id participant_id ref = (true, mw)) ∧
    (∀ (topic_id participant_id : Nat) (xml : String) (old participant created : Ent),
      mw.topics_.find topic_id = some old → mw.participants_.find participant_id = some participant →
      E.topic_by_xml participant xml topic_id = some created →
      mw.create_topic_by_xml E topic_id participant_id xml = (true, mw)) ∧
    (∀ (publisher_id participant_id : Nat) (xml : String) (old participant created : Ent),
      mw.publishers_.find publisher_id = some old → mw.participants_.find participant_id = some participant →
      E.publisher_by_xml participant xml = some created →
      mw.create_publisher_by_xml E publisher_id participant_id xml = (true, mw)) ∧
    (∀ (subscriber_id participant_id : Nat) (xml : String) (old participant created : Ent),
      mw.subscribers_.find subscriber_id = some old → mw.participants_.find participant_id = some participant →
      E.subscriber_by_xml participant xml = some created →
      mw.create_subscriber_by_xml E subscriber_id participant_id xml = (true, mw)) ∧
    (∀ (datawriter_id publisher_id : Nat) (ref : String) (old publisher created : Ent),
      mw.datawriters_.find datawriter_id = some old → mw.publishers_.find publisher_id = some publisher →
      E.datawriter_by_ref publisher ref = some created →
      mw.create_datawriter_by_ref E datawriter_id publisher_id ref = (true, mw)) ∧
    (∀ (datawriter_id publisher_id : Nat) (xml : String) (old publisher created : Ent),
      mw.datawriters_.find datawriter_id = some old → mw.publishers_.find publisher_id = some publisher →
      E.datawriter_by_xml publisher xml = some created →
      mw.create_datawriter_by_xml E datawriter_id publisher_id xml = (true, mw)) ∧
    (∀ (datareader_id subscriber_id : Nat) (ref : String) (old subscriber created : Ent),
      mw.datareaders_.find datareader_id = some old → mw.subscribers_.find subscriber_id = some subscriber →
      E.datareader_by_ref subscriber ref = some created →
      mw.create_datareader_by_ref E datareader_id subscriber_id ref = (true, mw)) ∧
    (∀ (datareader_id subscriber_id : Nat) (xml : String) (old subscriber created : Ent),
      mw.datareaders_.find datareader_id = some old → mw.subscribers_.find subscriber_id = some subscriber →
      E.datareader_by_xml subscriber xml = some created →
      mw.create_datareader_by_xml E datareader_id subscriber_id xml = (true, mw)) ∧
    (∀ (requester_id participant_id : Nat) (ref : String) (old participant created : Ent),
      mw.requesters_.find requester_id = some old → mw.participants_.find participant_id = some participant →
      E.requester_by_ref participant ref = some created →
      mw.create_requester_by_ref E requester_id participant_id ref = (true, mw)) ∧
    (∀ (requester_id participant_id : Nat) (xml : String) (old participant created : Ent),
      mw.requesters_.find requester_id = some old → mw.participants_.find participant_id = some participant →
      E.requester_by_xml participant xml = some created →
      mw.create_requester_by_xml E requester_id participant_id xml = (true, mw)) ∧
    (∀ (replier_id participant_id : Nat) (ref : String) (old participant created : Ent),
      mw.repliers_.find replier_id = some old → mw.participants_.find participant_id = some participant →
      E.replier_by_ref participant ref = some created →
      mw.create_replier_by_ref E replier_id participant_id ref = (true, mw)) ∧
    (∀ (replier_id participant_id : Nat) (xml : String) (old participant created : Ent),
      mw.repliers_.find replier_id = some old → mw.participants_.find participant_id = some participant →
      E.replier_by_xml participant xml = some created →
      mw.create_replier_by_xml E replier_id participant_id xml = (true, mw)) := by
  have hcall : mw.create_participant_by_ref E participant_id domain_id ref = (true, mw) := by
    unfold create_participant_by_ref
    rw [hcreate]
    simp only
    rw [EntityMap.emplace_of_find_some_ent _ _ old created hreg]
  rw [hcall]
  refine ⟨rfl, rfl, hreg, ?_, ?_⟩
  · intro d r
    unfold matched_participant_from_ref
    simp only [hreg]
  · exact ⟨fun xml created hc =>
      create_participant_by_xml_registered E mw participant_id domain_id xml old created
        hreg hc,
      create_topic_by_ref_registered E mw,
      create_topic_by_xml_registered E mw,
      create_publisher_by_xml_registered E mw,
      create_subscriber_by_xml_registered E mw,
      create_datawriter_by_ref_registered E mw,
      create_datawriter_by_xml_registered E mw,
      create_datareader_by_ref_registered E mw,
      create_datareader_by_xml_registered E mw,
      create_requester_by_ref_registered E mw,
      create_requester_by_xml_registered E mw,
      create_replier_by_ref_registered E mw,
      create_replier_by_xml_registered E mw⟩

/-- Witness of C29: participant 1 of domain 0 is registered from the reference `a`; a
second creation under the same id from the reference `b` returns true, and the id is
still matched by `a` and not by `b`. -/
theorem create_by_ref_keeps_registered_witness :
    (((empty : FastDDSMiddleware (Int × Bool × String)).create_participant_by_ref
        example_fastdds 1 0 "a").2.create_participant_by_ref example_fastdds 1 0 "b").1 =
      true ∧
    (((empty : FastDDSMiddleware (Int × Bool × String)).create_participant_by_ref
        example_fastdds 1 0 "a").2.create_participant_by_ref
          example_fastdds 1 0 "b").2.matched_participant_from_ref example_fastdds 1 0 "a" =
      true ∧
    (((empty : FastDDSMiddleware (Int × Bool × String)).create_participant_by_ref
        example_fastdds 1 0 "a").2.create_participant_by_ref
          example_fastdds 1 0 "b").2.matched_participant_from_ref example_fastdds 1 0 "b" =
      false :=
  have h := create_by_ref_keeps_registered example_fastdds
    ((empty : FastDDSMiddleware (Int × Bool × String)).create_participant_by_ref
      example_fastdds 1 0 "a").2 1 0 "b" (0, false, "a") (0, false, "b")
    (by decide) (by decide)
  ⟨h.1, (h.2.2.2.1 0 "a").trans (by decide), (h.2.2.2.1 0 "b").trans (by decide)⟩

end FastDDSMiddleware

end uxr
